import Mathlib

/-!
# Nameserver Address Store: the NameserverEntry resolution state machine

A shallow embedding of `src/lib/nsas/nameserver_entry.cc`: the constructor
from glue RRsets, the RTT setters, `ensureHasCallback`, `askIP` and the
completion handler `ResolverCallback`.  The indexed cache, the zone entry and
the store, whose code is not among the sources, are modelled from the
specification; each such definition says so.

Conventions of the embedding
* A `shared_ptr<ZoneEntry>` and a `NameserverEntry::Callback*` are modelled by
  their pointer value (a natural number); `std::map` keyed by the zone pointer
  is an association list kept in increasing key order, which is the order in
  which the C++ iterator walks it.
* A member function that can throw returns the thrown exception (or the
  normal result) together with the object as it stands when control leaves
  the function.
* The zone callbacks are foreign code: invoking one is recorded as an
  `Invocation` in the order in which `dispatchCallbacks` makes the calls.
* The mutex only serialises the completions; the embedding runs one
  completion at a time.
-/

namespace nsas

/-- Modelled from the spec: the `Fetchable::State` enumeration, whose
declaration (fetchable.h) is not among the sources.  The spec lists the four
states of the resolution state machine. -/
inductive State where
  | NOT_ASKED
  | IN_PROGRESS
  | READY
  | UNREACHABLE
  deriving DecidableEq, Repr

/-- The exceptions thrown by the functions embedded here. -/
inductive Exception where
  | BadValue
  | InconsistentOwnerNames
  | InconsistentClass
  deriving DecidableEq, Repr

/-- An `asiolink::IOAddress`: the address family and the numeric value of the
address.  `IOAddress::equal` is equality of these values. -/
structure IOAddress where
  family : Nat
  value : Nat
  deriving DecidableEq, Repr

/-- An `AddressEntry`: one address and its round-trip time (a `uint32_t`). -/
structure AddressEntry where
  address : IOAddress
  rtt : Nat
  deriving DecidableEq, Repr

/-- The accessor `AddressEntry::getAddress`. -/
def AddressEntry.getAddress (a : AddressEntry) : IOAddress := a.address

/-- The mutator `AddressEntry::setRTT`. -/
def AddressEntry.setRTT (a : AddressEntry) (rtt : Nat) : AddressEntry :=
  { a with rtt := rtt }

/-- Pointer value of a `shared_ptr<ZoneEntry>`. -/
abbrev ZonePtr := Nat

/-- Pointer value of a `NameserverEntry::Callback*`. -/
abbrev CallbackPtr := Nat

/-- The type `std::map<shared_ptr<ZoneEntry>, NameserverEntry::Callback*>`,
as the list of its (key, value) pairs in iteration order. -/
abbrev CallbackMap := List (ZonePtr × CallbackPtr)

/-- The lookup `map::find(zone)`: the value stored under `zone`, `none` for
`end()`. -/
def CallbackMap.find : CallbackMap → ZonePtr → Option CallbackPtr
  | [], _ => none
  | (k, v) :: rest, zone => if k = zone then some v else CallbackMap.find rest zone

/-- The assignment `map[zone] = callback`: overwrites the value of an existing
key, otherwise inserts the pair at its place in key order. -/
def CallbackMap.assign : CallbackMap → ZonePtr → CallbackPtr → CallbackMap
  | [], zone, callback => [(zone, callback)]
  | (k, v) :: rest, zone, callback =>
    if zone < k then (zone, callback) :: (k, v) :: rest
    else if k = zone then (k, callback) :: rest
    else (k, v) :: CallbackMap.assign rest zone callback

/-- The keys of a map, in iteration order. -/
def CallbackMap.keys (m : CallbackMap) : List ZonePtr := m.map Prod.fst

/-- The state of a `NameserverEntry` object.  `state_` is the field behind
`Fetchable::getState`/`setState`; `expiration_` is a `time_t`;
`waiting_responses_` is declared in the header, which is not among the
sources, and is kept as an integer. -/
structure NameserverEntry where
  name_ : String
  classCode_ : Nat
  address_ : List AddressEntry
  expiration_ : Int
  state_ : State
  ipCallbacks_ : CallbackMap
  waiting_responses_ : Int
  deriving DecidableEq, Repr

namespace NameserverEntry

/-- The accessor `Fetchable::getState`. -/
def getState (e : NameserverEntry) : State := e.state_

/-- The mutator `Fetchable::setState`. -/
def setState (e : NameserverEntry) (s : State) : NameserverEntry :=
  { e with state_ := s }

/-- The accessor `NameserverEntry::getName`. -/
def getName (e : NameserverEntry) : String := e.name_

/-- The accessor `NameserverEntry::getClass`. -/
def getClass (e : NameserverEntry) : Nat := e.classCode_

/-- `NameserverEntry::setAddressRTT`: walks the whole address vector and sets
the RTT of every element whose address equals `address`. -/
def setAddressRTT (e : NameserverEntry) (address : IOAddress) (rtt : Nat) :
    NameserverEntry :=
  { e with address_ := e.address_.map fun i =>
      if i.getAddress = address then i.setRTT rtt else i }

/-- `NameserverEntry::updateAddressRTTAtIndex`. -/
def updateAddressRTTAtIndex (e : NameserverEntry) (rtt : Nat) (index : Nat) :
    NameserverEntry :=
  if index ≥ e.address_.length then e
  else { e with address_ := e.address_.modify (fun a => a.setRTT rtt) index }

/-- `NameserverEntry::setAddressUnreachable`.  The constant
`AddressEntry::UNREACHABLE` is declared in address_entry.h, which is not among
the sources; it is taken as the parameter `UNREACHABLE`. -/
def setAddressUnreachable (UNREACHABLE : Nat) (e : NameserverEntry)
    (address : IOAddress) : NameserverEntry :=
  e.setAddressRTT address UNREACHABLE

/-- `NameserverEntry::ensureHasCallback`. -/
def ensureHasCallback (e : NameserverEntry) (zone : ZonePtr)
    (callback : CallbackPtr) : Except Exception Unit × NameserverEntry :=
  if e.getState ≠ State.IN_PROGRESS then
    (.error Exception.BadValue, e)
  else if e.ipCallbacks_.find zone = none then
    (.ok (), { e with ipCallbacks_ := e.ipCallbacks_.assign zone callback })
  else
    (.ok (), e)

end NameserverEntry

/-- One call of a zone callback made by `dispatchCallbacks`:
`(*callback)(zone)`. -/
structure Invocation where
  callback : CallbackPtr
  zone : ZonePtr
  deriving DecidableEq, Repr

/-- An RRset as far as this code reads it: owner name, class code, TTL and
the addresses its rdata iterator yields, in order.  Each rdata is held as the
`IOAddress` that its text form denotes. -/
structure AbstractRRset where
  name : String
  rrclass : Nat
  ttl : Nat
  rdata : List IOAddress
  deriving DecidableEq, Repr

/-- A `Message` as far as `success` reads it: the RRsets of its answer
section, in order. -/
structure Message where
  answer : List AbstractRRset
  deriving DecidableEq, Repr

/-- The addresses the two nested loops of `success` visit, in visiting
order. -/
def Message.addresses (m : Message) : List IOAddress :=
  m.answer.flatMap fun s => s.rdata

/-- Conversion of the `int` counter to the `uint32_t` RTT of an
`AddressEntry`. -/
def toUint32 (n : Nat) : Nat := n % 4294967296

/-- The object `NameserverEntry::ResolverCallback`: `entry_` is the entry the
shared pointer points to, `rtt` the counter member. -/
structure ResolverCallback where
  entry_ : NameserverEntry
  rtt : Nat
  deriving DecidableEq, Repr

namespace ResolverCallback

/-- `ResolverCallback::dispatchCallbacks`: calls every callback of the map with
its zone, in iteration order. -/
def dispatchCallbacks (callbacks : CallbackMap) : List Invocation :=
  callbacks.map fun i => { callback := i.2, zone := i.1 }

/-- The inner loops of `success`: every address visited sets `has_address`,
and is pushed to the back of `address_` with RTT `++rtt`. -/
def pushAddresses : List IOAddress → ResolverCallback → ResolverCallback
  | [], cb => cb
  | a :: rest, cb =>
    pushAddresses rest
      { entry_ := { cb.entry_ with
          address_ := cb.entry_.address_ ++ [{ address := a, rtt := toUint32 (cb.rtt + 1) }] },
        rtt := cb.rtt + 1 }

/-- `ResolverCallback::failure`. -/
def failure (cb : ResolverCallback) : ResolverCallback × List Invocation :=
  let e1 : NameserverEntry :=
    { cb.entry_ with waiting_responses_ := cb.entry_.waiting_responses_ - 1 }
  if e1.waiting_responses_ ≠ 0 ∨ e1.getState ≠ State.IN_PROGRESS then
    ({ cb with entry_ := e1 }, [])
  else
    let callbacks := e1.ipCallbacks_
    let e2 := ({ e1 with ipCallbacks_ := [] } : NameserverEntry).setState State.UNREACHABLE
    ({ cb with entry_ := e2 }, dispatchCallbacks callbacks)

/-- `ResolverCallback::success`. -/
def success (cb : ResolverCallback) (response : Message) :
    ResolverCallback × List Invocation :=
  let has_address : Bool := !response.addresses.isEmpty
  let cb1 := pushAddresses response.addresses cb
  if has_address then
    let callbacks := cb1.entry_.ipCallbacks_
    let e2 : NameserverEntry :=
      ({ cb1.entry_ with
          ipCallbacks_ := [],
          waiting_responses_ := cb1.entry_.waiting_responses_ - 1 } : NameserverEntry).setState
        State.READY
    ({ cb1 with entry_ := e2 }, dispatchCallbacks callbacks)
  else
    failure cb1

end ResolverCallback

/-- The record type code of a question: `RRType::A()` or `RRType::AAAA()`. -/
inductive RRType where
  | A
  | AAAA
  deriving DecidableEq, Repr

/-- A `Question`: name, class and type. -/
structure Question where
  name : String
  rrclass : Nat
  rrtype : RRType
  deriving DecidableEq, Repr

/-- `NameserverEntry::askIP`, with `self` pointing to the entry itself.
`ResolverInterface::resolve` is pure virtual, so its body is the parameter
`resolve`: it gets the question and acts on the resolver's own state and on
the completion handler (and through it on the entry) as they stand at the
call.  The result is the exception or the handler created, the resolver and
the entry as the call leaves them. -/
def NameserverEntry.askIP {ρ : Type}
    (resolve : Question → ρ × ResolverCallback → ρ × ResolverCallback)
    (resolver : ρ) (e : NameserverEntry) (zone : ZonePtr) (callback : CallbackPtr) :
    Except Exception ResolverCallback × ρ × NameserverEntry :=
  if e.getState ≠ State.NOT_ASKED then
    (.error Exception.BadValue, resolver, e)
  else
    let e1 := e.setState State.IN_PROGRESS
    let e2 : NameserverEntry := { e1 with ipCallbacks_ := e1.ipCallbacks_.assign zone callback }
    let resolver_callback : ResolverCallback := { entry_ := e2, rtt := 0 }
    let e3 : NameserverEntry := { resolver_callback.entry_ with waiting_responses_ := 2 }
    let w0 : ρ × ResolverCallback := (resolver, { resolver_callback with entry_ := e3 })
    let w1 := resolve { name := e.getName, rrclass := e.getClass, rrtype := RRType.A } w0
    let w2 := resolve { name := e.getName, rrclass := e.getClass, rrtype := RRType.AAAA } w1
    (.ok w2.2, w2.1, w2.2.entry_)

/-- A resolver that answers later: `resolve` only appends the question and the
handler, as it stands at the call, to the list of requests (the test resolver,
whose `requests` vector the unit test reads). -/
abbrev TestResolver := List (Question × ResolverCallback)

/-- The `resolve` of `TestResolver`. -/
def TestResolver.resolve (q : Question) (w : TestResolver × ResolverCallback) :
    TestResolver × ResolverCallback :=
  (w.1 ++ [(q, w.2)], w.2)

/-- A completion delivered by the resolver to the handler: `failure()` or
`success(message)`. -/
inductive Completion where
  | failure
  | success (response : Message)
  deriving DecidableEq, Repr

/-- Whether the completion carries at least one address. -/
def Completion.hasAddress : Completion → Bool
  | .failure => false
  | .success m => !m.addresses.isEmpty

/-- Delivery of one completion to the handler. -/
def ResolverCallback.complete (cb : ResolverCallback) :
    Completion → ResolverCallback × List Invocation
  | .failure => cb.failure
  | .success m => cb.success m

/-- Delivery of a sequence of completions, one after the other; the
invocations are collected in order. -/
def ResolverCallback.completeAll :
    ResolverCallback → List Completion → ResolverCallback × List Invocation
  | cb, [] => (cb, [])
  | cb, c :: rest =>
    let r := cb.complete c
    let r2 := ResolverCallback.completeAll r.1 rest
    (r2.1, r.2 ++ r2.2)

/-- What a run of the entry is observed through: the requests the resolver
holds, the completion handler with the entry it points to, and the zone
callbacks invoked so far. -/
structure World where
  resolver : TestResolver
  handler : ResolverCallback
  invoked : List Invocation
  deriving DecidableEq, Repr

/-- The calls that can reach an entry. -/
inductive Op where
  | askIP (zone : ZonePtr) (callback : CallbackPtr)
  | ensureHasCallback (zone : ZonePtr) (callback : CallbackPtr)
  | complete (c : Completion)
  | setAddressRTT (address : IOAddress) (rtt : Nat)
  | updateAddressRTTAtIndex (rtt : Nat) (index : Nat)
  deriving DecidableEq, Repr

/-- One call on the world.  A call that throws leaves the world as the throw
leaves it. -/
def World.step (w : World) : Op → World
  | .askIP zone callback =>
    match w.handler.entry_.askIP TestResolver.resolve w.resolver zone callback with
    | (.ok h, r, _) => { w with resolver := r, handler := h }
    | (.error _, r, e) => { w with resolver := r, handler := { w.handler with entry_ := e } }
  | .ensureHasCallback zone callback =>
    { w with handler :=
        { w.handler with entry_ := (w.handler.entry_.ensureHasCallback zone callback).2 } }
  | .complete c =>
    let r := w.handler.complete c
    { w with handler := r.1, invoked := w.invoked ++ r.2 }
  | .setAddressRTT address rtt =>
    { w with handler :=
        { w.handler with entry_ := w.handler.entry_.setAddressRTT address rtt } }
  | .updateAddressRTTAtIndex rtt index =>
    { w with handler :=
        { w.handler with entry_ := w.handler.entry_.updateAddressRTTAtIndex rtt index } }

/-- A sequence of calls, in order. -/
def World.run (w : World) (ops : List Op) : World := ops.foldl World.step w

/-- The two questions `askIP` asks for an entry. -/
def NameserverEntry.questionA (e : NameserverEntry) : Question :=
  { name := e.name_, rrclass := e.classCode_, rrtype := RRType.A }

/-- The AAAA question for an entry. -/
def NameserverEntry.questionAAAA (e : NameserverEntry) : Question :=
  { name := e.name_, rrclass := e.classCode_, rrtype := RRType.AAAA }

/-- The RTT-stamped entries that `pushAddresses` appends, the counter standing
at `rtt` before the first. -/
def stamp : Nat → List IOAddress → List AddressEntry
  | _, [] => []
  | rtt, a :: rest => { address := a, rtt := toUint32 (rtt + 1) } :: stamp (rtt + 1) rest

/-- The handler, and the entry it points to, as they stand when `askIP` makes
its first resolver call: what lines 284-288 have built by then. -/
def NameserverEntry.handlerAtFirstCall (e : NameserverEntry) (zone : ZonePtr)
    (callback : CallbackPtr) : ResolverCallback :=
  { entry_ := { e with state_ := State.IN_PROGRESS,
                       ipCallbacks_ := e.ipCallbacks_.assign zone callback,
                       waiting_responses_ := 2 },
    rtt := 0 }

/-- A fresh entry for `ns.example.com`, class IN, no address, never asked. -/
def exampleEntry : NameserverEntry :=
  { name_ := "ns.example.com.", classCode_ := 1, address_ := [], expiration_ := 0,
    state_ := State.NOT_ASKED, ipCallbacks_ := [], waiting_responses_ := 0 }

/-- An entry that is READY with one address. -/
def readyEntry : NameserverEntry :=
  { exampleEntry with
    address_ := [{ address := { family := 2, value := 3221225985 }, rtt := 1 }],
    state_ := State.READY }

/-- The address 192.0.2.1 (family `AF_INET`). -/
def exampleAddress : IOAddress := { family := 2, value := 3221225985 }

/-- An answer to the A query for `ns.example.com` with the one address
192.0.2.1, as in the unit test. -/
def exampleAnswer : Message :=
  { answer := [{ name := "ns.example.com.", rrclass := 1, ttl := 100, rdata := [exampleAddress] }] }

/-- The handler of the example entry once zone 7 has called askIP with
callback 70 on a resolver that answers later. -/
def exampleHandler : ResolverCallback := exampleEntry.handlerAtFirstCall 7 70

/-- The handler of the example entry once its A query has been answered with
192.0.2.1. -/
def exampleReady : ResolverCallback := (exampleHandler.success exampleAnswer).1

/-- A sequence of `ensureHasCallback` calls on an entry, in order; a call that
throws leaves the entry as the throw leaves it. -/
def NameserverEntry.registerAll (e : NameserverEntry) (regs : List (ZonePtr × CallbackPtr)) :
    NameserverEntry :=
  regs.foldl (fun e p => (e.ensureHasCallback p.1 p.2).2) e

/-- The call a registered pair stands for: the callback invoked with its
zone. -/
def invocationOf (p : ZonePtr × CallbackPtr) : Invocation := { callback := p.2, zone := p.1 }

/-- Modelled from the spec: the state a default-constructed `Fetchable` base
object starts in (fetchable.h is not among the sources).  The spec has askIP
as the only way out of NOT_ASKED and requires NOT_ASKED for it, so a new entry
is NOT_ASKED. -/
def Fetchable.initialState : State := State.NOT_ASKED

/-- The C library `strcasecmp` on the characters of two strings: 0 when they
are equal up to the case of ASCII letters, otherwise the difference of the
first two lowered characters that differ (a string that ends first compares
lower). -/
def strcasecmp : List Char → List Char → Int
  | [], [] => 0
  | [], _ :: _ => -1
  | _ :: _, [] => 1
  | a :: as, b :: bs =>
    if a.toLower = b.toLower then strcasecmp as bs
    else (a.toLower.toNat : Int) - (b.toLower.toNat : Int)

/-- The rdata loops of the constructor: every address is pushed to the back
of `address_` with RTT `++rtt`, `rtt` being a `uint32_t`. -/
def NameserverEntry.pushRdata :
    List IOAddress → List AddressEntry × Nat → List AddressEntry × Nat
  | [], s => s
  | a :: rest, (address_, rtt) =>
    NameserverEntry.pushRdata rest
      (address_ ++ [{ address := a, rtt := toUint32 (rtt + 1) }], toUint32 (rtt + 1))

/-- The constructor `NameserverEntry::NameserverEntry(v4Set, v6Set, curtime)`.
A null pointer is `none`; `now` is what `time(NULL)` returns.  The member
`waiting_responses_` is not initialised by the constructor: its value is the
parameter `indeterminate`. -/
def NameserverEntry.construct (v4Set v6Set : Option AbstractRRset) (curtime now : Int)
    (indeterminate : Int) : Except Exception NameserverEntry :=
  let curtime := if curtime = 0 then now else curtime
  -- the V4 addresses first
  let s4 : (List AddressEntry × Nat) × Int × String × Nat :=
    match v4Set with
    | some v4 => (NameserverEntry.pushRdata v4.rdata ([], 0), curtime + v4.ttl, v4.name, v4.rrclass)
    | none => (([], 0), 0, "", 0)
  let v4name := s4.2.2.1
  let v4class := s4.2.2.2
  -- now the v6 addresses
  let s6 : (List AddressEntry × Nat) × Int × String × Nat :=
    match v6Set with
    | some v6 =>
      let v6expiration : Int := curtime + v6.ttl
      (NameserverEntry.pushRdata v6.rdata s4.1,
       if s4.2.1 = 0 then v6expiration else min s4.2.1 v6expiration,
       v6.name, v6.rrclass)
    | none => (s4.1, s4.2.1, "", 0)
  let v6name := s6.2.2.1
  let v6class := s6.2.2.2
  if v4Set.isSome ∧ v6Set.isSome ∧ strcasecmp v4name.toList v6name.toList ≠ 0 then
    .error Exception.InconsistentOwnerNames
  else if v4Set.isSome ∧ v6Set.isSome ∧ v4class ≠ v6class then
    .error Exception.InconsistentClass
  else
    .ok { name_ := if v4Set.isSome then v4name else v6name,
          classCode_ := if v4Set.isSome then v4class else v6class,
          address_ := s6.1.1,
          expiration_ := s6.2.1,
          state_ := Fetchable.initialState,
          ipCallbacks_ := [],
          waiting_responses_ := indeterminate }

/-- Equality of two strings up to the case of ASCII letters. -/
def eqIgnoreCase (a b : String) : Prop :=
  a.toList.map Char.toLower = b.toList.map Char.toLower

/-- Whether a call is the delivery of a resolver completion. -/
def Op.isCompletion : Op → Bool
  | .complete _ => true
  | _ => false

/-- The number of completions delivered in a sequence of calls. -/
def completions (ops : List Op) : Nat := (ops.filter Op.isCompletion).length

/-- A glue RRset for `ns.example.com` with the one address 192.0.2.1. -/
def exampleGlue : AbstractRRset :=
  { name := "ns.example.com.", rrclass := 1, ttl := 100, rdata := [exampleAddress] }

/-- What holds of an entry on which askIP succeeded, `n` completions having
been delivered since: the count is `2 - n`, the entry is IN_PROGRESS only
before the second completion and UNREACHABLE only from the second on. -/
def Counted (n : Nat) (e : NameserverEntry) : Prop :=
  e.waiting_responses_ = 2 - (n : Int) ∧
  (e.state_ = State.IN_PROGRESS → n ≤ 1) ∧
  (e.state_ = State.UNREACHABLE → 2 ≤ n) ∧
  e.state_ ≠ State.NOT_ASKED

/-- An RRset for `ns.example.com` that holds no address. -/
def exampleEmptySet : AbstractRRset :=
  { name := "ns.example.com.", rrclass := 1, ttl := 100, rdata := [] }

/-- The entry the constructor builds from `exampleEmptySet` at time 1000, the
count starting at 0. -/
def constructedEntry : NameserverEntry :=
  { name_ := "ns.example.com.", classCode_ := 1, address_ := [], expiration_ := 1100,
    state_ := State.NOT_ASKED, ipCallbacks_ := [], waiting_responses_ := 0 }

/-- The entry the constructor builds from `exampleGlue` at time 1000, the
count starting at 0. -/
def glueEntry : NameserverEntry :=
  { name_ := "ns.example.com.", classCode_ := 1,
    address_ := [{ address := exampleAddress, rtt := 1 }], expiration_ := 1100,
    state_ := State.NOT_ASKED, ipCallbacks_ := [], waiting_responses_ := 0 }

/-- Modelled from the spec: the errors of the indexed cache (section 4.1); the
hash table and LRU list sources are not among the sources. -/
inductive CacheError where
  | DuplicateKey
  | InvalidCapacity
  deriving DecidableEq, Repr

/-- Modelled from the spec: the indexed cache of section 3, "hash:
mapping<Key, owned-entry>, lru: ordered-list<Key> (most-recently-used at one
end), capacity"; the hash table and LRU list code is not among the sources.
The least recently used key is the head of `lru`, the most recently used its
last element. -/
structure IndexedCache (κ ε : Type) where
  hash : List (κ × ε)
  lru : List κ
  capacity : Nat
  deriving DecidableEq, Repr

namespace IndexedCache

variable {κ ε : Type} [DecidableEq κ]

/-- Modelled from the spec: construction of the cache, "Capacity == 0 is
invalid (fails with InvalidCapacity at construction)". -/
def create (capacity : Nat) : Except CacheError (IndexedCache κ ε) :=
  if capacity = 0 then .error CacheError.InvalidCapacity
  else .ok { hash := [], lru := [], capacity := capacity }

/-- Modelled from the spec: the entry the hash index holds for a key. -/
def find (c : IndexedCache κ ε) (key : κ) : Option ε :=
  (c.hash.find? fun p => p.1 = key).map Prod.snd

/-- Modelled from the spec: "lookup(key) -> optional<Entry-handle>: on hit,
moves the key to most-recently-used position". -/
def lookup (c : IndexedCache κ ε) (key : κ) : Option ε × IndexedCache κ ε :=
  match c.find key with
  | some e => (some e, { c with lru := c.lru.filter (fun k => k ≠ key) ++ [key] })
  | none => (none, c)

/-- Modelled from the spec: eviction of the least-recently-used key "from both
structures". -/
def evict (c : IndexedCache κ ε) : IndexedCache κ ε :=
  match c.lru with
  | [] => c
  | key :: rest => { c with hash := c.hash.filter (fun p => p.1 ≠ key), lru := rest }

/-- Modelled from the spec: "insert(key, entry): fails with DuplicateKey if key
present.  If at capacity, evicts the least-recently-used entry (removing it
from the hash index too) before inserting the new one"; the new key is the
most recently used. -/
def insert (c : IndexedCache κ ε) (key : κ) (entry : ε) :
    Except CacheError Unit × IndexedCache κ ε :=
  if (c.find key).isSome then (.error CacheError.DuplicateKey, c)
  else
    let c1 := if c.lru.length = c.capacity then c.evict else c
    (.ok (), { c1 with hash := c1.hash ++ [(key, entry)], lru := c1.lru ++ [key] })

/-- A sequence of insertions, in order: the results of the calls and the cache
they leave. -/
def insertAll (c : IndexedCache κ ε) :
    List (κ × ε) → List (Except CacheError Unit) × IndexedCache κ ε
  | [] => ([], c)
  | p :: rest =>
    let r := c.insert p.1 p.2
    let r2 := insertAll r.2 rest
    (r.1 :: r2.1, r2.2)

end IndexedCache

/-- Modelled from the spec: what an `AddressRequestCallback` is invoked with
(section 6), `success(address)` or `unreachable()`.  The store and the zone
entry are not among the sources. -/
inductive Answer where
  | success (address : IOAddress)
  | unreachable
  deriving DecidableEq, Repr

/-- Modelled from the spec: the failures of a store lookup (section 7): the
two caller-input errors, and an exception of the NameserverEntry constructor
passing through. -/
inductive StoreError where
  | InconsistentZone
  | NotNS
  | entry (e : Exception)
  deriving DecidableEq, Repr

/-- Modelled from the spec: the authority RRset as a lookup reads it: owner
name, class, whether its type is NS, and the nameserver names of its NS
records. -/
structure AuthorityRRset where
  name : String
  rrclass : Nat
  isNS : Bool
  nameservers : List String
  deriving DecidableEq, Repr

/-- Modelled from the spec: an address RRset of the additional section, with
its type (A or AAAA). -/
structure GlueRRset where
  rrtype : RRType
  rrset : AbstractRRset
  deriving DecidableEq, Repr

/-- Pointer value of a `shared_ptr<NameserverEntry>`. -/
abbrev NameserverPtr := Nat

/-- Modelled from the spec: the ZoneEntry of section 3, "zone_name,
class_code, nameservers: ordered-list<NameserverKey>, waiting_callers:
queue<AddressRequestCallback>".  The zone is an owner of the nameserver
entries it references (section 3), so a nameserver is held as the pointer of
the entry its key resolved to; a caller's callback is held by its handle. -/
structure ZoneEntry where
  zone_name : String
  class_code : Nat
  nameservers : List NameserverPtr
  waiting_callers : List Nat
  deriving DecidableEq, Repr

/-- Modelled from the spec: the NameserverAddressStore with its two indexed
caches (sections 2 and 3).  Entries live in two arenas, addressed by pointer,
so that an entry evicted from its index lives on while a zone or a resolver
request holds it; a nameserver entry is stored with its completion handler.
`requests` is the queue of the resolver (question, and the nameserver whose
handler the request carries), `results` the caller callbacks invoked so far. -/
structure NameserverAddressStore where
  zones : List ZoneEntry
  nameservers : List ResolverCallback
  zone_index : IndexedCache (String × Nat) ZonePtr
  nameserver_index : IndexedCache (String × Nat) NameserverPtr
  requests : List (Question × NameserverPtr)
  results : List (Nat × Answer)
  deriving DecidableEq, Repr

/-- Modelled from the spec: what the store takes from outside: the
address-selection policy (section 4.3, "external"), which turns the addresses
of the READY nameservers of a zone into the answer for its callers, and the
clock. -/
structure Environment where
  select : List AddressEntry → Answer
  now : Int

namespace NameserverAddressStore

/-- Modelled from the spec: a store with the two capacities; a capacity of 0
is invalid (section 4.1). -/
def create (zoneCapacity nameserverCapacity : Nat) : Except CacheError NameserverAddressStore :=
  match (IndexedCache.create zoneCapacity : Except CacheError (IndexedCache (String × Nat) ZonePtr)),
        (IndexedCache.create nameserverCapacity :
          Except CacheError (IndexedCache (String × Nat) NameserverPtr)) with
  | .ok zi, .ok ni =>
    .ok { zones := [], nameservers := [], zone_index := zi, nameserver_index := ni,
          requests := [], results := [] }
  | .error e, _ => .error e
  | _, .error e => .error e

/-- Modelled from the spec: the validation done when a ZoneEntry is
constructed (sections 3 and 4.3): the authority RRset must be of type NS
(NotNS); its class must be the class of the zone, and the additional address
RRsets must share its class (InconsistentZone).  The owner name of the
authority RRset is not compared with the zone name asked for: section 4.3
states no such check, and the unit test `unreachableNS` has the lookup of
`example.org.` with an authority RRset owned by `example.com.` answered. -/
def validate (_zone : String) (class_code : Nat) (authority : AuthorityRRset)
    (additional : List GlueRRset) : Option StoreError :=
  if authority.isNS = false then some StoreError.NotNS
  else if authority.rrclass ≠ class_code then some StoreError.InconsistentZone
  else if additional.any (fun g => g.rrset.rrclass ≠ authority.rrclass) then
    some StoreError.InconsistentZone
  else none

/-- Modelled from the spec: a "new one requiring resolution" (section 2): the
entry for a nameserver name and class, without address, never asked. -/
def newNameserver (name : String) (class_code : Nat) : NameserverEntry :=
  { name_ := name, classCode_ := class_code, address_ := [], expiration_ := 0,
    state_ := Fetchable.initialState, ipCallbacks_ := [], waiting_responses_ := 0 }

/-- Modelled from the spec: the glue RRset of a type for a nameserver name,
the first of the additional RRsets of that type owned by the name. -/
def glue (additional : List GlueRRset) (rrtype : RRType) (name : String) :
    Option AbstractRRset :=
  (additional.find? fun g =>
    g.rrtype = rrtype ∧ strcasecmp g.rrset.name.toList name.toList = 0).map GlueRRset.rrset

/-- Modelled from the spec: "lookup-or-construct-and-insert" of one nameserver
in the nameserver index (section 4.4, step 3): the cached entry is reused;
otherwise a new entry is made, "seeded from glue" by the constructor when the
additional section has addresses for it, and inserted (which may evict). -/
def resolveNameserver (env : Environment) (s : NameserverAddressStore) (class_code : Nat)
    (additional : List GlueRRset) (name : String) :
    Except Exception NameserverPtr × NameserverAddressStore :=
  match s.nameserver_index.lookup (name, class_code) with
  | (some p, index) => (.ok p, { s with nameserver_index := index })
  | (none, _) =>
    let v4Set := glue additional RRType.A name
    let v6Set := glue additional RRType.AAAA name
    let made : Except Exception NameserverEntry :=
      if v4Set.isSome ∨ v6Set.isSome then NameserverEntry.construct v4Set v6Set 0 env.now 0
      else .ok (newNameserver name class_code)
    match made with
    | .error e => (.error e, s)
    | .ok entry =>
      (.ok s.nameservers.length,
       { s with nameservers := s.nameservers ++ [{ entry_ := entry, rtt := 0 }],
                nameserver_index :=
                  (s.nameserver_index.insert (name, class_code) s.nameservers.length).2 })

/-- Modelled from the spec: the nameservers of a new zone, resolved against
the nameserver index one after the other. -/
def resolveNameservers (env : Environment) (class_code : Nat) (additional : List GlueRRset) :
    List String → NameserverAddressStore →
      Except Exception (List NameserverPtr) × NameserverAddressStore
  | [], s => (.ok [], s)
  | name :: rest, s =>
    match resolveNameserver env s class_code additional name with
    | (.error e, s1) => (.error e, s1)
    | (.ok p, s1) =>
      match resolveNameservers env class_code additional rest s1 with
      | (.error e, s2) => (.error e, s2)
      | (.ok ps, s2) => (.ok (p :: ps), s2)

/-- Modelled from the spec: the freshness re-check of section 4.2, "the cached
entry's expiration timestamp is in the past at lookup time".  An expiration
time of 0 is one that has not been set, as the NameserverEntry constructor
reads it; an entry made without glue has none and does not expire. -/
def expired (env : Environment) (e : NameserverEntry) : Bool :=
  decide (e.expiration_ ≠ 0 ∧ e.expiration_ < env.now)

/-- Modelled from the spec: "trigger askIP and register this zone as a waiter
via ensureHasCallback" (section 4.3, step 2), on the nameserver entry held by
the handler `h` at pointer `p`.  The resolver queues the requests.  The zone
registers under its own pointer, with itself as the callback. -/
def askAndRegister (s : NameserverAddressStore) (zone : ZonePtr) (p : NameserverPtr)
    (h : ResolverCallback) : NameserverAddressStore :=
  match h.entry_.askIP TestResolver.resolve [] zone zone with
  | (.ok asked, queued, _) =>
    { s with
      nameservers := s.nameservers.set p
        { asked with entry_ := (asked.entry_.ensureHasCallback zone zone).2 },
      requests := s.requests ++ queued.map fun q => (q.1, p) }
  | (.error _, _, _) => s

/-- Modelled from the spec: step 2 of the zone lookup path (section 4.3) for
one nameserver: NOT_ASKED, ask and register; IN_PROGRESS, "register as a
waiter only"; READY or UNREACHABLE, nothing, unless the entry's expiration
time is past: then it goes back to NOT_ASKED, "treated as a new cache miss
for resolution purposes" with "the entry identity and waiting-zone
registrations preserved" (section 4.2), and is asked again. -/
def askOrRegister (env : Environment) (s : NameserverAddressStore) (zone : ZonePtr)
    (p : NameserverPtr) : NameserverAddressStore :=
  match s.nameservers[p]? with
  | none => s
  | some h =>
    match h.entry_.getState with
    | State.NOT_ASKED => s.askAndRegister zone p h
    | State.IN_PROGRESS =>
      { s with
        nameservers := s.nameservers.set p
          { h with entry_ := (h.entry_.ensureHasCallback zone zone).2 } }
    | _ =>
      if expired env h.entry_ then
        s.askAndRegister zone p { h with entry_ := h.entry_.setState State.NOT_ASKED }
      else s

/-- Modelled from the spec: steps 3 and 4 of the zone lookup path: when a
referenced nameserver is READY, every waiting caller gets the answer of the
selection policy and the queue is cleared; when all are UNREACHABLE, every
waiting caller gets `unreachable()`; otherwise the callers keep waiting. -/
def evaluate (env : Environment) (s : NameserverAddressStore) (zone : ZonePtr) :
    NameserverAddressStore :=
  match s.zones[zone]? with
  | none => s
  | some z =>
    let entries : List NameserverEntry :=
      z.nameservers.filterMap fun p => (s.nameservers[p]?).map fun h => h.entry_
    let ready : List NameserverEntry := entries.filter fun e => e.getState = State.READY
    if ready ≠ [] then
      { s with
        zones := s.zones.set zone { z with waiting_callers := [] },
        results := s.results ++
          z.waiting_callers.map fun c => (c, env.select (ready.flatMap fun e => e.address_)) }
    else if entries.all (fun e => e.getState = State.UNREACHABLE) then
      { s with
        zones := s.zones.set zone { z with waiting_callers := [] },
        results := s.results ++ z.waiting_callers.map fun c => (c, Answer.unreachable) }
    else s

/-- Modelled from the spec: the lookup path of a zone entry (section 4.3): a
zone without nameserver answers `unreachable()` at once; otherwise the caller
joins the waiting callers, each nameserver is asked or registered with, and
the zone answers if it can. -/
def zoneLookup (env : Environment) (s : NameserverAddressStore) (zone : ZonePtr)
    (callback : Nat) : NameserverAddressStore :=
  match s.zones[zone]? with
  | none => s
  | some z =>
    if z.nameservers = [] then
      { s with results := s.results ++ [(callback, Answer.unreachable)] }
    else
      let s1 : NameserverAddressStore :=
        { s with
          zones := s.zones.set zone
            { z with waiting_callers := z.waiting_callers ++ [callback] } }
      let s2 := z.nameservers.foldl (fun s p => s.askOrRegister env zone p) s1
      evaluate env s2 zone

/-- Modelled from the spec: `lookup(zone_name, class_code, authority_rrset,
additional_rrsets, callback)` of section 4.4: on a hit in the zone index the
cached zone entry takes the callback; on a miss a zone entry is constructed
from the RRsets (which may fail, the failure going to the caller), its
nameservers are resolved against the nameserver index, it is inserted in the
zone index (which may evict), and it takes the callback. -/
def lookup (env : Environment) (s : NameserverAddressStore) (zone : String) (class_code : Nat)
    (authority : AuthorityRRset) (additional : List GlueRRset) (callback : Nat) :
    Except StoreError Unit × NameserverAddressStore :=
  match s.zone_index.lookup (zone, class_code) with
  | (some z, index) => (.ok (), zoneLookup env { s with zone_index := index } z callback)
  | (none, _) =>
    match validate zone class_code authority additional with
    | some err => (.error err, s)
    | none =>
      match resolveNameservers env class_code additional authority.nameservers s with
      | (.error e, s1) => (.error (StoreError.entry e), s1)
      | (.ok ps, s1) =>
        let s2 : NameserverAddressStore :=
          { s1 with
            zones := s1.zones ++
              [{ zone_name := zone, class_code := class_code, nameservers := ps,
                 waiting_callers := [] }],
            zone_index := (s1.zone_index.insert (zone, class_code) s1.zones.length).2 }
        (.ok (), zoneLookup env s2 s1.zones.length callback)

/-- Modelled from the spec: the resolver delivers a completion for the request
at a position of its queue (section 6): the handler of the nameserver runs,
and every zone callback it invokes makes that zone answer if it can. -/
def complete (env : Environment) (s : NameserverAddressStore) (request : Nat)
    (c : Completion) : NameserverAddressStore :=
  match s.requests[request]? with
  | none => s
  | some (_, p) =>
    match s.nameservers[p]? with
    | none => s
    | some h =>
      (h.complete c).2.foldl (fun s i => evaluate env s i.zone)
        { s with nameservers := s.nameservers.set p (h.complete c).1 }

end NameserverAddressStore

/-- A selection policy for the examples: the first address offered. -/
def exampleEnvironment : Environment :=
  { select := fun l =>
      match l with
      | [] => Answer.unreachable
      | x :: _ => Answer.success x.address,
    now := 1000 }

/-- The store of the unit tests before any lookup, with capacities large
enough for them. -/
def emptyStore : NameserverAddressStore :=
  { zones := [], nameservers := [],
    zone_index := { hash := [], lru := [], capacity := 10 },
    nameserver_index := { hash := [], lru := [], capacity := 10 },
    requests := [], results := [] }

/-- The authority RRset of the unit tests: `example.net NS ns.example.com`. -/
def exampleAuthority : AuthorityRRset :=
  { name := "example.net.", rrclass := 1, isNS := true, nameservers := ["ns.example.com."] }

/-- An authority RRset for `example.net` without NS record. -/
def emptyAuthority : AuthorityRRset :=
  { name := "example.net.", rrclass := 1, isNS := true, nameservers := [] }

/-- The store after a first lookup of `example.net` by caller 100: its
nameserver is being resolved. -/
def askedStore : NameserverAddressStore :=
  (emptyStore.lookup exampleEnvironment "example.net." 1 exampleAuthority [] 100).2

/-- The handler and entry of `ns.example.com` once both its queries have
failed. -/
def unreachableHandler : ResolverCallback :=
  { entry_ := { exampleEntry with
                state_ := State.UNREACHABLE, ipCallbacks_ := [], waiting_responses_ := 0 },
    rtt := 0 }

/-- The callers waiting on the zone a pointer stands for; none when the
pointer stands for no zone. -/
def waitingOf (zones : List ZoneEntry) (zone : ZonePtr) : List Nat :=
  match zones[zone]? with
  | some z => z.waiting_callers
  | none => []

/-- The authority RRset of a zone served by one nameserver. -/
def singleAuthority (zone : String) (class_code : Nat) (nameserver : String) : AuthorityRRset :=
  { name := zone, rrclass := class_code, isNS := true, nameservers := [nameserver] }

/-- A sequence of lookups of zones that are all served by the one nameserver
`nameserver`, without glue: each is a zone name with the caller's callback. -/
def NameserverAddressStore.lookupAll (env : Environment) (class_code : Nat)
    (nameserver : String) :
    List (String × Nat) → NameserverAddressStore →
      List (Except StoreError Unit) × NameserverAddressStore
  | [], s => ([], s)
  | l :: rest, s =>
    let r := s.lookup env l.1 class_code (singleAuthority l.1 class_code nameserver) [] l.2
    let r2 := NameserverAddressStore.lookupAll env class_code nameserver rest r.2
    (r.1 :: r2.1, r2.2)

/-- A store in which the one nameserver `name` is being resolved with handler
`h`, nothing has been answered yet and the callers `callers` are waiting: the
two requests of the nameserver are the only ones, every zone is served by that
nameserver alone, the zones with waiting callers are registered with the
nameserver entry, and the callers waiting on the registered zones are
`callers`, each once. -/
structure Resolving (name : String) (class_code : Nat) (h : ResolverCallback)
    (callers : List Nat) (s : NameserverAddressStore) : Prop where
  nameservers : s.nameservers = [h]
  state : h.entry_.state_ = State.IN_PROGRESS
  address : h.entry_.address_ = []
  rtt : h.rtt = 0
  nodup : h.entry_.ipCallbacks_.keys.Nodup
  registered : ∀ zone : ZonePtr,
    waitingOf s.zones zone ≠ [] → zone ∈ h.entry_.ipCallbacks_.keys
  index : s.nameserver_index.hash = [((name, class_code), 0)] ∧
    s.nameserver_index.lru = [(name, class_code)]
  requests : s.requests =
    [(⟨name, class_code, RRType.A⟩, 0), (⟨name, class_code, RRType.AAAA⟩, 0)]
  results : s.results = []
  zones : ∀ (zone : ZonePtr) (z : ZoneEntry), s.zones[zone]? = some z → z.nameservers = [0]
  pointers : ∀ q ∈ s.zone_index.hash, q.2 < s.zones.length
  pending : (h.entry_.ipCallbacks_.keys.flatMap (waitingOf s.zones)).Perm callers

/-- An answer to the AAAA query with the two addresses 2001:db8::1 and
2001:db8::2. -/
def exampleAnswer6 : Message :=
  { answer := [{ name := "ns.example.com.", rrclass := 1, ttl := 100,
                 rdata := [{ family := 10, value := 42540766411282592856903984951653826561 },
                           { family := 10, value := 42540766411282592856903984951653826562 }] }] }

/-- The world of the example entry once zone 7 has called askIP. -/
def exampleWorld : World :=
  { resolver := [(exampleEntry.questionA, exampleHandler), (exampleEntry.questionAAAA, exampleHandler)],
    handler := exampleHandler, invoked := [] }

/-- A store whose nameserver index holds one entry only. -/
def smallStore : NameserverAddressStore :=
  { zones := [], nameservers := [],
    zone_index := { hash := [], lru := [], capacity := 10 },
    nameserver_index := { hash := [], lru := [], capacity := 1 },
    requests := [], results := [] }

/-- The store `smallStore` after `example.net` has been looked up, both
queries for its nameserver `ns.example.com` have failed, and `example.org`,
served by `ns.example.org`, has been looked up. -/
def evictedStore : NameserverAddressStore :=
  ((((smallStore.lookup exampleEnvironment "example.net." 1 exampleAuthority [] 100).2.complete
      exampleEnvironment 0 Completion.failure).complete
      exampleEnvironment 1 Completion.failure).lookup exampleEnvironment "example.org." 1
      { name := "example.org.", rrclass := 1, isNS := true, nameservers := ["ns.example.org."] }
      [] 101).2

/-- Modelled from the spec: the functor `AddressSelection`, declared in
nameserver_entry.h, which is not among the sources.  The comments of
`getAddresses` say what it is: the selection of the addresses of a family,
"a family value of 0 will select all address families", negated because
`remove_copy_if` copies the elements for which the predicate is false. -/
def AddressSelection (family : Nat) (entry : AddressEntry) : Bool :=
  !(decide (family = 0) || decide (entry.getAddress.family = family))

/-- `NameserverEntry::getAddresses`: `remove_copy_if` over `address_` with a
back inserter on `addresses` and the predicate `bind1st(selection, family)`;
the result is the vector `addresses` after the call. -/
def NameserverEntry.getAddresses (selection : Nat → AddressEntry → Bool)
    (e : NameserverEntry) (addresses : List AddressEntry) (family : Nat) :
    List AddressEntry :=
  addresses ++ e.address_.filter fun a => !(selection family a)

/-- Two glue RRsets for `ns.example.com` with TTL 100 (A) and TTL 300 (AAAA). -/
def exampleGlue6 : AbstractRRset :=
  { name := "ns.example.com.", rrclass := 1, ttl := 300,
    rdata := [{ family := 10, value := 42540766411282592856903984951653826561 }] }

/-- What `success` and `failure` do to the entry's mutex and to the zone
callbacks, in program order: the scoped lock is taken, the registry is swapped
into the local map, the lock is released (at the end of its block, or at the
`return` inside it), a zone callback is invoked. -/
inductive LockEvent where
  | lock
  | swap
  | unlock
  | invoke (i : Invocation)
  deriving DecidableEq, Repr

/-- `ResolverCallback::failure`, as the events it makes on the handler `cb`:
the block under `scoped_lock` either returns early or swaps the registry out;
`dispatchCallbacks` follows the block. -/
def ResolverCallback.failureEvents (cb : ResolverCallback) : List LockEvent :=
  let e1 : NameserverEntry :=
    { cb.entry_ with waiting_responses_ := cb.entry_.waiting_responses_ - 1 }
  if e1.waiting_responses_ ≠ 0 ∨ e1.getState ≠ State.IN_PROGRESS then
    [LockEvent.lock, LockEvent.unlock]
  else
    [LockEvent.lock, LockEvent.swap, LockEvent.unlock] ++
      (ResolverCallback.dispatchCallbacks e1.ipCallbacks_).map LockEvent.invoke

/-- `ResolverCallback::success`, as the events it makes on the handler `cb`:
under the lock the addresses are pushed and, when there is one, the registry
is swapped out; after the block either `dispatchCallbacks` runs or `failure()`
is called, which takes the lock itself. -/
def ResolverCallback.successEvents (cb : ResolverCallback) (response : Message) :
    List LockEvent :=
  let has_address : Bool := !response.addresses.isEmpty
  let cb1 := ResolverCallback.pushAddresses response.addresses cb
  if has_address then
    [LockEvent.lock, LockEvent.swap, LockEvent.unlock] ++
      (ResolverCallback.dispatchCallbacks cb1.entry_.ipCallbacks_).map LockEvent.invoke
  else
    [LockEvent.lock, LockEvent.unlock] ++ cb1.failureEvents

/-- Whether a sequence of events, starting with the lock held or not, keeps
to the discipline: the lock is taken only when free and released only when
held, the registry is swapped only while the lock is held, a callback is
invoked only while it is not, and the lock is free at the end. -/
def lockDiscipline : Bool → List LockEvent → Bool
  | held, [] => !held
  | held, LockEvent.lock :: rest => !held && lockDiscipline true rest
  | held, LockEvent.unlock :: rest => held && lockDiscipline false rest
  | held, LockEvent.swap :: rest => held && lockDiscipline held rest
  | held, LockEvent.invoke _ :: rest => !held && lockDiscipline held rest

/-- The callbacks invoked in a sequence of events, in order. -/
def invocationsOf : List LockEvent → List Invocation
  | [] => []
  | LockEvent.invoke i :: rest => i :: invocationsOf rest
  | _ :: rest => invocationsOf rest

namespace socket_creator

/-- The exceptions the socket creator throws. -/
inductive Error where
  | ReadError
  | WriteError
  | ProtocolError
  | InternalError
  deriving DecidableEq, Repr

/-- The two descriptors of the socket creator and what has been done through
its function arguments: `input` are the bytes the input descriptor still
delivers, `failing` tells whether a read beyond them fails with an error
(otherwise it finds the end of the input); `output` are the bytes written to
the output descriptor so far, `room` the number of bytes the output
descriptor still accepts (`none`: it never fails), `sent` the descriptors
passed to `send_fd_fun` and `closed` those passed to `close_fun`, in call
order. -/
structure Channel where
  input : List Char
  failing : Bool
  output : List Char
  room : Option Nat
  sent : List Int
  closed : List Int
  deriving DecidableEq, Repr

/-- Modelled from the spec: `read_data` of `util/io/fd.h` is not among the
sources and the spec does not describe it, so it is taken by its declared
contract, `ssize_t read_data(int fd, void* buffer, size_t length)`: it reads
up to `length` bytes into the buffer and returns their number, fewer than
`length` only at the end of the input, or -1 when reading fails.  The second
component is the buffer after the call, `where` being what it held before:
the bytes read overwrite its beginning. -/
def read_data (s : Channel) (where_ : List Char) (length : Nat) :
    Int × List Char × Channel :=
  if length ≤ s.input.length then
    (length, s.input.take length, { s with input := s.input.drop length })
  else if s.failing then
    (-1, s.input ++ where_.drop s.input.length, { s with input := [] })
  else
    (s.input.length, s.input ++ where_.drop s.input.length, { s with input := [] })

/-- The conversion of an `ssize_t` to `size_t` that the comparison in
`readMessage` applies to the result of `read_data` (64-bit `size_t`). -/
def toSizeT (n : Int) : Int := n % 18446744073709551616

/-- Modelled from the spec: `write_data` of `util/io/fd.h` is not among the
sources and the spec does not describe it, so it is taken by the contract its
caller `writeMessage` relies on: it writes the bytes and tells whether all of
them went out; a failing write may have written a part. -/
def write_data (s : Channel) (what : List Char) : Bool × Channel :=
  match s.room with
  | none => (true, { s with output := s.output ++ what })
  | some r =>
    if what.length ≤ r then
      (true, { s with output := s.output ++ what, room := some (r - what.length) })
    else
      (false, { s with output := s.output ++ what.take r, room := some 0 })

/-- `readMessage`: throws `ReadError` when `read_data(fd, where, length) <
length`, the left side converted to `size_t`; otherwise the caller goes on
with the buffer `where` as `read_data` has left it. -/
def readMessage (s : Channel) (where_ : List Char) (length : Nat) :
    Except Error (List Char) × Channel :=
  if toSizeT (read_data s where_ length).1 < (length : Int) then
    (Except.error Error.ReadError, (read_data s where_ length).2.2)
  else
    (Except.ok (read_data s where_ length).2.1, (read_data s where_ length).2.2)

/-- `writeMessage`: throws `WriteError` when `write_data` fails. -/
def writeMessage (s : Channel) (what : List Char) : Except Error Unit × Channel :=
  if !(write_data s what).1 then
    (Except.error Error.WriteError, (write_data s what).2)
  else
    (Except.ok (), (write_data s what).2)

/-- `protocolError`: writes `F` and the reason, then throws `ProtocolError`;
it never returns, so the result is the exception that leaves it. -/
def protocolError (s : Channel) (reason : Char) : Error × Channel :=
  match writeMessage s ['F', reason] with
  | (Except.error e, s1) => (e, s1)
  | (Except.ok _, s1) => (Error.ProtocolError, s1)

/-- The socket type `SOCK_STREAM` of the system headers. -/
def SOCK_STREAM : Int := 1

/-- The socket type `SOCK_DGRAM` of the system headers. -/
def SOCK_DGRAM : Int := 2

/-- The address family `AF_INET` of the system headers. -/
def AF_INET : Nat := 2

/-- The address family `AF_INET6` of the system headers. -/
def AF_INET6 : Nat := 10

/-- The fields of `sockaddr_in` and `sockaddr_in6` that `handleRequest` fills
in: the family and the port and address bytes as read. -/
structure SockAddr where
  family : Nat
  port : List Char
  address : List Char
  deriving DecidableEq, Repr

/-- The second `switch` of `handleRequest`: reads port and address for the
family given by `type[1]` into the structure that `memset` has zeroed, giving
the address and its length. -/
def handleRequest.readAddress (family : Char) (s : Channel) :
    Except Error (SockAddr × Nat) × Channel :=
  if family = '4' then
    match readMessage s (List.replicate 2 (Char.ofNat 0)) 2 with
    | (Except.error e, s1) => (Except.error e, s1)
    | (Except.ok port, s1) =>
      match readMessage s1 (List.replicate 4 (Char.ofNat 0)) 4 with
      | (Except.error e, s2) => (Except.error e, s2)
      | (Except.ok address, s2) => (Except.ok (⟨AF_INET, port, address⟩, 16), s2)
  else if family = '6' then
    match readMessage s (List.replicate 2 (Char.ofNat 0)) 2 with
    | (Except.error e, s1) => (Except.error e, s1)
    | (Except.ok port, s1) =>
      match readMessage s1 (List.replicate 16 (Char.ofNat 0)) 16 with
      | (Except.error e, s2) => (Except.error e, s2)
      | (Except.ok address, s2) => (Except.ok (⟨AF_INET6, port, address⟩, 28), s2)
  else
    (Except.error (protocolError s 'I').1, (protocolError s 'I').2)

/-- The part of `handleRequest` after `get_sock` has returned `result`: the
descriptor is announced, sent and closed, or the error is reported with the
bytes of `errno`. -/
def handleRequest.reply (send_fd_fun close_fun : Int → Int) (errno : List Char)
    (result : Int) (s : Channel) : Except Error Unit × Channel :=
  if 0 ≤ result then
    match writeMessage s ['S'] with
    | (Except.error e, s1) => (Except.error e, s1)
    | (Except.ok _, s1) =>
      if send_fd_fun result ≠ 0 then
        (Except.error Error.InternalError,
          { s1 with sent := s1.sent ++ [result], closed := s1.closed ++ [result] })
      else if close_fun result = -1 then
        (Except.error Error.InternalError,
          { s1 with sent := s1.sent ++ [result], closed := s1.closed ++ [result] })
      else
        (Except.ok (),
          { s1 with sent := s1.sent ++ [result], closed := s1.closed ++ [result] })
  else
    match writeMessage s ['E'] with
    | (Except.error e, s1) => (Except.error e, s1)
    | (Except.ok _, s1) =>
      if result = -1 then
        match writeMessage s1 ['S'] with
        | (Except.error e, s2) => (Except.error e, s2)
        | (Except.ok _, s2) => writeMessage s2 errno
      else if result = -2 then
        match writeMessage s1 ['B'] with
        | (Except.error e, s2) => (Except.error e, s2)
        | (Except.ok _, s2) => writeMessage s2 errno
      else
        (Except.error Error.InternalError, s1)

/-- `handleRequest`: reads the two bytes of the request, the port and the
address, asks `get_sock` for the socket and replies.  The buffer `type` is
not initialised: `indeterminate` gives the bytes the local buffers of the
program hold before they are read into (offsets 1 and 2 for `type`). -/
def handleRequest (get_sock : Int → SockAddr → Nat → Int) (send_fd_fun close_fun : Int → Int)
    (errno : List Char) (indeterminate : Nat → Char) (s : Channel) :
    Except Error Unit × Channel :=
  match readMessage s [indeterminate 1, indeterminate 2] 2 with
  | (Except.error e, s1) => (Except.error e, s1)
  | (Except.ok type, s1) =>
    if type.getD 0 ' ' ≠ 'T' ∧ type.getD 0 ' ' ≠ 'U' then
      (Except.error (protocolError s1 'I').1, (protocolError s1 'I').2)
    else
      match handleRequest.readAddress (type.getD 1 ' ') s1 with
      | (Except.error e, s2) => (Except.error e, s2)
      | (Except.ok (addr, addr_len), s2) =>
        handleRequest.reply send_fd_fun close_fun errno
          (get_sock (if type.getD 0 ' ' = 'T' then SOCK_STREAM else SOCK_DGRAM) addr addr_len) s2

/-- The `for (;;)` loop of `run`, for at most `fuel` commands; `none` when the
fuel runs out before the loop is left.  The variable `command` is not
initialised (offset 0 of `indeterminate`). -/
def runLoop (get_sock : Int → SockAddr → Nat → Int) (send_fd_fun close_fun : Int → Int)
    (errno : List Char) (indeterminate : Nat → Char) :
    Nat → Channel → Option (Except Error Unit × Channel)
  | 0, _ => none
  | fuel + 1, s =>
    match readMessage s [indeterminate 0] 1 with
    | (Except.error e, s1) => some (Except.error e, s1)
    | (Except.ok command, s1) =>
      if command.getD 0 ' ' = 'S' then
        match handleRequest get_sock send_fd_fun close_fun errno indeterminate s1 with
        | (Except.error e, s2) => some (Except.error e, s2)
        | (Except.ok _, s2) =>
          runLoop get_sock send_fd_fun close_fun errno indeterminate fuel s2
      else if command.getD 0 ' ' = 'T' then
        some (Except.ok (), s1)
      else
        some (Except.error (protocolError s1 'I').1, (protocolError s1 'I').2)

/-- `run`, with one turn more than there are bytes of input: while no read
fails with an error every command reads a byte, and that many turns are
enough for the loop to be left. -/
def run (get_sock : Int → SockAddr → Nat → Int) (send_fd_fun close_fun : Int → Int)
    (errno : List Char) (indeterminate : Nat → Char) (s : Channel) :
    Option (Except Error Unit × Channel) :=
  runLoop get_sock send_fd_fun close_fun errno indeterminate (s.input.length + 1) s

/-- The normal ways out of the loop when commands are read: the command byte
read is `T`, or it is `S`, the request is handled without exception, and the
loop leaves normally from the state after it. -/
inductive Terminates (get_sock : Int → SockAddr → Nat → Int) (send_fd_fun close_fun : Int → Int)
    (errno : List Char) (indeterminate : Nat → Char) : Channel → Channel → Prop where
  | terminate (s : Channel) (rest : List Char) (h : s.input = 'T' :: rest) :
      Terminates get_sock send_fd_fun close_fun errno indeterminate s { s with input := rest }
  | request (s s2 s3 : Channel) (rest : List Char) (h : s.input = 'S' :: rest)
      (hr : handleRequest get_sock send_fd_fun close_fun errno indeterminate
        { s with input := rest } = (Except.ok (), s2))
      (ht : Terminates get_sock send_fd_fun close_fun errno indeterminate s2 s3) :
      Terminates get_sock send_fd_fun close_fun errno indeterminate s s3

/-- A channel on which the client sends the one byte `X` and the output
descriptor accepts a single byte. -/
def badCommand : Channel :=
  ⟨['X'], false, [], some 1, [], []⟩

/-- A client asking for a TCP socket on an IPv4 address, port bytes `0 5`,
address bytes `1 2 3 4`, on an output descriptor that accepts nothing. -/
def brokenOutput : Channel :=
  ⟨['T', '4', Char.ofNat 0, Char.ofNat 5, Char.ofNat 1, Char.ofNat 2, Char.ofNat 3,
    Char.ofNat 4], false, [], some 0, [], []⟩

/-- An input descriptor on which every read fails. -/
def brokenInput : Channel :=
  ⟨[], true, [], none, [], []⟩

/-- A `get_sock` that always gives descriptor 5. -/
def get_sock5 (_type : Int) (_addr : SockAddr) (_len : Nat) : Int := 5

/-- A `send_fd_fun` and `close_fun` that always succeed. -/
def succeed (_fd : Int) : Int := 0

/-- Local buffers that hold the byte `c` before they are read into. -/
def filledWith (c : Char) (_offset : Nat) : Char := c

end socket_creator

/-- The authority RRset of the unit test `unreachableNS` after its `setName`:
`example.com NS ns.example.com`. -/
def comAuthority : AuthorityRRset :=
  { name := "example.com.", rrclass := 1, isNS := true, nameservers := ["ns.example.com."] }

/-- The glue of `ns.example.com` (192.0.2.1, TTL 100) as the additional
section of a lookup. -/
def exampleAdditional : List GlueRRset :=
  [{ rrtype := RRType.A, rrset := exampleGlue }]

/-- An additional section whose address RRset is of class CH. -/
def chaosAdditional : List GlueRRset :=
  [{ rrtype := RRType.A,
     rrset := { name := "ns.example.com.", rrclass := 3, ttl := 100, rdata := [exampleAddress] } }]

/-- The environment of the examples at the later time 2000. -/
def laterEnvironment : Environment :=
  { select := exampleEnvironment.select, now := 2000 }

/-- The store after `example.net` has been looked up at time 1000 with the
glue of its nameserver, whose TTL is 100, and both queries for the nameserver
have failed. -/
def glueStore : NameserverAddressStore :=
  ((emptyStore.lookup exampleEnvironment "example.net." 1 exampleAuthority exampleAdditional
      100).2.complete exampleEnvironment 0 Completion.failure).complete exampleEnvironment 1
    Completion.failure

/-- The store of the unit test `unreachableNS` when both queries have failed:
`example.net` has been looked up by caller 100, `example.com`, with the same
nameserver, by caller 101, and the two queries for `ns.example.com` have
failed. -/
def testStore : NameserverAddressStore :=
  ((askedStore.lookup exampleEnvironment "example.com." 1 comAuthority [] 101).2.complete
      exampleEnvironment 0 Completion.failure).complete exampleEnvironment 1 Completion.failure

/-! ## Lemmas -/

theorem pushAddresses_eq (as : List IOAddress) (cb : ResolverCallback) :
    ResolverCallback.pushAddresses as cb =
      { entry_ := { cb.entry_ with address_ := cb.entry_.address_ ++ stamp cb.rtt as },
        rtt := cb.rtt + as.length } := by
  induction as generalizing cb with
  | nil => simp [ResolverCallback.pushAddresses, stamp]
  | cons a rest ih =>
    simp [ResolverCallback.pushAddresses, stamp, ih, Nat.add_assoc, Nat.add_comm 1]

theorem stamp_map_address (rtt : Nat) (as : List IOAddress) :
    (stamp rtt as).map AddressEntry.address = as := by
  induction as generalizing rtt with
  | nil => rfl
  | cons a rest ih => simp [stamp, ih]

theorem stamp_length (rtt : Nat) (as : List IOAddress) : (stamp rtt as).length = as.length := by
  induction as generalizing rtt with
  | nil => rfl
  | cons a rest ih => simp [stamp, ih]

theorem complete_state_ne_not_asked (cb : ResolverCallback) (c : Completion)
    (h : cb.entry_.state_ ≠ State.NOT_ASKED) :
    (cb.complete c).1.entry_.state_ ≠ State.NOT_ASKED := by
  cases c with
  | failure =>
    simp only [ResolverCallback.complete, ResolverCallback.failure]
    split <;> simp_all [NameserverEntry.setState]
  | success m =>
    simp only [ResolverCallback.complete, ResolverCallback.success, pushAddresses_eq,
      ResolverCallback.failure]
    split
    · simp [NameserverEntry.setState]
    · split <;> simp_all [NameserverEntry.setState]

theorem step_asked (w : World) (op : Op) (h : w.handler.entry_.state_ ≠ State.NOT_ASKED) :
    (w.step op).handler.entry_.state_ ≠ State.NOT_ASKED ∧ (w.step op).resolver = w.resolver := by
  cases op with
  | askIP zone callback =>
    simp [World.step, NameserverEntry.askIP, NameserverEntry.getState, h]
  | ensureHasCallback zone callback =>
    simp only [World.step, NameserverEntry.ensureHasCallback]
    split
    · simpa using h
    · split <;> simpa using h
  | complete c =>
    exact ⟨complete_state_ne_not_asked _ _ h, rfl⟩
  | setAddressRTT address rtt =>
    simpa [World.step, NameserverEntry.setAddressRTT] using h
  | updateAddressRTTAtIndex rtt index =>
    simp only [World.step, NameserverEntry.updateAddressRTTAtIndex]
    split <;> simpa using h

theorem run_asked (ops : List Op) (w : World) (h : w.handler.entry_.state_ ≠ State.NOT_ASKED) :
    (w.run ops).handler.entry_.state_ ≠ State.NOT_ASKED ∧ (w.run ops).resolver = w.resolver := by
  induction ops generalizing w with
  | nil => exact ⟨h, rfl⟩
  | cons op rest ih =>
    have hs := step_asked w op h
    have hr := ih (w.step op) hs.1
    exact ⟨hr.1, hr.2.trans hs.2⟩

theorem askIP_of_not_asked {ρ : Type}
    (resolve : Question → ρ × ResolverCallback → ρ × ResolverCallback) (resolver : ρ)
    (e : NameserverEntry) (zone : ZonePtr) (callback : CallbackPtr)
    (h : e.getState = State.NOT_ASKED) :
    e.askIP resolve resolver zone callback =
      (.ok (resolve e.questionAAAA
              (resolve e.questionA (resolver, e.handlerAtFirstCall zone callback))).2,
       (resolve e.questionAAAA
              (resolve e.questionA (resolver, e.handlerAtFirstCall zone callback))).1,
       (resolve e.questionAAAA
              (resolve e.questionA (resolver, e.handlerAtFirstCall zone callback))).2.entry_) := by
  simp [NameserverEntry.askIP, h, NameserverEntry.setState, NameserverEntry.questionA,
    NameserverEntry.questionAAAA, NameserverEntry.getName, NameserverEntry.getClass,
    NameserverEntry.handlerAtFirstCall]

theorem askIP_test_resolver (requests : TestResolver)
    (e : NameserverEntry) (zone : ZonePtr) (callback : CallbackPtr)
    (h : e.getState = State.NOT_ASKED) :
    e.askIP TestResolver.resolve requests zone callback =
      (.ok (e.handlerAtFirstCall zone callback),
       requests ++ [(e.questionA, e.handlerAtFirstCall zone callback),
                    (e.questionAAAA, e.handlerAtFirstCall zone callback)],
       (e.handlerAtFirstCall zone callback).entry_) := by
  rw [askIP_of_not_asked _ _ _ _ _ h]
  simp [TestResolver.resolve]

/-! ## The claims -/

/-- C1: on an entry in state NOT_ASKED, askIP sets the state to IN_PROGRESS,
registers the zone callback and sets the pending-response count to 2, and only
then makes its two resolver calls, first for (name, class, A), then for
(name, class, AAAA), both with the same handler, whatever the resolver does
inside them.  With a resolver that answers later, the resolver holds exactly
these two requests, both with the same handler, whose entry is IN_PROGRESS
with count 2, and that is the state askIP leaves the entry in. -/
theorem C1_askIP_not_asked {ρ : Type}
    (resolve : Question → ρ × ResolverCallback → ρ × ResolverCallback) (resolver : ρ)
    (requests : TestResolver) (e : NameserverEntry) (zone : ZonePtr) (callback : CallbackPtr)
    (h : e.getState = State.NOT_ASKED) :
    ∃ prepared : ResolverCallback,
      prepared.rtt = 0 ∧
      prepared.entry_.getState = State.IN_PROGRESS ∧
      prepared.entry_.waiting_responses_ = 2 ∧
      prepared.entry_.ipCallbacks_ = e.ipCallbacks_.assign zone callback ∧
      prepared.entry_.address_ = e.address_ ∧
      e.askIP resolve resolver zone callback =
        (.ok (resolve ⟨e.getName, e.getClass, RRType.AAAA⟩
                (resolve ⟨e.getName, e.getClass, RRType.A⟩ (resolver, prepared))).2,
         (resolve ⟨e.getName, e.getClass, RRType.AAAA⟩
                (resolve ⟨e.getName, e.getClass, RRType.A⟩ (resolver, prepared))).1,
         (resolve ⟨e.getName, e.getClass, RRType.AAAA⟩
                (resolve ⟨e.getName, e.getClass, RRType.A⟩ (resolver, prepared))).2.entry_) ∧
      e.askIP TestResolver.resolve requests zone callback =
        (.ok prepared,
         requests ++ [(⟨e.getName, e.getClass, RRType.A⟩, prepared),
                      (⟨e.getName, e.getClass, RRType.AAAA⟩, prepared)],
         prepared.entry_) :=
  ⟨e.handlerAtFirstCall zone callback, rfl, rfl, rfl, rfl, rfl,
    askIP_of_not_asked resolve resolver e zone callback h,
    askIP_test_resolver requests e zone callback h⟩

/-- C1 at the fresh example entry, zone 7 with callback 70, and a test
resolver that holds no request yet. -/
theorem C1_askIP_not_asked_witness :
    exampleEntry.getState = State.NOT_ASKED ∧
    ∃ prepared : ResolverCallback,
      prepared.rtt = 0 ∧
      prepared.entry_.getState = State.IN_PROGRESS ∧
      prepared.entry_.waiting_responses_ = 2 ∧
      prepared.entry_.ipCallbacks_ = exampleEntry.ipCallbacks_.assign 7 70 ∧
      prepared.entry_.address_ = exampleEntry.address_ ∧
      exampleEntry.askIP TestResolver.resolve [] 7 70 =
        (.ok (TestResolver.resolve ⟨exampleEntry.getName, exampleEntry.getClass, RRType.AAAA⟩
                (TestResolver.resolve ⟨exampleEntry.getName, exampleEntry.getClass, RRType.A⟩
                  ([], prepared))).2,
         (TestResolver.resolve ⟨exampleEntry.getName, exampleEntry.getClass, RRType.AAAA⟩
                (TestResolver.resolve ⟨exampleEntry.getName, exampleEntry.getClass, RRType.A⟩
                  ([], prepared))).1,
         (TestResolver.resolve ⟨exampleEntry.getName, exampleEntry.getClass, RRType.AAAA⟩
                (TestResolver.resolve ⟨exampleEntry.getName, exampleEntry.getClass, RRType.A⟩
                  ([], prepared))).2.entry_) ∧
      exampleEntry.askIP TestResolver.resolve [] 7 70 =
        (.ok prepared,
         [] ++ [(⟨exampleEntry.getName, exampleEntry.getClass, RRType.A⟩, prepared),
                (⟨exampleEntry.getName, exampleEntry.getClass, RRType.AAAA⟩, prepared)],
         prepared.entry_) :=
  ⟨rfl, C1_askIP_not_asked TestResolver.resolve [] [] exampleEntry 7 70 rfl⟩

/-- C2: on an entry whose state is not NOT_ASKED, askIP throws BadValue, makes
no resolver call and leaves the entry (state, registered zone callbacks,
pending-response count and all else) as it was; no sequence of calls on such
an entry adds a request to the resolver.  Hence, once askIP has been called on
a NOT_ASKED entry, whatever calls follow (further askIP calls, registrations,
completions, RTT updates), the resolver has received exactly the two queries
of that first call. -/
theorem C2_askIP_asked_before {ρ : Type}
    (resolve : Question → ρ × ResolverCallback → ρ × ResolverCallback) (resolver : ρ)
    (e : NameserverEntry) (zone : ZonePtr) (callback : CallbackPtr)
    (h : e.getState ≠ State.NOT_ASKED) :
    e.askIP resolve resolver zone callback = (.error Exception.BadValue, resolver, e) ∧
    (∀ (w : World) (ops : List Op), w.handler.entry_ = e →
      (w.run ops).resolver = w.resolver) ∧
    (∀ (w : World) (z : ZonePtr) (c : CallbackPtr) (ops : List Op),
      w.handler.entry_.getState = State.NOT_ASKED →
      ∃ handler, (w.run (Op.askIP z c :: ops)).resolver =
        w.resolver ++ [(⟨w.handler.entry_.getName, w.handler.entry_.getClass, RRType.A⟩, handler),
                       (⟨w.handler.entry_.getName, w.handler.entry_.getClass, RRType.AAAA⟩,
                         handler)]) := by
  refine ⟨by simp [NameserverEntry.askIP, h], ?_, ?_⟩
  · intro w ops hw
    exact (run_asked ops w (by rw [hw]; exact h)).2
  · intro w z c ops hw
    refine ⟨w.handler.entry_.handlerAtFirstCall z c, ?_⟩
    have hstep : w.step (Op.askIP z c) =
        { w with resolver := w.resolver ++
                    [(w.handler.entry_.questionA, w.handler.entry_.handlerAtFirstCall z c),
                     (w.handler.entry_.questionAAAA, w.handler.entry_.handlerAtFirstCall z c)],
                 handler := w.handler.entry_.handlerAtFirstCall z c } := by
      simp [World.step, askIP_test_resolver w.resolver _ z c hw]
    have := (run_asked ops (w.step (Op.askIP z c)) (by
      rw [hstep]; simp [NameserverEntry.handlerAtFirstCall])).2
    simp only [World.run, List.foldl_cons] at this ⊢
    rw [this, hstep]
    rfl

/-- C2 at an entry that is READY. -/
theorem C2_askIP_asked_before_witness :
    readyEntry.getState ≠ State.NOT_ASKED ∧
    readyEntry.askIP TestResolver.resolve [] 7 70 = (.error Exception.BadValue, [], readyEntry) ∧
    (∀ (w : World) (ops : List Op), w.handler.entry_ = readyEntry →
      (w.run ops).resolver = w.resolver) ∧
    (∀ (w : World) (z : ZonePtr) (c : CallbackPtr) (ops : List Op),
      w.handler.entry_.getState = State.NOT_ASKED →
      ∃ handler, (w.run (Op.askIP z c :: ops)).resolver =
        w.resolver ++ [(⟨w.handler.entry_.getName, w.handler.entry_.getClass, RRType.A⟩, handler),
                       (⟨w.handler.entry_.getName, w.handler.entry_.getClass, RRType.AAAA⟩,
                         handler)]) :=
  ⟨by decide, C2_askIP_asked_before TestResolver.resolve [] readyEntry 7 70 (by decide)⟩

theorem success_with_address (cb : ResolverCallback) (response : Message)
    (ha : response.addresses ≠ []) :
    cb.success response =
      ({ entry_ := { cb.entry_ with
                      address_ := cb.entry_.address_ ++ stamp cb.rtt response.addresses,
                      state_ := State.READY,
                      ipCallbacks_ := [],
                      waiting_responses_ := cb.entry_.waiting_responses_ - 1 },
         rtt := cb.rtt + response.addresses.length },
       ResolverCallback.dispatchCallbacks cb.entry_.ipCallbacks_) := by
  simp [ResolverCallback.success, pushAddresses_eq, ha, NameserverEntry.setState]

theorem success_no_address (cb : ResolverCallback) (response : Message)
    (ha : response.addresses = []) : cb.success response = cb.failure := by
  simp [ResolverCallback.success, ha, ResolverCallback.pushAddresses]

theorem failure_pending (cb : ResolverCallback)
    (h : cb.entry_.waiting_responses_ - 1 ≠ 0 ∨ cb.entry_.state_ ≠ State.IN_PROGRESS) :
    cb.failure =
      ({ cb with entry_ :=
          { cb.entry_ with waiting_responses_ := cb.entry_.waiting_responses_ - 1 } }, []) := by
  simp only [ResolverCallback.failure, NameserverEntry.getState]
  rw [if_pos h]

theorem failure_last (cb : ResolverCallback)
    (hw : cb.entry_.waiting_responses_ - 1 = 0) (hs : cb.entry_.state_ = State.IN_PROGRESS) :
    cb.failure =
      ({ cb with entry_ :=
          { cb.entry_ with waiting_responses_ := cb.entry_.waiting_responses_ - 1,
                           ipCallbacks_ := [],
                           state_ := State.UNREACHABLE } },
       ResolverCallback.dispatchCallbacks cb.entry_.ipCallbacks_) := by
  simp only [ResolverCallback.failure, NameserverEntry.getState, NameserverEntry.setState]
  rw [if_neg (by simp [hw, hs])]

theorem complete_no_address (cb : ResolverCallback) (c : Completion)
    (hc : c.hasAddress = false) : cb.complete c = cb.failure := by
  cases c with
  | failure => rfl
  | success m =>
    simp only [Completion.hasAddress, Bool.not_eq_false_eq_eq_true, List.isEmpty_iff] at hc
    exact success_no_address cb m hc

theorem complete_with_address (cb : ResolverCallback) (c : Completion)
    (hc : c.hasAddress = true) :
    ∃ m : Message, c = Completion.success m ∧ m.addresses ≠ [] ∧
      cb.complete c = cb.success m := by
  cases c with
  | failure => simp [Completion.hasAddress] at hc
  | success m =>
    refine ⟨m, rfl, ?_, rfl⟩
    simpa [Completion.hasAddress] using hc

theorem find_mem (m : CallbackMap) (zone : ZonePtr) (callback : CallbackPtr)
    (h : m.find zone = some callback) : (zone, callback) ∈ m := by
  induction m with
  | nil => simp [CallbackMap.find] at h
  | cons p rest ih =>
    obtain ⟨k, v⟩ := p
    simp only [CallbackMap.find] at h
    split at h
    · simp_all
    · exact List.mem_cons_of_mem _ (ih h)

theorem mem_dispatchCallbacks (m : CallbackMap) (zone : ZonePtr) (callback : CallbackPtr) :
    ({ callback := callback, zone := zone } : Invocation) ∈
      ResolverCallback.dispatchCallbacks m ↔ (zone, callback) ∈ m := by
  simp only [ResolverCallback.dispatchCallbacks, List.mem_map]
  constructor
  · rintro ⟨⟨z, c⟩, hm, he⟩
    simp only [Invocation.mk.injEq] at he
    obtain ⟨rfl, rfl⟩ := he
    exact hm
  · intro h
    exact ⟨(zone, callback), h, rfl⟩

/-- C3: on an IN_PROGRESS entry, whatever the pending-response count (so also
while the other query is still outstanding), a success completion that carries
at least one address sets the state to READY and, in that same completion,
invokes every registered zone callback with its zone and empties the registry;
the count is only decremented by one. -/
theorem C3_first_address_makes_ready (cb : ResolverCallback) (response : Message)
    (hs : cb.entry_.getState = State.IN_PROGRESS) (ha : response.addresses ≠ []) :
    (cb.success response).1.entry_.getState = State.READY ∧
    (cb.success response).2 = ResolverCallback.dispatchCallbacks cb.entry_.ipCallbacks_ ∧
    (∀ zone callback, cb.entry_.ipCallbacks_.find zone = some callback →
      ({ callback := callback, zone := zone } : Invocation) ∈ (cb.success response).2) ∧
    (cb.success response).1.entry_.ipCallbacks_ = [] ∧
    (cb.success response).1.entry_.waiting_responses_ = cb.entry_.waiting_responses_ - 1 := by
  have _ := hs
  rw [success_with_address cb response ha]
  refine ⟨rfl, rfl, ?_, rfl, rfl⟩
  intro zone callback hf
  exact (mem_dispatchCallbacks _ _ _).2 (find_mem _ _ _ hf)

/-- C3 at the example entry after askIP, answered with 192.0.2.1. -/
theorem C3_first_address_makes_ready_witness :
    (exampleHandler.entry_.getState = State.IN_PROGRESS ∧ exampleAnswer.addresses ≠ []) ∧
    (exampleHandler.success exampleAnswer).1.entry_.getState = State.READY ∧
    (exampleHandler.success exampleAnswer).2 =
      ResolverCallback.dispatchCallbacks exampleHandler.entry_.ipCallbacks_ ∧
    (∀ zone callback, exampleHandler.entry_.ipCallbacks_.find zone = some callback →
      ({ callback := callback, zone := zone } : Invocation) ∈
        (exampleHandler.success exampleAnswer).2) ∧
    (exampleHandler.success exampleAnswer).1.entry_.ipCallbacks_ = [] ∧
    (exampleHandler.success exampleAnswer).1.entry_.waiting_responses_ =
      exampleHandler.entry_.waiting_responses_ - 1 :=
  ⟨⟨rfl, by decide⟩, C3_first_address_makes_ready exampleHandler exampleAnswer rfl (by decide)⟩

theorem complete_state_unreachable (cb : ResolverCallback) (c : Completion)
    (h : (cb.complete c).1.entry_.state_ = State.UNREACHABLE) :
    c.hasAddress = false ∧
    (cb.entry_.state_ = State.UNREACHABLE ∨
      (cb.entry_.state_ = State.IN_PROGRESS ∧ cb.entry_.waiting_responses_ - 1 = 0)) := by
  cases hc : c.hasAddress with
  | true =>
    obtain ⟨m, -, hm, he⟩ := complete_with_address cb c hc
    rw [he, success_with_address cb m hm] at h
    simp at h
  | false =>
    refine ⟨rfl, ?_⟩
    rw [complete_no_address cb c hc] at h
    by_cases hp : cb.entry_.waiting_responses_ - 1 ≠ 0 ∨ cb.entry_.state_ ≠ State.IN_PROGRESS
    · rw [failure_pending cb hp] at h
      exact Or.inl h
    · simp only [not_or, not_not] at hp
      exact Or.inr ⟨hp.2, hp.1⟩

/-- C4: on an IN_PROGRESS entry whose two queries are outstanding, a first
completion without address leaves the state IN_PROGRESS, invokes no zone
callback and leaves the registrations intact; a second completion without
address then sets the state to UNREACHABLE, invokes every registered zone
callback with its zone (each registered pair is among the invocations, and
there are as many invocations as registrations) and empties the registry.  The state is never UNREACHABLE after one
completion, and after two it is UNREACHABLE exactly when neither carried an
address. -/
theorem C4_unreachable_when_both_fail (cb : ResolverCallback) (c1 c2 : Completion)
    (hs : cb.entry_.getState = State.IN_PROGRESS) (hw : cb.entry_.waiting_responses_ = 2) :
    (c1.hasAddress = false →
      (cb.complete c1).1.entry_.getState = State.IN_PROGRESS ∧
      (cb.complete c1).2 = [] ∧
      (cb.complete c1).1.entry_.ipCallbacks_ = cb.entry_.ipCallbacks_ ∧
      (cb.complete c1).1.entry_.waiting_responses_ = 1) ∧
    (c1.hasAddress = false → c2.hasAddress = false →
      ((cb.complete c1).1.complete c2).1.entry_.getState = State.UNREACHABLE ∧
      ((cb.complete c1).1.complete c2).2 =
        ResolverCallback.dispatchCallbacks cb.entry_.ipCallbacks_ ∧
      (∀ zone callback, cb.entry_.ipCallbacks_.find zone = some callback →
        ({ callback := callback, zone := zone } : Invocation) ∈
          ((cb.complete c1).1.complete c2).2) ∧
      ((cb.complete c1).1.complete c2).2.length = cb.entry_.ipCallbacks_.length ∧
      ((cb.complete c1).1.complete c2).1.entry_.ipCallbacks_ = [] ∧
      ((cb.complete c1).1.complete c2).1.entry_.waiting_responses_ = 0) ∧
    (cb.complete c1).1.entry_.getState ≠ State.UNREACHABLE ∧
    (((cb.complete c1).1.complete c2).1.entry_.getState = State.UNREACHABLE ↔
      (c1.hasAddress = false ∧ c2.hasAddress = false)) := by
  simp only [NameserverEntry.getState] at hs ⊢
  have h1 : ∀ c : Completion, c.hasAddress = false → cb.complete c =
      ({ cb with entry_ := { cb.entry_ with waiting_responses_ := 1 } }, []) := by
    intro c hc
    rw [complete_no_address cb c hc, failure_pending cb (Or.inl (by rw [hw]; decide)), hw]
    rfl
  have h2 : c1.hasAddress = false → c2.hasAddress = false →
      (cb.complete c1).1.complete c2 =
        ({ cb with entry_ := { cb.entry_ with waiting_responses_ := 0
                                              ipCallbacks_ := []
                                              state_ := State.UNREACHABLE } },
         ResolverCallback.dispatchCallbacks cb.entry_.ipCallbacks_) := by
    intro hc1 hc2
    rw [h1 c1 hc1, complete_no_address _ c2 hc2, failure_last _ (by simp) (by simpa using hs)]
    simp
  have h3 : (cb.complete c1).1.entry_.state_ ≠ State.UNREACHABLE := by
    intro hu
    obtain ⟨-, hu | ⟨-, hu⟩⟩ := complete_state_unreachable cb c1 hu
    · rw [hs] at hu; cases hu
    · rw [hw] at hu; revert hu; decide
  refine ⟨?_, ?_, h3, ?_⟩
  · intro hc1
    rw [h1 c1 hc1]
    exact ⟨hs, rfl, rfl, rfl⟩
  · intro hc1 hc2
    rw [h2 hc1 hc2]
    refine ⟨rfl, rfl, ?_, ?_, rfl, rfl⟩
    · intro zone callback hf
      exact (mem_dispatchCallbacks _ _ _).2 (find_mem _ _ _ hf)
    · simp [ResolverCallback.dispatchCallbacks]
  · constructor
    · intro hu
      obtain ⟨hc2, hu | ⟨hu, -⟩⟩ := complete_state_unreachable _ c2 hu
      · exact absurd hu h3
      · refine ⟨?_, hc2⟩
        cases hc1 : c1.hasAddress with
        | false => rfl
        | true =>
          obtain ⟨m, -, hm, he⟩ := complete_with_address cb c1 hc1
          rw [he, success_with_address cb m hm] at hu
          simp at hu
    · rintro ⟨hc1, hc2⟩
      rw [h2 hc1 hc2]

/-- C4 at the example entry after askIP by zone 7, with two failure
completions: the second invokes callback 70 with zone 7. -/
theorem C4_unreachable_when_both_fail_witness :
    (exampleHandler.entry_.getState = State.IN_PROGRESS ∧
      exampleHandler.entry_.waiting_responses_ = 2 ∧
      exampleHandler.entry_.ipCallbacks_ = [(7, 70)]) ∧
    ((exampleHandler.complete Completion.failure).1.entry_.getState = State.IN_PROGRESS ∧
      (exampleHandler.complete Completion.failure).2 = [] ∧
      (exampleHandler.complete Completion.failure).1.entry_.ipCallbacks_ =
        exampleHandler.entry_.ipCallbacks_ ∧
      (exampleHandler.complete Completion.failure).1.entry_.waiting_responses_ = 1) ∧
    (((exampleHandler.complete Completion.failure).1.complete
        Completion.failure).1.entry_.getState = State.UNREACHABLE ∧
      ({ callback := 70, zone := 7 } : Invocation) ∈
        ((exampleHandler.complete Completion.failure).1.complete Completion.failure).2 ∧
      ((exampleHandler.complete Completion.failure).1.complete Completion.failure).2.length =
        exampleHandler.entry_.ipCallbacks_.length ∧
      ((exampleHandler.complete Completion.failure).1.complete
        Completion.failure).1.entry_.ipCallbacks_ = []) :=
  ⟨⟨rfl, rfl, rfl⟩,
   (C4_unreachable_when_both_fail exampleHandler Completion.failure Completion.failure
      rfl rfl).1 rfl,
   ((C4_unreachable_when_both_fail exampleHandler Completion.failure Completion.failure
      rfl rfl).2.1 rfl rfl).1,
   ((C4_unreachable_when_both_fail exampleHandler Completion.failure Completion.failure
      rfl rfl).2.1 rfl rfl).2.2.1 7 70 rfl,
   ((C4_unreachable_when_both_fail exampleHandler Completion.failure Completion.failure
      rfl rfl).2.1 rfl rfl).2.2.2.1,
   ((C4_unreachable_when_both_fail exampleHandler Completion.failure Completion.failure
      rfl rfl).2.1 rfl rfl).2.2.2.2.1⟩

theorem complete_ready (cb : ResolverCallback) (c : Completion)
    (h : cb.entry_.state_ = State.READY) : (cb.complete c).1.entry_.state_ = State.READY := by
  cases hc : c.hasAddress with
  | true =>
    obtain ⟨m, -, hm, he⟩ := complete_with_address cb c hc
    rw [he, success_with_address cb m hm]
  | false =>
    rw [complete_no_address cb c hc, failure_pending cb (Or.inr (by rw [h]; decide))]
    exact h

theorem completeAll_ready (cs : List Completion) (cb : ResolverCallback)
    (h : cb.entry_.state_ = State.READY) :
    (cb.completeAll cs).1.entry_.state_ = State.READY := by
  induction cs generalizing cb with
  | nil => exact h
  | cons c rest ih => exact ih _ (complete_ready cb c h)

theorem step_ready (w : World) (op : Op) (h : w.handler.entry_.state_ = State.READY) :
    (w.step op).handler.entry_.state_ = State.READY := by
  cases op with
  | askIP zone callback =>
    simp [World.step, NameserverEntry.askIP, NameserverEntry.getState, h]
  | ensureHasCallback zone callback =>
    simp [World.step, NameserverEntry.ensureHasCallback, NameserverEntry.getState, h]
  | complete c => exact complete_ready _ c h
  | setAddressRTT address rtt =>
    simpa [World.step, NameserverEntry.setAddressRTT] using h
  | updateAddressRTTAtIndex rtt index =>
    simp only [World.step, NameserverEntry.updateAddressRTTAtIndex]
    split <;> simpa using h

theorem run_ready (ops : List Op) (w : World) (h : w.handler.entry_.state_ = State.READY) :
    (w.run ops).handler.entry_.state_ = State.READY := by
  induction ops generalizing w with
  | nil => exact h
  | cons op rest ih => exact ih _ (step_ready w op h)

/-- C5: once an entry is READY, every later completion (failure, success
without address, success with addresses) leaves it READY, and so does every
sequence of completions and every sequence of calls on the entry: the state
never goes back to IN_PROGRESS or UNREACHABLE. -/
theorem C5_ready_never_regresses (cb : ResolverCallback)
    (h : cb.entry_.getState = State.READY) :
    (∀ c : Completion, (cb.complete c).1.entry_.getState = State.READY) ∧
    (∀ cs : List Completion, (cb.completeAll cs).1.entry_.getState = State.READY) ∧
    (∀ (w : World) (ops : List Op), w.handler = cb →
      (w.run ops).handler.entry_.getState = State.READY) :=
  ⟨fun c => complete_ready cb c h, fun cs => completeAll_ready cs cb h,
   fun w ops hw => run_ready ops w (by rw [hw]; exact h)⟩

/-- C5 at the READY example entry. -/
theorem C5_ready_never_regresses_witness :
    (exampleReady.entry_.getState = State.READY) ∧
    (exampleReady.complete Completion.failure).1.entry_.getState = State.READY ∧
    (exampleReady.completeAll
      [Completion.success exampleAnswer, Completion.failure, Completion.success ⟨[]⟩,
       Completion.failure]).1.entry_.getState = State.READY :=
  ⟨rfl, (C5_ready_never_regresses exampleReady rfl).1 _,
   (C5_ready_never_regresses exampleReady rfl).2.1 _⟩

/-- C6: for an entry without addresses on which askIP was called, when the A
query is answered with a non-empty list of addresses and the AAAA query
completes without address (failure, or success with no address), in either
order of arrival, the entry ends READY and its address list holds exactly the
addresses of the A answer, in answer order. -/
theorem C6_partial_success (requests : TestResolver) (e : NameserverEntry) (zone : ZonePtr)
    (callback : CallbackPtr) (answerA : Message) (c : Completion)
    (hs : e.getState = State.NOT_ASKED) (he : e.address_ = [])
    (ha : answerA.addresses ≠ []) (hc : c.hasAddress = false) :
    ∃ handler : ResolverCallback,
      (e.askIP TestResolver.resolve requests zone callback).1 = .ok handler ∧
      (handler.completeAll [Completion.success answerA, c]).1.entry_.getState = State.READY ∧
      (handler.completeAll [Completion.success answerA, c]).1.entry_.address_.map
        AddressEntry.getAddress = answerA.addresses ∧
      (handler.completeAll [c, Completion.success answerA]).1.entry_.getState = State.READY ∧
      (handler.completeAll [c, Completion.success answerA]).1.entry_.address_.map
        AddressEntry.getAddress = answerA.addresses := by
  refine ⟨e.handlerAtFirstCall zone callback, ?_, ?_⟩
  · rw [askIP_test_resolver requests e zone callback hs]
  · have hf : ∀ cb : ResolverCallback, (cb.complete c).1.entry_.address_ = cb.entry_.address_ := by
      intro cb
      rw [complete_no_address cb c hc]
      simp only [ResolverCallback.failure]
      split <;> rfl
    have hg : AddressEntry.getAddress = AddressEntry.address := rfl
    simp only [ResolverCallback.completeAll, NameserverEntry.getState]
    refine ⟨complete_ready _ c ?_, ?_, ?_, ?_⟩
    · simp [ResolverCallback.complete, success_with_address _ _ ha]
    · rw [hf]
      simp [ResolverCallback.complete, success_with_address _ _ ha,
        NameserverEntry.handlerAtFirstCall, he, hg, stamp_map_address]
    · simp [ResolverCallback.complete, success_with_address _ _ ha]
    · have h1 := hf (e.handlerAtFirstCall zone callback)
      have h2 : ∀ cb : ResolverCallback,
          cb.complete (Completion.success answerA) = cb.success answerA := fun _ => rfl
      rw [h2, success_with_address _ _ ha]
      simp only [hg, List.map_append, stamp_map_address, h1]
      simp [NameserverEntry.handlerAtFirstCall, he]

/-- C6 at the example entry: the A query answered with 192.0.2.1, the AAAA
query failed. -/
theorem C6_partial_success_witness :
    (exampleEntry.getState = State.NOT_ASKED ∧ exampleEntry.address_ = [] ∧
      exampleAnswer.addresses ≠ [] ∧ Completion.failure.hasAddress = false) ∧
    ∃ handler : ResolverCallback,
      (exampleEntry.askIP TestResolver.resolve [] 7 70).1 = .ok handler ∧
      (handler.completeAll [Completion.success exampleAnswer, Completion.failure]).1.entry_.getState
        = State.READY ∧
      (handler.completeAll [Completion.success exampleAnswer,
        Completion.failure]).1.entry_.address_.map AddressEntry.getAddress
        = exampleAnswer.addresses ∧
      (handler.completeAll [Completion.failure, Completion.success exampleAnswer]).1.entry_.getState
        = State.READY ∧
      (handler.completeAll [Completion.failure,
        Completion.success exampleAnswer]).1.entry_.address_.map AddressEntry.getAddress
        = exampleAnswer.addresses :=
  ⟨⟨rfl, rfl, by decide, rfl⟩,
   C6_partial_success [] exampleEntry 7 70 exampleAnswer Completion.failure rfl rfl
     (by decide) rfl⟩

theorem find_eq_none_iff (m : CallbackMap) (zone : ZonePtr) :
    m.find zone = none ↔ zone ∉ m.keys := by
  induction m with
  | nil => simp [CallbackMap.find, CallbackMap.keys]
  | cons p rest ih =>
    obtain ⟨k, v⟩ := p
    simp only [CallbackMap.find, CallbackMap.keys, List.map_cons, List.mem_cons, not_or] at ih ⊢
    by_cases hk : k = zone
    · simp [hk]
    · rw [if_neg hk, ih]
      constructor
      · intro h; exact ⟨fun h2 => hk h2.symm, h⟩
      · intro h; exact h.2

theorem assign_perm (m : CallbackMap) (zone : ZonePtr) (callback : CallbackPtr)
    (h : zone ∉ m.keys) : (m.assign zone callback).Perm ((zone, callback) :: m) := by
  induction m with
  | nil => simp [CallbackMap.assign]
  | cons p rest ih =>
    obtain ⟨k, v⟩ := p
    simp only [CallbackMap.keys, List.map_cons, List.mem_cons, not_or] at h
    simp only [CallbackMap.assign]
    split
    · exact List.Perm.refl _
    · rw [if_neg (fun hk => h.1 hk.symm)]
      exact (List.Perm.cons _ (ih h.2)).trans (List.Perm.swap _ _ _)

theorem ensureHasCallback_new (e : NameserverEntry) (zone : ZonePtr) (callback : CallbackPtr)
    (hs : e.state_ = State.IN_PROGRESS) (hz : zone ∉ e.ipCallbacks_.keys) :
    (e.ensureHasCallback zone callback).2.state_ = State.IN_PROGRESS ∧
    (e.ensureHasCallback zone callback).2.ipCallbacks_.Perm ((zone, callback) :: e.ipCallbacks_) := by
  have hf := (find_eq_none_iff e.ipCallbacks_ zone).2 hz
  have he : e.ensureHasCallback zone callback =
      (.ok (), { e with ipCallbacks_ := e.ipCallbacks_.assign zone callback }) := by
    simp [NameserverEntry.ensureHasCallback, NameserverEntry.getState, hs, hf]
  rw [he]
  exact ⟨hs, assign_perm _ _ _ hz⟩

theorem registerAll_distinct (regs : List (ZonePtr × CallbackPtr)) (e : NameserverEntry)
    (hs : e.state_ = State.IN_PROGRESS)
    (hd : (e.ipCallbacks_.keys ++ regs.map Prod.fst).Nodup) :
    (e.registerAll regs).state_ = State.IN_PROGRESS ∧
    (e.registerAll regs).ipCallbacks_.Perm (e.ipCallbacks_ ++ regs) := by
  induction regs generalizing e with
  | nil => simpa [NameserverEntry.registerAll] using hs
  | cons p rest ih =>
    have hz : p.1 ∉ e.ipCallbacks_.keys := by
      intro hm
      have := (List.nodup_append.1 hd).2.2 hm
      exact this (by simp)
    obtain ⟨h1, h2⟩ := ensureHasCallback_new e p.1 p.2 hs hz
    have hk : (e.ensureHasCallback p.1 p.2).2.ipCallbacks_.keys.Perm (p.1 :: e.ipCallbacks_.keys) := by
      simpa [CallbackMap.keys] using h2.map Prod.fst
    have hd2 : ((e.ensureHasCallback p.1 p.2).2.ipCallbacks_.keys ++ rest.map Prod.fst).Nodup := by
      refine (List.Perm.nodup_iff (List.Perm.append_right _ hk)).2 ?_
      have hp : (e.ipCallbacks_.keys ++ p.1 :: rest.map Prod.fst).Perm
          (p.1 :: (e.ipCallbacks_.keys ++ rest.map Prod.fst)) := List.perm_middle
      exact (List.Perm.nodup_iff hp).1 (by simpa using hd)
    obtain ⟨h3, h4⟩ := ih _ h1 hd2
    refine ⟨h3, h4.trans ?_⟩
    refine (List.Perm.append_right _ h2).trans ?_
    have hm : (e.ipCallbacks_ ++ p :: rest).Perm (p :: (e.ipCallbacks_ ++ rest)) :=
      List.perm_middle
    simpa using hm.symm

theorem complete_in_progress (cb : ResolverCallback) (c : Completion)
    (hs : cb.entry_.state_ = State.IN_PROGRESS) :
    ((cb.complete c).1.entry_.state_ = State.IN_PROGRESS ∧ (cb.complete c).2 = [] ∧
      (cb.complete c).1.entry_.ipCallbacks_ = cb.entry_.ipCallbacks_) ∨
    ((cb.complete c).1.entry_.state_ ≠ State.IN_PROGRESS ∧
      (cb.complete c).2 = ResolverCallback.dispatchCallbacks cb.entry_.ipCallbacks_ ∧
      (cb.complete c).1.entry_.ipCallbacks_ = []) := by
  cases hc : c.hasAddress with
  | true =>
    obtain ⟨m, -, hm, he⟩ := complete_with_address cb c hc
    rw [he, success_with_address cb m hm]
    exact Or.inr ⟨by simp, rfl, rfl⟩
  | false =>
    rw [complete_no_address cb c hc]
    by_cases hp : cb.entry_.waiting_responses_ - 1 ≠ 0 ∨ cb.entry_.state_ ≠ State.IN_PROGRESS
    · rw [failure_pending cb hp]
      exact Or.inl ⟨hs, rfl, rfl⟩
    · simp only [not_or, not_not] at hp
      rw [failure_last cb hp.1 hp.2]
      exact Or.inr ⟨by simp, rfl, rfl⟩

theorem complete_settled (cb : ResolverCallback) (c : Completion)
    (hs : cb.entry_.state_ ≠ State.IN_PROGRESS) (hr : cb.entry_.ipCallbacks_ = []) :
    (cb.complete c).1.entry_.state_ ≠ State.IN_PROGRESS ∧ (cb.complete c).2 = [] ∧
      (cb.complete c).1.entry_.ipCallbacks_ = [] := by
  cases hc : c.hasAddress with
  | true =>
    obtain ⟨m, -, hm, he⟩ := complete_with_address cb c hc
    rw [he, success_with_address cb m hm, hr]
    exact ⟨by simp, rfl, rfl⟩
  | false =>
    rw [complete_no_address cb c hc, failure_pending cb (Or.inr hs)]
    exact ⟨hs, rfl, hr⟩

theorem completeAll_settled (cs : List Completion) (cb : ResolverCallback)
    (hs : cb.entry_.state_ ≠ State.IN_PROGRESS) (hr : cb.entry_.ipCallbacks_ = []) :
    (cb.completeAll cs).1.entry_.state_ ≠ State.IN_PROGRESS ∧ (cb.completeAll cs).2 = [] ∧
      (cb.completeAll cs).1.entry_.ipCallbacks_ = [] := by
  induction cs generalizing cb with
  | nil => exact ⟨hs, rfl, hr⟩
  | cons c rest ih =>
    obtain ⟨h1, h2, h3⟩ := complete_settled cb c hs hr
    obtain ⟨h4, h5, h6⟩ := ih _ h1 h3
    simp only [ResolverCallback.completeAll]
    exact ⟨h4, by rw [h2, h5]; rfl, h6⟩

theorem completeAll_in_progress (cs : List Completion) (cb : ResolverCallback)
    (hs : cb.entry_.state_ = State.IN_PROGRESS) :
    ((cb.completeAll cs).1.entry_.state_ = State.IN_PROGRESS ∧ (cb.completeAll cs).2 = [] ∧
      (cb.completeAll cs).1.entry_.ipCallbacks_ = cb.entry_.ipCallbacks_) ∨
    ((cb.completeAll cs).1.entry_.state_ ≠ State.IN_PROGRESS ∧
      (cb.completeAll cs).2 = ResolverCallback.dispatchCallbacks cb.entry_.ipCallbacks_ ∧
      (cb.completeAll cs).1.entry_.ipCallbacks_ = []) := by
  induction cs generalizing cb with
  | nil => exact Or.inl ⟨hs, rfl, rfl⟩
  | cons c rest ih =>
    simp only [ResolverCallback.completeAll]
    rcases complete_in_progress cb c hs with ⟨h1, h2, h3⟩ | ⟨h1, h2, h3⟩
    · rcases ih _ h1 with ⟨h4, h5, h6⟩ | ⟨h4, h5, h6⟩
      · exact Or.inl ⟨h4, by rw [h2, h5]; rfl, by rw [h6, h3]⟩
      · exact Or.inr ⟨h4, by rw [h2, h5, h3]; rfl, h6⟩
    · obtain ⟨h4, h5, h6⟩ := completeAll_settled rest _ h1 h3
      exact Or.inr ⟨h4, by rw [h2, h5]; simp, h6⟩

/-- C7: let an entry with an empty registry be asked by one zone (askIP) and
let K-1 further zones, all distinct, register by ensureHasCallback while it is
IN_PROGRESS.  Then the registry holds exactly these K (zone, callback) pairs,
and over any sequence of completions delivered afterwards: as long as the
entry is IN_PROGRESS no callback has been invoked; once the entry has left
IN_PROGRESS (to READY or UNREACHABLE) the calls made are, up to order, exactly
one call of each registered callback with its own zone, the registry is empty,
and whatever completions follow invoke nothing more. -/
theorem C7_fan_out_exactly_once (requests : TestResolver) (e : NameserverEntry)
    (zone : ZonePtr) (callback : CallbackPtr) (others : List (ZonePtr × CallbackPtr))
    (hs : e.getState = State.NOT_ASKED) (he : e.ipCallbacks_ = [])
    (hd : (zone :: others.map Prod.fst).Nodup) :
    ∃ handler : ResolverCallback,
      (e.askIP TestResolver.resolve requests zone callback).1 = .ok handler ∧
      (handler.entry_.registerAll others).getState = State.IN_PROGRESS ∧
      (handler.entry_.registerAll others).ipCallbacks_.Perm ((zone, callback) :: others) ∧
      ∀ (cs later : List Completion),
        (let waiting : ResolverCallback :=
            { handler with entry_ := handler.entry_.registerAll others }
         ((waiting.completeAll cs).1.entry_.getState = State.IN_PROGRESS →
            (waiting.completeAll cs).2 = [] ∧
            (waiting.completeAll cs).1.entry_.ipCallbacks_.Perm ((zone, callback) :: others)) ∧
         ((waiting.completeAll cs).1.entry_.getState ≠ State.IN_PROGRESS →
            (waiting.completeAll cs).2.Perm (((zone, callback) :: others).map invocationOf) ∧
            (∀ p ∈ (zone, callback) :: others,
              (waiting.completeAll cs).2.count (invocationOf p) = 1) ∧
            (waiting.completeAll cs).1.entry_.ipCallbacks_ = [] ∧
            ((waiting.completeAll cs).1.completeAll later).2 = [])) := by
  refine ⟨e.handlerAtFirstCall zone callback, ?_, ?_⟩
  · rw [askIP_test_resolver requests e zone callback hs]
  have hreg : (e.handlerAtFirstCall zone callback).entry_.ipCallbacks_ = [(zone, callback)] := by
    simp [NameserverEntry.handlerAtFirstCall, he, CallbackMap.assign]
  obtain ⟨h1, h2⟩ := registerAll_distinct others (e.handlerAtFirstCall zone callback).entry_ rfl
    (by rw [hreg]; simpa [CallbackMap.keys] using hd)
  rw [hreg] at h2
  have h2 : ((e.handlerAtFirstCall zone callback).entry_.registerAll others).ipCallbacks_.Perm
      ((zone, callback) :: others) := by simpa using h2
  refine ⟨h1, h2, ?_⟩
  intro cs later
  simp only [NameserverEntry.getState]
  have hdisp : (ResolverCallback.dispatchCallbacks
      ((e.handlerAtFirstCall zone callback).entry_.registerAll others).ipCallbacks_).Perm
      (((zone, callback) :: others).map invocationOf) := h2.map _
  have hinj : Function.Injective invocationOf := by
    rintro ⟨a, b⟩ ⟨c, d⟩ h
    simp only [invocationOf, Invocation.mk.injEq] at h
    simp [h.1, h.2]
  have hnd : (((zone, callback) :: others).map invocationOf).Nodup := by
    refine List.Nodup.map hinj ?_
    exact List.Nodup.of_map Prod.fst (by simpa using hd)
  rcases completeAll_in_progress cs
    { e.handlerAtFirstCall zone callback with
      entry_ := (e.handlerAtFirstCall zone callback).entry_.registerAll others } h1 with
    ⟨h3, h4, h5⟩ | ⟨h3, h4, h5⟩
  · refine ⟨fun _ => ⟨h4, by rw [h5]; exact h2⟩, fun h => absurd h3 h⟩
  · refine ⟨fun h => absurd h h3, fun _ => ⟨by rw [h4]; exact hdisp, ?_, h5, ?_⟩⟩
    · intro p hp
      rw [h4, hdisp.count_eq]
      exact List.count_eq_one_of_mem hnd (List.mem_map_of_mem _ hp)
    · exact (completeAll_settled later _ h3 h5).2.1

/-- C7 at the example entry: zone 7 asks, zones 3 and 9 register. -/
theorem C7_fan_out_exactly_once_witness :
    (exampleEntry.getState = State.NOT_ASKED ∧ exampleEntry.ipCallbacks_ = [] ∧
      (7 :: [((3 : ZonePtr), (30 : CallbackPtr)), (9, 90)].map Prod.fst).Nodup) ∧
    ∃ handler : ResolverCallback,
      (exampleEntry.askIP TestResolver.resolve [] 7 70).1 = .ok handler ∧
      (handler.entry_.registerAll [(3, 30), (9, 90)]).getState = State.IN_PROGRESS ∧
      (handler.entry_.registerAll [(3, 30), (9, 90)]).ipCallbacks_.Perm
        ((7, 70) :: [(3, 30), (9, 90)]) ∧
      ∀ (cs later : List Completion),
        (let waiting : ResolverCallback :=
            { handler with entry_ := handler.entry_.registerAll [(3, 30), (9, 90)] }
         ((waiting.completeAll cs).1.entry_.getState = State.IN_PROGRESS →
            (waiting.completeAll cs).2 = [] ∧
            (waiting.completeAll cs).1.entry_.ipCallbacks_.Perm
              ((7, 70) :: [(3, 30), (9, 90)])) ∧
         ((waiting.completeAll cs).1.entry_.getState ≠ State.IN_PROGRESS →
            (waiting.completeAll cs).2.Perm
              (((7, 70) :: [(3, 30), (9, 90)]).map invocationOf) ∧
            (∀ p ∈ ((7, 70) :: [(3, 30), (9, 90)] : List (ZonePtr × CallbackPtr)),
              (waiting.completeAll cs).2.count (invocationOf p) = 1) ∧
            (waiting.completeAll cs).1.entry_.ipCallbacks_ = [] ∧
            ((waiting.completeAll cs).1.completeAll later).2 = [])) :=
  ⟨⟨rfl, rfl, by decide⟩,
   C7_fan_out_exactly_once [] exampleEntry 7 70 [(3, 30), (9, 90)] rfl rfl (by decide)⟩

/-- C8: ensureHasCallback throws exactly when the state of the entry is not
IN_PROGRESS; the exception is BadValue and the entry, with its registry and
its state, is left as it was.  When the state is IN_PROGRESS the call returns
normally and the state is unchanged. -/
theorem C8_ensureHasCallback_throws_iff (e : NameserverEntry) (zone : ZonePtr)
    (callback : CallbackPtr) :
    ((∃ ex, (e.ensureHasCallback zone callback).1 = .error ex) ↔
      e.getState ≠ State.IN_PROGRESS) ∧
    (e.getState ≠ State.IN_PROGRESS →
      e.ensureHasCallback zone callback = (.error Exception.BadValue, e)) ∧
    (e.getState = State.IN_PROGRESS →
      (e.ensureHasCallback zone callback).1 = .ok () ∧
      (e.ensureHasCallback zone callback).2.getState = State.IN_PROGRESS) := by
  by_cases hs : e.getState = State.IN_PROGRESS
  · have h1 : (e.ensureHasCallback zone callback).1 = .ok () ∧
        (e.ensureHasCallback zone callback).2.getState = State.IN_PROGRESS := by
      simp only [NameserverEntry.ensureHasCallback, hs, ne_eq, not_true_eq_false, if_false]
      split
      · exact ⟨rfl, hs⟩
      · exact ⟨rfl, hs⟩
    refine ⟨⟨?_, fun h => absurd hs h⟩, fun h => absurd hs h, fun _ => h1⟩
    rintro ⟨ex, hex⟩
    rw [h1.1] at hex
    cases hex
  · have h1 : e.ensureHasCallback zone callback = (.error Exception.BadValue, e) := by
      simp [NameserverEntry.ensureHasCallback, hs]
    refine ⟨⟨fun _ => hs, fun _ => ⟨Exception.BadValue, by rw [h1]⟩⟩, fun _ => h1,
      fun h => absurd h hs⟩

theorem ensureHasCallback_known (e : NameserverEntry) (zone : ZonePtr) (callback : CallbackPtr)
    (hs : e.state_ = State.IN_PROGRESS) (hz : e.ipCallbacks_.find zone ≠ none) :
    e.ensureHasCallback zone callback = (.ok (), e) := by
  simp [NameserverEntry.ensureHasCallback, NameserverEntry.getState, hs, hz]

theorem ensureHasCallback_keys (e : NameserverEntry) (zone : ZonePtr) (callback : CallbackPtr)
    (hs : e.state_ = State.IN_PROGRESS) (hn : e.ipCallbacks_.keys.Nodup) :
    (e.ensureHasCallback zone callback).2.state_ = State.IN_PROGRESS ∧
    (e.ensureHasCallback zone callback).2.ipCallbacks_.keys.Nodup ∧
    ∀ z, z ∈ (e.ensureHasCallback zone callback).2.ipCallbacks_.keys ↔
      z = zone ∨ z ∈ e.ipCallbacks_.keys := by
  by_cases hz : zone ∈ e.ipCallbacks_.keys
  · rw [ensureHasCallback_known e zone callback hs
      (fun h => ((find_eq_none_iff _ _).1 h) hz)]
    refine ⟨hs, hn, fun z => ⟨Or.inr, ?_⟩⟩
    rintro (rfl | h)
    · exact hz
    · exact h
  · obtain ⟨h1, h2⟩ := ensureHasCallback_new e zone callback hs hz
    have hk : (e.ensureHasCallback zone callback).2.ipCallbacks_.keys.Perm
        (zone :: e.ipCallbacks_.keys) := by
      simpa [CallbackMap.keys] using h2.map Prod.fst
    refine ⟨h1, (List.Perm.nodup_iff hk).2 (List.nodup_cons.2 ⟨hz, hn⟩), fun z => ?_⟩
    rw [hk.mem_iff, List.mem_cons]

theorem registerAll_keys (regs : List (ZonePtr × CallbackPtr)) (e : NameserverEntry)
    (hs : e.state_ = State.IN_PROGRESS) (hn : e.ipCallbacks_.keys.Nodup) :
    (e.registerAll regs).state_ = State.IN_PROGRESS ∧
    (e.registerAll regs).ipCallbacks_.keys.Nodup ∧
    ∀ z, z ∈ (e.registerAll regs).ipCallbacks_.keys ↔
      z ∈ e.ipCallbacks_.keys ∨ z ∈ regs.map Prod.fst := by
  induction regs generalizing e with
  | nil => exact ⟨hs, hn, fun z => by simp [NameserverEntry.registerAll]⟩
  | cons p rest ih =>
    obtain ⟨h1, h2, h3⟩ := ensureHasCallback_keys e p.1 p.2 hs hn
    obtain ⟨h4, h5, h6⟩ := ih _ h1 h2
    refine ⟨h4, h5, fun z => ?_⟩
    have := h6 z
    simp only [NameserverEntry.registerAll, List.foldl_cons] at this ⊢
    rw [this, h3]
    simp only [List.map_cons, List.mem_cons]
    tauto

/-- C9: on an IN_PROGRESS entry, ensureHasCallback for a zone that is already
in the registry, with whatever callback, returns normally and leaves the entry
unchanged.  So after any sequence of registrations on an entry whose registry
held one callback per zone, the registry still holds one callback per zone
(no zone twice), and its size is the number of distinct zones among those it
held and those registered; starting from the empty registry, it is the number
of distinct zones registered. -/
theorem C9_registration_idempotent (e : NameserverEntry)
    (hs : e.getState = State.IN_PROGRESS) :
    (∀ zone callback, e.ipCallbacks_.find zone ≠ none →
      e.ensureHasCallback zone callback = (.ok (), e)) ∧
    (∀ zone c1 c2,
      ((e.ensureHasCallback zone c1).2.ensureHasCallback zone c2).2 =
        (e.ensureHasCallback zone c1).2) ∧
    (∀ regs : List (ZonePtr × CallbackPtr), e.ipCallbacks_.keys.Nodup →
      (e.registerAll regs).ipCallbacks_.keys.Nodup ∧
      (e.registerAll regs).ipCallbacks_.length =
        (e.ipCallbacks_.keys ++ regs.map Prod.fst).dedup.length) ∧
    (∀ regs : List (ZonePtr × CallbackPtr), e.ipCallbacks_ = [] →
      (e.registerAll regs).ipCallbacks_.keys.Nodup ∧
      (e.registerAll regs).ipCallbacks_.length = (regs.map Prod.fst).dedup.length) := by
  have hmain : ∀ regs : List (ZonePtr × CallbackPtr), e.ipCallbacks_.keys.Nodup →
      (e.registerAll regs).ipCallbacks_.keys.Nodup ∧
      (e.registerAll regs).ipCallbacks_.length =
        (e.ipCallbacks_.keys ++ regs.map Prod.fst).dedup.length := by
    intro regs hn
    obtain ⟨-, h2, h3⟩ := registerAll_keys regs e hs hn
    refine ⟨h2, ?_⟩
    have hlen : (e.registerAll regs).ipCallbacks_.length =
        (e.registerAll regs).ipCallbacks_.keys.length := by simp [CallbackMap.keys]
    rw [hlen, ← List.toFinset_card_of_nodup h2, ← List.card_toFinset]
    congr 1
    ext z
    simp only [List.mem_toFinset, List.mem_append]
    exact h3 z
  refine ⟨fun zone callback hz => ensureHasCallback_known e zone callback hs hz, ?_, hmain, ?_⟩
  · intro zone c1 c2
    by_cases hz : e.ipCallbacks_.find zone = none
    · have he : e.ensureHasCallback zone c1 =
          (.ok (), { e with ipCallbacks_ := e.ipCallbacks_.assign zone c1 }) := by
        simp [NameserverEntry.ensureHasCallback, hs, hz]
      rw [he]
      have hf : (e.ipCallbacks_.assign zone c1).find zone ≠ none := by
        intro hnone
        have hmem : zone ∈ (e.ipCallbacks_.assign zone c1).keys := by
          have hp := (assign_perm e.ipCallbacks_ zone c1 ((find_eq_none_iff _ _).1 hz)).map Prod.fst
          exact hp.mem_iff.2 (by simp)
        exact ((find_eq_none_iff _ _).1 hnone) hmem
      have hk := ensureHasCallback_known
        { e with ipCallbacks_ := e.ipCallbacks_.assign zone c1 } zone c2 hs hf
      show (NameserverEntry.ensureHasCallback
        { e with ipCallbacks_ := e.ipCallbacks_.assign zone c1 } zone c2).2 = _
      rw [hk]
    · rw [ensureHasCallback_known e zone c1 hs hz, ensureHasCallback_known e zone c2 hs hz]
  · intro regs he
    have := hmain regs (by rw [he]; exact List.nodup_nil)
    simpa [he, CallbackMap.keys] using this

/-- C9 at the example entry after askIP by zone 7: zones 3, 7, 3 and 9 then
register. -/
theorem C9_registration_idempotent_witness :
    exampleHandler.entry_.getState = State.IN_PROGRESS ∧
    exampleHandler.entry_.ensureHasCallback 7 71 = (.ok (), exampleHandler.entry_) ∧
    (exampleHandler.entry_.registerAll [(3, 30), (7, 71), (3, 31), (9, 90)]).ipCallbacks_.length =
      (exampleHandler.entry_.ipCallbacks_.keys ++
        [((3 : ZonePtr), (30 : CallbackPtr)), (7, 71), (3, 31), (9, 90)].map Prod.fst).dedup.length :=
  ⟨rfl, (C9_registration_idempotent exampleHandler.entry_ rfl).1 7 71 (by decide),
   ((C9_registration_idempotent exampleHandler.entry_ rfl).2.2.1 _ (by decide)).2⟩

/-- C10: setAddressRTT(a, r) returns normally on every entry; afterwards the
address list has the same length and the same addresses in the same order,
every AddressEntry whose address equals a has RTT r, every other AddressEntry
is as it was, and nothing else of the entry has changed; when a is not among
the addresses the entry is unchanged.  setAddressUnreachable(a) is
setAddressRTT(a, UNREACHABLE). -/
theorem C10_setAddressRTT_frame (e : NameserverEntry) (a : IOAddress) (r UNREACHABLE : Nat) :
    (e.setAddressRTT a r).address_.length = e.address_.length ∧
    (e.setAddressRTT a r).address_.map AddressEntry.getAddress =
      e.address_.map AddressEntry.getAddress ∧
    (∀ (i : Nat) (x : AddressEntry), e.address_[i]? = some x →
      ∃ y, (e.setAddressRTT a r).address_[i]? = some y ∧
        y.getAddress = x.getAddress ∧
        (x.getAddress = a → y.rtt = r) ∧
        (x.getAddress ≠ a → y = x)) ∧
    (∀ y ∈ (e.setAddressRTT a r).address_, y.getAddress = a → y.rtt = r) ∧
    e.setAddressRTT a r = { e with address_ := (e.setAddressRTT a r).address_ } ∧
    (a ∉ e.address_.map AddressEntry.getAddress → e.setAddressRTT a r = e) ∧
    e.setAddressUnreachable UNREACHABLE a = e.setAddressRTT a UNREACHABLE := by
  refine ⟨by simp [NameserverEntry.setAddressRTT], ?_, ?_, ?_, rfl, ?_, rfl⟩
  · simp only [NameserverEntry.setAddressRTT, List.map_map]
    apply List.map_congr_left
    intro x _
    simp only [Function.comp, AddressEntry.getAddress, AddressEntry.setRTT]
    split <;> rfl
  · intro i x hx
    refine ⟨if x.getAddress = a then x.setRTT r else x, ?_, ?_, ?_, ?_⟩
    · simp [NameserverEntry.setAddressRTT, List.getElem?_map, hx]
    · split <;> rfl
    · intro h; rw [if_pos h]; rfl
    · intro h; rw [if_neg h]
  · intro y hy ha
    simp only [NameserverEntry.setAddressRTT, List.mem_map] at hy
    obtain ⟨x, -, rfl⟩ := hy
    split
    · rfl
    · rename_i hne
      rw [if_neg hne] at ha
      exact absurd ha hne
  · intro hna
    have : e.address_.map (fun i => if i.getAddress = a then i.setRTT r else i) = e.address_ := by
      conv_rhs => rw [← List.map_id e.address_]
      apply List.map_congr_left
      intro x hx
      have : x.getAddress ≠ a := fun h => hna (h ▸ List.mem_map_of_mem _ hx)
      simp [this]
    simp only [NameserverEntry.setAddressRTT, this]

theorem step_registry_empty (w : World) (op : Op)
    (hs : w.handler.entry_.state_ = State.READY) (hr : w.handler.entry_.ipCallbacks_ = []) :
    (w.step op).handler.entry_.ipCallbacks_ = [] ∧ (w.step op).invoked = w.invoked := by
  cases op with
  | askIP zone callback =>
    simp [World.step, NameserverEntry.askIP, NameserverEntry.getState, hs, hr]
  | ensureHasCallback zone callback =>
    simp [World.step, NameserverEntry.ensureHasCallback, NameserverEntry.getState, hs, hr]
  | complete c =>
    obtain ⟨-, h2, h3⟩ := complete_settled w.handler c (by rw [hs]; decide) hr
    simp only [World.step]
    exact ⟨h3, by rw [h2]; simp⟩
  | setAddressRTT address rtt =>
    simpa [World.step, NameserverEntry.setAddressRTT] using hr
  | updateAddressRTTAtIndex rtt index =>
    simp only [World.step, NameserverEntry.updateAddressRTTAtIndex]
    split <;> simpa using hr

theorem run_registry_empty (ops : List Op) (w : World)
    (hs : w.handler.entry_.state_ = State.READY) (hr : w.handler.entry_.ipCallbacks_ = []) :
    (w.run ops).handler.entry_.ipCallbacks_ = [] ∧ (w.run ops).invoked = w.invoked := by
  induction ops generalizing w with
  | nil => exact ⟨hr, rfl⟩
  | cons op rest ih =>
    obtain ⟨h1, h2⟩ := step_registry_empty w op hs hr
    obtain ⟨h3, h4⟩ := ih (w.step op) (step_ready w op hs) h1
    exact ⟨h3, h4.trans h2⟩

/-- C11: let an IN_PROGRESS entry be made READY by a first completion that
carries an address, and let any calls on the entry follow.  When a success
completion with k >= 1 addresses then arrives, the address list becomes the
list as it stood followed by k new entries holding the k addresses in answer
order, the state stays READY and no zone callback is invoked. -/
theorem C11_second_answer_is_appended (w : World) (first second : Message) (between : List Op)
    (hs : w.handler.entry_.getState = State.IN_PROGRESS)
    (h1 : first.addresses ≠ []) (h2 : second.addresses ≠ []) :
    ((w.step (Op.complete (Completion.success first))).run between).handler.entry_.getState =
      State.READY ∧
    ∃ added : List AddressEntry,
      added.map AddressEntry.getAddress = second.addresses ∧
      added.length = second.addresses.length ∧
      ((((w.step (Op.complete (Completion.success first))).run between).step
          (Op.complete (Completion.success second))).handler.entry_.address_ =
        ((w.step (Op.complete (Completion.success first))).run between).handler.entry_.address_
          ++ added) ∧
      ((((w.step (Op.complete (Completion.success first))).run between).step
          (Op.complete (Completion.success second))).handler.entry_.getState = State.READY) ∧
      ((((w.step (Op.complete (Completion.success first))).run between).step
          (Op.complete (Completion.success second))).invoked =
        ((w.step (Op.complete (Completion.success first))).run between).invoked) := by
  have _ := hs
  have hstep : (w.step (Op.complete (Completion.success first))).handler =
      (w.handler.success first).1 := rfl
  have hr1 : (w.step (Op.complete (Completion.success first))).handler.entry_.state_ =
      State.READY := by
    rw [hstep, success_with_address _ _ h1]
  have he1 : (w.step (Op.complete (Completion.success first))).handler.entry_.ipCallbacks_ =
      [] := by
    rw [hstep, success_with_address _ _ h1]
  have hr2 := run_ready between _ hr1
  obtain ⟨he2, -⟩ := run_registry_empty between _ hr1 he1
  refine ⟨hr2, stamp ((w.step (Op.complete (Completion.success first))).run between).handler.rtt
    second.addresses, stamp_map_address _ _, stamp_length _ _, ?_, ?_, ?_⟩
  · show (ResolverCallback.success _ second).1.entry_.address_ = _
    rw [success_with_address _ _ h2]
  · show (ResolverCallback.success _ second).1.entry_.state_ = _
    rw [success_with_address _ _ h2]
  · show _ ++ (ResolverCallback.success _ second).2 = _
    rw [success_with_address _ _ h2, he2]
    simp [ResolverCallback.dispatchCallbacks]

/-- C11 at the example entry: the A answer arrives, an RTT is reported, then
the AAAA answer arrives with two addresses. -/
theorem C11_second_answer_is_appended_witness :
    (exampleWorld.handler.entry_.getState = State.IN_PROGRESS ∧
      exampleAnswer.addresses ≠ [] ∧ exampleAnswer6.addresses ≠ []) ∧
    ∃ added : List AddressEntry,
      added.map AddressEntry.getAddress = exampleAnswer6.addresses ∧
      added.length = exampleAnswer6.addresses.length ∧
      ((((exampleWorld.step (Op.complete (Completion.success exampleAnswer))).run
          [Op.setAddressRTT exampleAddress 25]).step
          (Op.complete (Completion.success exampleAnswer6))).handler.entry_.address_ =
        ((exampleWorld.step (Op.complete (Completion.success exampleAnswer))).run
          [Op.setAddressRTT exampleAddress 25]).handler.entry_.address_ ++ added) ∧
      ((((exampleWorld.step (Op.complete (Completion.success exampleAnswer))).run
          [Op.setAddressRTT exampleAddress 25]).step
          (Op.complete (Completion.success exampleAnswer6))).handler.entry_.getState =
        State.READY) ∧
      ((((exampleWorld.step (Op.complete (Completion.success exampleAnswer))).run
          [Op.setAddressRTT exampleAddress 25]).step
          (Op.complete (Completion.success exampleAnswer6))).invoked =
        ((exampleWorld.step (Op.complete (Completion.success exampleAnswer))).run
          [Op.setAddressRTT exampleAddress 25]).invoked) :=
  ⟨⟨rfl, by decide, by decide⟩,
   (C11_second_answer_is_appended exampleWorld exampleAnswer exampleAnswer6
      [Op.setAddressRTT exampleAddress 25] rfl (by decide) (by decide)).2⟩

theorem complete_counted (n : Nat) (cb : ResolverCallback) (c : Completion)
    (h : Counted n cb.entry_) : Counted (n + 1) (cb.complete c).1.entry_ := by
  obtain ⟨hw, hi, hu, hn⟩ := h
  cases hc : c.hasAddress with
  | true =>
    obtain ⟨m, -, hm, he⟩ := complete_with_address cb c hc
    rw [he, success_with_address cb m hm]
    refine ⟨?_, ?_, ?_, ?_⟩
    · show cb.entry_.waiting_responses_ - 1 = _
      rw [hw]; push_cast; ring
    · intro h; cases h
    · intro h; cases h
    · intro h; cases h
  | false =>
    rw [complete_no_address cb c hc]
    by_cases hp : cb.entry_.waiting_responses_ - 1 ≠ 0 ∨ cb.entry_.state_ ≠ State.IN_PROGRESS
    · rw [failure_pending cb hp]
      refine ⟨?_, ?_, ?_, hn⟩
      · show cb.entry_.waiting_responses_ - 1 = _
        rw [hw]; push_cast; ring
      · intro h
        have h : cb.entry_.state_ = State.IN_PROGRESS := h
        have h1 := hi h
        rcases hp with hp | hp
        · rw [hw] at hp
          omega
        · exact absurd h hp
      · intro h
        have h : cb.entry_.state_ = State.UNREACHABLE := h
        have := hu h
        omega
    · simp only [not_or, not_not] at hp
      rw [failure_last cb hp.1 hp.2]
      refine ⟨?_, ?_, ?_, ?_⟩
      · show cb.entry_.waiting_responses_ - 1 = _
        rw [hw]; push_cast; ring
      · intro h; cases h
      · intro _
        have := hp.1
        rw [hw] at this
        omega
      · intro h; cases h

theorem step_counted (n : Nat) (w : World) (op : Op) (h : Counted n w.handler.entry_) :
    Counted (n + completions [op]) (w.step op).handler.entry_ := by
  cases op with
  | askIP zone callback =>
    have : (w.step (Op.askIP zone callback)).handler.entry_ = w.handler.entry_ := by
      simp [World.step, NameserverEntry.askIP, NameserverEntry.getState, h.2.2.2]
    rw [this]
    exact h
  | ensureHasCallback zone callback =>
    obtain ⟨hw, hi, hu, hn⟩ := h
    simp only [World.step, NameserverEntry.ensureHasCallback, completions, List.filter,
      Op.isCompletion, List.length_nil, Nat.add_zero]
    split
    · exact ⟨hw, hi, hu, hn⟩
    · split
      · exact ⟨hw, hi, hu, hn⟩
      · exact ⟨hw, hi, hu, hn⟩
  | complete c => exact complete_counted n w.handler c h
  | setAddressRTT address rtt => exact h
  | updateAddressRTTAtIndex rtt index =>
    obtain ⟨hw, hi, hu, hn⟩ := h
    simp only [World.step, NameserverEntry.updateAddressRTTAtIndex, completions, List.filter,
      Op.isCompletion, List.length_nil, Nat.add_zero]
    split
    · exact ⟨hw, hi, hu, hn⟩
    · exact ⟨hw, hi, hu, hn⟩

theorem completions_cons (op : Op) (ops : List Op) :
    completions (op :: ops) = completions [op] + completions ops := by
  simp only [completions, List.filter]
  cases op.isCompletion <;> simp [Nat.add_comm]

theorem run_counted (ops : List Op) (n : Nat) (w : World) (h : Counted n w.handler.entry_) :
    Counted (n + completions ops) (w.run ops).handler.entry_ := by
  induction ops generalizing n w with
  | nil => simpa [completions, World.run] using h
  | cons op rest ih =>
    have := ih _ (w.step op) (step_counted n w op h)
    rw [completions_cons, ← Nat.add_assoc]
    exact this

theorem run_after_askIP (w : World) (zone : ZonePtr) (callback : CallbackPtr) (ops : List Op)
    (hs : w.handler.entry_.getState = State.NOT_ASKED) :
    Counted (completions ops) (w.run (Op.askIP zone callback :: ops)).handler.entry_ := by
  have hstep : (w.step (Op.askIP zone callback)).handler =
      w.handler.entry_.handlerAtFirstCall zone callback := by
    simp [World.step, askIP_test_resolver w.resolver _ zone callback hs]
  have h0 : Counted 0 (w.step (Op.askIP zone callback)).handler.entry_ := by
    rw [hstep]
    refine ⟨rfl, fun _ => Nat.zero_le _, fun h => ?_, fun h => ?_⟩ <;>
      simp [NameserverEntry.handlerAtFirstCall] at h
  have := run_counted ops 0 _ h0
  simpa [World.run] using this

/-- C12, the claim refuted: the entry the constructor builds from an RRset
without address is asked, and its A query is answered with one address; the
entry is then READY, not IN_PROGRESS, and its pending-response count is 1. -/
theorem C12_counterexample :
    NameserverEntry.construct (some exampleEmptySet) none 1000 0 0 = .ok constructedEntry ∧
    ¬ (((World.run { resolver := [], handler := ⟨constructedEntry, 0⟩, invoked := [] }
          [Op.askIP 7 70, Op.complete (Completion.success exampleAnswer)]).handler.entry_.waiting_responses_
          ≠ 0) →
        (World.run { resolver := [], handler := ⟨constructedEntry, 0⟩, invoked := [] }
          [Op.askIP 7 70, Op.complete (Completion.success exampleAnswer)]).handler.entry_.getState
          = State.IN_PROGRESS) := by
  refine ⟨by rfl, ?_⟩
  intro h
  exact absurd (h (by decide)) (by decide)

/-- C12 as amended: once askIP has succeeded on an entry, and as long as at
most two completions have been delivered since (whatever registrations, RTT
updates and further askIP calls come in between), the pending-response count
is 2 minus the number of completions delivered; it is non-zero only while the
state is IN_PROGRESS or READY, it is zero whenever the state is UNREACHABLE,
and it is non-zero whenever the state is IN_PROGRESS. -/
theorem C12_count_nonzero_only_in_progress_or_ready (w : World) (zone : ZonePtr)
    (callback : CallbackPtr) (ops : List Op)
    (hs : w.handler.entry_.getState = State.NOT_ASKED) (hc : completions ops ≤ 2) :
    (w.run (Op.askIP zone callback :: ops)).handler.entry_.waiting_responses_ =
      2 - (completions ops : Int) ∧
    ((w.run (Op.askIP zone callback :: ops)).handler.entry_.waiting_responses_ ≠ 0 →
      (w.run (Op.askIP zone callback :: ops)).handler.entry_.getState = State.IN_PROGRESS ∨
      (w.run (Op.askIP zone callback :: ops)).handler.entry_.getState = State.READY) ∧
    ((w.run (Op.askIP zone callback :: ops)).handler.entry_.getState = State.UNREACHABLE →
      (w.run (Op.askIP zone callback :: ops)).handler.entry_.waiting_responses_ = 0) ∧
    ((w.run (Op.askIP zone callback :: ops)).handler.entry_.getState = State.IN_PROGRESS →
      (w.run (Op.askIP zone callback :: ops)).handler.entry_.waiting_responses_ ≠ 0) := by
  obtain ⟨hw, hi, hu, hn⟩ := run_after_askIP w zone callback ops hs
  simp only [NameserverEntry.getState]
  refine ⟨hw, ?_, ?_, ?_⟩
  · intro hne
    cases hst : (w.run (Op.askIP zone callback :: ops)).handler.entry_.state_ with
    | NOT_ASKED => exact absurd hst hn
    | IN_PROGRESS => exact Or.inl rfl
    | READY => exact Or.inr rfl
    | UNREACHABLE =>
      have := hu hst
      rw [hw] at hne
      omega
  · intro hst
    have := hu hst
    rw [hw]
    omega
  · intro hst
    have := hi hst
    rw [hw]
    omega

/-- C12 as amended, at the constructed example entry with one answer and one
failure delivered. -/
theorem C12_count_nonzero_only_in_progress_or_ready_witness :
    (constructedEntry.getState = State.NOT_ASKED ∧
      completions [Op.complete (Completion.success exampleAnswer),
        Op.ensureHasCallback 3 30, Op.complete Completion.failure] ≤ 2) ∧
    (World.run { resolver := [], handler := ⟨constructedEntry, 0⟩, invoked := [] }
      (Op.askIP 7 70 :: [Op.complete (Completion.success exampleAnswer),
        Op.ensureHasCallback 3 30, Op.complete Completion.failure])).handler.entry_.waiting_responses_
      = 2 - (completions [Op.complete (Completion.success exampleAnswer),
        Op.ensureHasCallback 3 30, Op.complete Completion.failure] : Int) :=
  ⟨⟨rfl, by decide⟩,
   (C12_count_nonzero_only_in_progress_or_ready
      { resolver := [], handler := ⟨constructedEntry, 0⟩, invoked := [] } 7 70
      [Op.complete (Completion.success exampleAnswer), Op.ensureHasCallback 3 30,
        Op.complete Completion.failure] rfl (by decide)).1⟩

/-- C13, the claim refuted: the example entry is IN_PROGRESS after askIP; the
answer to its A query, which carries an address, changes the state to READY
and leaves the pending-response count at 1. -/
theorem C13_counterexample :
    exampleHandler.entry_.getState = State.IN_PROGRESS ∧
    (exampleHandler.complete (Completion.success exampleAnswer)).1.entry_.getState =
      State.READY ∧
    (exampleHandler.complete (Completion.success exampleAnswer)).1.entry_.waiting_responses_
      ≠ 0 := by
  decide

/-- C13 as amended: a completion that takes an entry from IN_PROGRESS to
UNREACHABLE leaves the pending-response count at zero, and a completion
without address leaves IN_PROGRESS only so; a completion that takes the entry
from IN_PROGRESS to READY is one that carries an address, and it leaves the
count decremented by one, whatever is still outstanding.  No completion takes
the entry anywhere else. -/
theorem C13_transitions_out_of_in_progress (cb : ResolverCallback) (c : Completion)
    (hs : cb.entry_.getState = State.IN_PROGRESS) :
    (cb.complete c).1.entry_.waiting_responses_ = cb.entry_.waiting_responses_ - 1 ∧
    ((cb.complete c).1.entry_.getState = State.UNREACHABLE →
      c.hasAddress = false ∧ (cb.complete c).1.entry_.waiting_responses_ = 0) ∧
    ((cb.complete c).1.entry_.getState = State.READY ↔ c.hasAddress = true) ∧
    (c.hasAddress = false →
      ((cb.complete c).1.entry_.getState = State.UNREACHABLE ↔
        (cb.complete c).1.entry_.waiting_responses_ = 0)) ∧
    ((cb.complete c).1.entry_.getState = State.IN_PROGRESS ∨
      (cb.complete c).1.entry_.getState = State.READY ∨
      (cb.complete c).1.entry_.getState = State.UNREACHABLE) := by
  simp only [NameserverEntry.getState] at hs ⊢
  cases hc : c.hasAddress with
  | true =>
    obtain ⟨m, -, hm, he⟩ := complete_with_address cb c hc
    rw [he, success_with_address cb m hm]
    simp
  | false =>
    rw [complete_no_address cb c hc]
    by_cases hp : cb.entry_.waiting_responses_ - 1 ≠ 0 ∨ cb.entry_.state_ ≠ State.IN_PROGRESS
    · rw [failure_pending cb hp]
      have hne : cb.entry_.waiting_responses_ - 1 ≠ 0 := by
        rcases hp with hp | hp
        · exact hp
        · exact absurd hs hp
      simp [hs, hne]
    · simp only [not_or, not_not] at hp
      rw [failure_last cb hp.1 hp.2]
      simp [hp.1]

/-- C13 as amended, at the example entry after one failure, with a second
failure delivered. -/
theorem C13_transitions_out_of_in_progress_witness :
    (exampleHandler.complete Completion.failure).1.entry_.getState = State.IN_PROGRESS ∧
    (((exampleHandler.complete Completion.failure).1.complete
        Completion.failure).1.entry_.getState = State.UNREACHABLE →
      Completion.failure.hasAddress = false ∧
      ((exampleHandler.complete Completion.failure).1.complete
        Completion.failure).1.entry_.waiting_responses_ = 0) :=
  ⟨by decide,
   (C13_transitions_out_of_in_progress (exampleHandler.complete Completion.failure).1
      Completion.failure (by decide)).2.1⟩

theorem construct_none_none (curtime now indeterminate : Int) :
    NameserverEntry.construct none none curtime now indeterminate =
      .ok { name_ := "", classCode_ := 0, address_ := [], expiration_ := 0,
            state_ := State.NOT_ASKED, ipCallbacks_ := [],
            waiting_responses_ := indeterminate } := by
  simp [NameserverEntry.construct, Fetchable.initialState]

theorem construct_some_none (v4 : AbstractRRset) (curtime now indeterminate : Int) :
    NameserverEntry.construct (some v4) none curtime now indeterminate =
      .ok { name_ := v4.name, classCode_ := v4.rrclass,
            address_ := (NameserverEntry.pushRdata v4.rdata ([], 0)).1,
            expiration_ := (if curtime = 0 then now else curtime) + v4.ttl,
            state_ := State.NOT_ASKED, ipCallbacks_ := [],
            waiting_responses_ := indeterminate } := by
  simp [NameserverEntry.construct, Fetchable.initialState]

theorem construct_none_some (v6 : AbstractRRset) (curtime now indeterminate : Int) :
    NameserverEntry.construct none (some v6) curtime now indeterminate =
      .ok { name_ := v6.name, classCode_ := v6.rrclass,
            address_ := (NameserverEntry.pushRdata v6.rdata ([], 0)).1,
            expiration_ := (if curtime = 0 then now else curtime) + v6.ttl,
            state_ := State.NOT_ASKED, ipCallbacks_ := [],
            waiting_responses_ := indeterminate } := by
  simp [NameserverEntry.construct, Fetchable.initialState]

theorem construct_some_some (v4 v6 : AbstractRRset) (curtime now indeterminate : Int) :
    NameserverEntry.construct (some v4) (some v6) curtime now indeterminate =
      if strcasecmp v4.name.toList v6.name.toList ≠ 0 then
        .error Exception.InconsistentOwnerNames
      else if v4.rrclass ≠ v6.rrclass then
        .error Exception.InconsistentClass
      else
        .ok { name_ := v4.name, classCode_ := v4.rrclass,
              address_ :=
                (NameserverEntry.pushRdata v6.rdata
                  (NameserverEntry.pushRdata v4.rdata ([], 0))).1,
              expiration_ :=
                if (if curtime = 0 then now else curtime) + v4.ttl = 0 then
                  (if curtime = 0 then now else curtime) + v6.ttl
                else
                  min ((if curtime = 0 then now else curtime) + v4.ttl)
                    ((if curtime = 0 then now else curtime) + v6.ttl),
              state_ := State.NOT_ASKED, ipCallbacks_ := [],
              waiting_responses_ := indeterminate } := by
  simp [NameserverEntry.construct, Fetchable.initialState]

theorem construct_state (v4Set v6Set : Option AbstractRRset) (curtime now indeterminate : Int)
    (e : NameserverEntry)
    (h : NameserverEntry.construct v4Set v6Set curtime now indeterminate = .ok e) :
    e.state_ = State.NOT_ASKED ∧ e.ipCallbacks_ = [] := by
  cases v4Set with
  | none =>
    cases v6Set with
    | none =>
      rw [construct_none_none] at h
      cases h
      exact ⟨rfl, rfl⟩
    | some v6 =>
      rw [construct_none_some] at h
      cases h
      exact ⟨rfl, rfl⟩
  | some v4 =>
    cases v6Set with
    | none =>
      rw [construct_some_none] at h
      cases h
      exact ⟨rfl, rfl⟩
    | some v6 =>
      rw [construct_some_some] at h
      split at h
      · cases h
      · split at h
        · cases h
        · cases h
          exact ⟨rfl, rfl⟩

theorem step_address_state (w : World) (op : Op)
    (h : w.handler.entry_.address_ ≠ [] → w.handler.entry_.state_ = State.READY) :
    (w.step op).handler.entry_.address_ ≠ [] → (w.step op).handler.entry_.state_ = State.READY := by
  cases op with
  | askIP zone callback =>
    by_cases hs : w.handler.entry_.getState = State.NOT_ASKED
    · have hstep : (w.step (Op.askIP zone callback)).handler =
          w.handler.entry_.handlerAtFirstCall zone callback := by
        simp [World.step, askIP_test_resolver w.resolver _ zone callback hs]
      rw [hstep]
      intro hne
      have : w.handler.entry_.state_ = State.READY := h hne
      rw [NameserverEntry.getState, this] at hs
      cases hs
    · have : (w.step (Op.askIP zone callback)).handler.entry_ = w.handler.entry_ := by
        simp [World.step, NameserverEntry.askIP, hs]
      rw [this]
      exact h
  | ensureHasCallback zone callback =>
    simp only [World.step, NameserverEntry.ensureHasCallback]
    split
    · exact h
    · split
      · exact h
      · exact h
  | complete c =>
    show (w.handler.complete c).1.entry_.address_ ≠ [] → (w.handler.complete c).1.entry_.state_ = _
    cases hc : c.hasAddress with
    | true =>
      obtain ⟨m, -, hm, he⟩ := complete_with_address w.handler c hc
      rw [he, success_with_address _ m hm]
      exact fun _ => rfl
    | false =>
      rw [complete_no_address _ c hc]
      by_cases hp : w.handler.entry_.waiting_responses_ - 1 ≠ 0 ∨
          w.handler.entry_.state_ ≠ State.IN_PROGRESS
      · rw [failure_pending _ hp]
        exact h
      · simp only [not_or, not_not] at hp
        rw [failure_last _ hp.1 hp.2]
        intro hne
        have := h hne
        rw [hp.2] at this
        cases this
  | setAddressRTT address rtt =>
    intro hne
    apply h
    intro hnil
    apply hne
    simp [World.step, NameserverEntry.setAddressRTT, hnil]
  | updateAddressRTTAtIndex rtt index =>
    simp only [World.step, NameserverEntry.updateAddressRTTAtIndex]
    split
    · exact h
    · intro hne
      apply h
      intro hnil
      apply hne
      simp [hnil]

theorem run_address_state (ops : List Op) (w : World)
    (h : w.handler.entry_.address_ ≠ [] → w.handler.entry_.state_ = State.READY) :
    (w.run ops).handler.entry_.address_ ≠ [] → (w.run ops).handler.entry_.state_ = State.READY := by
  induction ops generalizing w with
  | nil => exact h
  | cons op rest ih => exact ih _ (step_address_state w op h)

theorem step_address_kept (w : World) (op : Op) (h : w.handler.entry_.address_ ≠ []) :
    (w.step op).handler.entry_.address_ ≠ [] := by
  cases op with
  | askIP zone callback =>
    by_cases hs : w.handler.entry_.getState = State.NOT_ASKED
    · have hstep : (w.step (Op.askIP zone callback)).handler =
          w.handler.entry_.handlerAtFirstCall zone callback := by
        simp [World.step, askIP_test_resolver w.resolver _ zone callback hs]
      rw [hstep]
      exact h
    · have : (w.step (Op.askIP zone callback)).handler.entry_ = w.handler.entry_ := by
        simp [World.step, NameserverEntry.askIP, hs]
      rw [this]
      exact h
  | ensureHasCallback zone callback =>
    simp only [World.step, NameserverEntry.ensureHasCallback]
    split
    · exact h
    · split
      · exact h
      · exact h
  | complete c =>
    show (w.handler.complete c).1.entry_.address_ ≠ []
    cases hc : c.hasAddress with
    | true =>
      obtain ⟨m, -, hm, he⟩ := complete_with_address w.handler c hc
      rw [he, success_with_address _ m hm]
      simp [h]
    | false =>
      rw [complete_no_address _ c hc]
      simp only [ResolverCallback.failure]
      split
      · exact h
      · exact h
  | setAddressRTT address rtt =>
    simpa [World.step, NameserverEntry.setAddressRTT] using h
  | updateAddressRTTAtIndex rtt index =>
    simp only [World.step, NameserverEntry.updateAddressRTTAtIndex]
    split
    · exact h
    · simpa using h

theorem run_address_kept (ops : List Op) (w : World) (h : w.handler.entry_.address_ ≠ []) :
    (w.run ops).handler.entry_.address_ ≠ [] := by
  induction ops generalizing w with
  | nil => exact h
  | cons op rest ih => exact ih _ (step_address_kept w op h)

theorem run_no_address_delivered (ops : List Op) (w : World)
    (h : (w.run ops).handler.entry_.address_ = []) (c : Completion)
    (hc : Op.complete c ∈ ops) : c.hasAddress = false := by
  induction ops generalizing w with
  | nil => cases hc
  | cons op rest ih =>
    rcases List.mem_cons.1 hc with hhead | htail
    · subst hhead
      cases hca : c.hasAddress with
      | false => rfl
      | true =>
        exfalso
        obtain ⟨m, -, hm, he⟩ := complete_with_address w.handler c hca
        have hne : (w.step (Op.complete c)).handler.entry_.address_ ≠ [] := by
          show (w.handler.complete c).1.entry_.address_ ≠ []
          rw [he, success_with_address _ m hm]
          cases hma : m.addresses with
          | nil => exact absurd hma hm
          | cons a rest => simp [stamp]
        exact run_address_kept rest _ hne h
    · exact ih (w.step op) h htail

/-- C14, the code evaluated where the claim fails, and where it holds.  Every
entry the constructor builds is in state NOT_ASKED; built from a glue RRset
with the address 192.0.2.1 it has a non-empty address list and is not READY,
and after askIP it is IN_PROGRESS with that address still in its list.  For an
entry that starts without address (more generally, one for which a non-empty
list already means READY), every sequence of calls keeps: a non-empty address
list means READY, and an empty address list means that no completion
delivered carried an address. -/
theorem C14_glue_entry_is_not_ready :
    (∀ (v4Set v6Set : Option AbstractRRset) (curtime now indeterminate : Int)
        (e : NameserverEntry),
      NameserverEntry.construct v4Set v6Set curtime now indeterminate = .ok e →
        e.getState = State.NOT_ASKED) ∧
    (NameserverEntry.construct (some exampleGlue) none 1000 0 0 = .ok glueEntry ∧
      glueEntry.address_ ≠ [] ∧ glueEntry.getState ≠ State.READY ∧
      (glueEntry.askIP TestResolver.resolve [] 7 70).2.2.address_ ≠ [] ∧
      (glueEntry.askIP TestResolver.resolve [] 7 70).2.2.getState = State.IN_PROGRESS) ∧
    (∀ (w : World) (ops : List Op),
      (w.handler.entry_.address_ ≠ [] → w.handler.entry_.getState = State.READY) →
      ((w.run ops).handler.entry_.address_ ≠ [] →
        (w.run ops).handler.entry_.getState = State.READY) ∧
      ((w.run ops).handler.entry_.address_ = [] →
        ∀ c, Op.complete c ∈ ops → c.hasAddress = false)) := by
  refine ⟨fun v4Set v6Set curtime now indeterminate e h =>
      (construct_state v4Set v6Set curtime now indeterminate e h).1,
    ⟨by rfl, by decide, by decide, by decide, by decide⟩, ?_⟩
  intro w ops h
  exact ⟨run_address_state ops w h, fun hnil c hc => run_no_address_delivered ops w hnil c hc⟩

theorem char_toNat_injective (a b : Char) (h : a.toNat = b.toNat) : a = b := by
  apply Char.ext
  apply UInt32.ext
  exact h

theorem strcasecmp_eq_zero_iff (a b : List Char) :
    strcasecmp a b = 0 ↔ a.map Char.toLower = b.map Char.toLower := by
  induction a generalizing b with
  | nil =>
    cases b with
    | nil => simp [strcasecmp]
    | cons y ys => simp [strcasecmp]
  | cons x xs ih =>
    cases b with
    | nil => simp [strcasecmp]
    | cons y ys =>
      simp only [strcasecmp, List.map_cons, List.cons.injEq]
      by_cases hxy : x.toLower = y.toLower
      · rw [if_pos hxy, ih]
        exact ⟨fun h => ⟨hxy, h⟩, fun h => h.2⟩
      · rw [if_neg hxy]
        constructor
        · intro h
          exfalso
          apply hxy
          apply char_toNat_injective
          omega
        · intro h
          exact absurd h.1 hxy

/-- C20: construction from both a v4 and a v6 RRset throws
InconsistentOwnerNames exactly when the two owner names differ up to the case
of letters; when they do not, it throws InconsistentClass exactly when the two
class codes differ; when names and classes agree it succeeds with the name and
class of the v4 set.  Construction from one RRset or from none always
succeeds, with the name and class of the v4 set when it is given, else of the
v6 set, else the empty name and class 0. -/
theorem C20_constructor_consistency (v4 v6 : AbstractRRset) (curtime now indeterminate : Int) :
    (NameserverEntry.construct (some v4) (some v6) curtime now indeterminate =
        .error Exception.InconsistentOwnerNames ↔ ¬ eqIgnoreCase v4.name v6.name) ∧
    (eqIgnoreCase v4.name v6.name →
      (NameserverEntry.construct (some v4) (some v6) curtime now indeterminate =
        .error Exception.InconsistentClass ↔ v4.rrclass ≠ v6.rrclass)) ∧
    (NameserverEntry.construct (some v4) (some v6) curtime now indeterminate =
        .error Exception.InconsistentClass →
      eqIgnoreCase v4.name v6.name ∧ v4.rrclass ≠ v6.rrclass) ∧
    (eqIgnoreCase v4.name v6.name → v4.rrclass = v6.rrclass →
      ∃ e, NameserverEntry.construct (some v4) (some v6) curtime now indeterminate = .ok e ∧
        e.getName = v4.name ∧ e.getClass = v4.rrclass) ∧
    (∀ e, NameserverEntry.construct (some v4) (some v6) curtime now indeterminate = .ok e →
      e.getName = v4.name ∧ e.getClass = v4.rrclass) ∧
    (∃ e, NameserverEntry.construct (some v4) none curtime now indeterminate = .ok e ∧
      e.getName = v4.name ∧ e.getClass = v4.rrclass) ∧
    (∃ e, NameserverEntry.construct none (some v6) curtime now indeterminate = .ok e ∧
      e.getName = v6.name ∧ e.getClass = v6.rrclass) ∧
    (∃ e, NameserverEntry.construct none none curtime now indeterminate = .ok e ∧
      e.getName = "" ∧ e.getClass = 0) := by
  have hn : strcasecmp v4.name.toList v6.name.toList = 0 ↔ eqIgnoreCase v4.name v6.name :=
    strcasecmp_eq_zero_iff _ _
  rw [construct_some_some, construct_some_none, construct_none_some, construct_none_none]
  refine ⟨?_, ?_, ?_, ?_, ?_, ⟨_, rfl, rfl, rfl⟩, ⟨_, rfl, rfl, rfl⟩, ⟨_, rfl, rfl, rfl⟩⟩
  · by_cases h : strcasecmp v4.name.toList v6.name.toList = 0
    · simp only [h, ne_eq, not_true_eq_false, if_false]
      constructor
      · intro he
        split at he <;> cases he
      · intro hne
        exact absurd (hn.1 h) hne
    · simp only [ne_eq, h, not_false_eq_true, if_true, true_iff]
      exact fun he => h (hn.2 he)
  · intro he
    have h := hn.2 he
    simp only [h, ne_eq, not_true_eq_false, if_false]
    by_cases hc : v4.rrclass = v6.rrclass
    · simp [hc]
    · simp [hc]
  · intro herr
    by_cases h : strcasecmp v4.name.toList v6.name.toList = 0
    · simp only [h, ne_eq, not_true_eq_false, if_false] at herr
      by_cases hc : v4.rrclass = v6.rrclass
      · simp [hc] at herr
      · exact ⟨hn.1 h, hc⟩
    · rw [if_pos h] at herr
      cases herr
  · intro he hc
    have h := hn.2 he
    simp only [h, hc, ne_eq, not_true_eq_false, if_false]
    exact ⟨_, rfl, rfl, hc.symm ▸ rfl⟩
  · intro e hok
    split at hok
    · cases hok
    · split at hok
      · cases hok
      · cases hok
        exact ⟨rfl, rfl⟩

section CacheLemmas

variable {κ ε : Type} [DecidableEq κ]

theorem IndexedCache.find_eq_none (c : IndexedCache κ ε) (key : κ)
    (h : key ∉ c.hash.map Prod.fst) : c.find key = none := by
  simp only [IndexedCache.find, Option.map_eq_none', List.find?_eq_none]
  intro p hp
  simp only [decide_eq_true_eq]
  intro he
  exact h (he ▸ List.mem_map_of_mem Prod.fst hp)

theorem list_find_of_mem_nodup (l : List (κ × ε)) (p : κ × ε) (hp : p ∈ l)
    (hd : (l.map Prod.fst).Nodup) : (l.find? fun q => q.1 = p.1) = some p := by
  induction l with
  | nil => cases hp
  | cons q rest ih =>
    simp only [List.map_cons, List.nodup_cons] at hd
    rcases List.mem_cons.1 hp with rfl | hmem
    · simp
    · have hne : q.1 ≠ p.1 := by
        intro he
        exact hd.1 (he ▸ List.mem_map_of_mem Prod.fst hmem)
      rw [List.find?_cons_of_neg _ (by simpa using hne)]
      exact ih hmem hd.2

theorem IndexedCache.find_of_mem (c : IndexedCache κ ε) (p : κ × ε) (hp : p ∈ c.hash)
    (hd : (c.hash.map Prod.fst).Nodup) : c.find p.1 = some p.2 := by
  simp [IndexedCache.find, list_find_of_mem_nodup c.hash p hp hd]

theorem IndexedCache.insert_fit (c : IndexedCache κ ε) (key : κ) (entry : ε)
    (hk : key ∉ c.hash.map Prod.fst) (hl : c.lru.length ≠ c.capacity) :
    c.insert key entry =
      (.ok (), { c with hash := c.hash ++ [(key, entry)], lru := c.lru ++ [key] }) := by
  simp [IndexedCache.insert, c.find_eq_none key hk, hl]

theorem IndexedCache.insertAll_fit (es : List (κ × ε)) (c : IndexedCache κ ε)
    (hh : c.hash.map Prod.fst = c.lru)
    (hd : (c.lru ++ es.map Prod.fst).Nodup)
    (hl : c.lru.length + es.length ≤ c.capacity) :
    c.insertAll es =
      (List.replicate es.length (.ok ()),
       { c with hash := c.hash ++ es, lru := c.lru ++ es.map Prod.fst }) := by
  induction es generalizing c with
  | nil => simp [IndexedCache.insertAll]
  | cons p rest ih =>
    have hk : p.1 ∉ c.hash.map Prod.fst := by
      rw [hh]
      intro hm
      exact (List.nodup_append.1 hd).2.2 hm (by simp)
    have hlen : c.lru.length ≠ c.capacity := by
      simp only [List.length_cons] at hl
      omega
    simp only [IndexedCache.insertAll]
    rw [c.insert_fit p.1 p.2 hk hlen]
    rw [ih]
    · simp [List.replicate_succ]
    · simp [hh]
    · simpa using hd
    · simp only [List.length_append, List.length_cons, List.length_nil] at hl ⊢
      omega

theorem list_filter_head_key (p : κ × ε) (rest : List (κ × ε))
    (hd : ((p :: rest).map Prod.fst).Nodup) :
    (p :: rest).filter (fun q => q.1 ≠ p.1) = rest := by
  simp only [List.map_cons, List.nodup_cons] at hd
  rw [List.filter_cons_of_neg (by simp)]
  rw [List.filter_eq_self]
  intro q hq
  simp only [ne_eq, decide_not, Bool.not_eq_eq_eq_not, Bool.not_true, decide_eq_false_iff_not]
  intro he
  exact hd.1 (he ▸ List.mem_map_of_mem Prod.fst hq)

end CacheLemmas

/-- C15: a cache built with capacity N >= 1 receives N+1 entries with distinct
keys.  Every insertion succeeds; after the first N the first entry is still
held; after the last, the LRU list and the hash index both hold exactly the
other N entries, the newest included, the first-inserted key is in neither and
a lookup of it finds nothing, and a lookup of any other key finds its entry. -/
theorem C15_eviction_of_least_recently_used {κ ε : Type} [DecidableEq κ] (N : Nat)
    (first : κ × ε) (others : List (κ × ε))
    (hN : 0 < N) (hlen : others.length = N)
    (hd : ((first :: others).map Prod.fst).Nodup) :
    ∃ c0 : IndexedCache κ ε, IndexedCache.create N = .ok c0 ∧
      (c0.insertAll (first :: others)).1 = List.replicate (N + 1) (.ok ()) ∧
      (c0.insertAll (first :: others.dropLast)).2.find first.1 = some first.2 ∧
      (c0.insertAll (first :: others)).2.lru = others.map Prod.fst ∧
      (c0.insertAll (first :: others)).2.hash = others ∧
      first.1 ∉ (c0.insertAll (first :: others)).2.lru ∧
      first.1 ∉ (c0.insertAll (first :: others)).2.hash.map Prod.fst ∧
      ((c0.insertAll (first :: others)).2.lookup first.1).1 = none ∧
      (∀ p ∈ others, ((c0.insertAll (first :: others)).2.lookup p.1).1 = some p.2) := by
  refine ⟨{ hash := [], lru := [], capacity := N }, ?_, ?_⟩
  · simp [IndexedCache.create, Nat.pos_iff_ne_zero.1 hN]
  -- the first N insertions fit
  have hne : others ≠ [] := by
    intro h
    rw [h] at hlen
    simp at hlen
    omega
  have hsplit : first :: others = (first :: others.dropLast) ++ [others.getLast hne] := by
    rw [List.cons_append, List.dropLast_append_getLast]
  have hdl : (first :: others.dropLast).length = N := by
    simp only [List.length_cons, List.length_dropLast]
    omega
  have hd1 : ((first :: others.dropLast).map Prod.fst).Nodup := by
    have := hd
    rw [hsplit, List.map_append] at this
    exact (List.nodup_append.1 this).1
  have hfit := IndexedCache.insertAll_fit (first :: others.dropLast)
    ({ hash := [], lru := [], capacity := N } : IndexedCache κ ε) rfl
    (by simpa using hd1) (by simp only [List.length_nil, Nat.zero_add]; omega)
  simp only [List.nil_append] at hfit
  have hall : ∀ (es : List (κ × ε)) (x : κ × ε) (c : IndexedCache κ ε),
      c.insertAll (es ++ [x]) =
        ((c.insertAll es).1 ++ [((c.insertAll es).2.insert x.1 x.2).1],
         ((c.insertAll es).2.insert x.1 x.2).2) := by
    intro es x
    induction es with
    | nil => intro c; simp [IndexedCache.insertAll]
    | cons p rest ih =>
      intro c
      show IndexedCache.insertAll c (p :: (rest ++ [x])) = _
      simp only [IndexedCache.insertAll, ih, List.cons_append]
  have hlast : others.getLast hne ∉ (first :: others.dropLast) := by
    intro hm
    have := hd
    rw [hsplit, List.map_append] at this
    exact (List.nodup_append.1 this).2.2 (List.mem_map_of_mem Prod.fst hm) (by simp)
  have hlastk : (others.getLast hne).1 ∉ (first :: others.dropLast).map Prod.fst := by
    intro hm
    have := hd
    rw [hsplit, List.map_append] at this
    exact (List.nodup_append.1 this).2.2 hm (by simp)
  have hins : (({ hash := first :: others.dropLast,
                  lru := (first :: others.dropLast).map Prod.fst,
                  capacity := N } : IndexedCache κ ε).insert
                (others.getLast hne).1 (others.getLast hne).2) =
      (.ok (), { hash := others, lru := others.map Prod.fst, capacity := N }) := by
    have hfind := IndexedCache.find_eq_none
      ({ hash := first :: others.dropLast, lru := (first :: others.dropLast).map Prod.fst,
         capacity := N } : IndexedCache κ ε) (others.getLast hne).1 hlastk
    have hfull : ((first :: others.dropLast).map Prod.fst).length = N := by
      rw [List.length_map]; exact hdl
    simp only [IndexedCache.insert, hfind, Option.isSome_none, Bool.false_eq_true, if_false,
      hfull, if_true]
    have hev : ({ hash := first :: others.dropLast,
                  lru := (first :: others.dropLast).map Prod.fst,
                  capacity := N } : IndexedCache κ ε).evict =
        { hash := others.dropLast, lru := others.dropLast.map Prod.fst, capacity := N } := by
      simp only [IndexedCache.evict, List.map_cons]
      rw [list_filter_head_key first others.dropLast hd1]
    rw [hev]
    simp only [Prod.mk.injEq, true_and]
    have h1 : others.dropLast ++ [((others.getLast hne).1, (others.getLast hne).2)] = others :=
      List.dropLast_append_getLast hne
    have h2 : others.dropLast.map Prod.fst ++ [(others.getLast hne).1] = others.map Prod.fst := by
      conv_rhs => rw [← List.dropLast_append_getLast hne]
      simp
    rw [h1, h2]
  have hfinal : (({ hash := [], lru := [], capacity := N } : IndexedCache κ ε).insertAll
      (first :: others)) =
      (List.replicate (N + 1) (.ok ()),
       { hash := others, lru := others.map Prod.fst, capacity := N }) := by
    rw [hsplit, hall, hfit, hins, hdl]
    simp [List.replicate_succ']
  have hcons : (first.1 :: others.map Prod.fst).Nodup := hd
  have hdo : (others.map Prod.fst).Nodup := (List.nodup_cons.1 hcons).2
  have hfo : first.1 ∉ others.map Prod.fst := (List.nodup_cons.1 hcons).1
  rw [hfinal, hfit]
  refine ⟨rfl, ?_, rfl, rfl, hfo, hfo, ?_, ?_⟩
  · exact IndexedCache.find_of_mem _ first (by simp) hd1
  · have := IndexedCache.find_eq_none
      ({ hash := others, lru := others.map Prod.fst, capacity := N } : IndexedCache κ ε)
      first.1 hfo
    simp [IndexedCache.lookup, this]
  · intro p hp
    have := IndexedCache.find_of_mem
      ({ hash := others, lru := others.map Prod.fst, capacity := N } : IndexedCache κ ε)
      p hp hdo
    simp [IndexedCache.lookup, this]

/-- C15 at capacity 6 with the seven zones of the unit test, keyed by name
and class. -/
theorem C15_eviction_of_least_recently_used_witness :
    (0 < 6 ∧
      [(("zone3", 43), 3), (("zone4", 44), 4), (("zone5", 45), 5), (("zone6", 46), 6),
        (("zone7", 47), 7), ((("zone8", 48) : String × Nat), (8 : Nat))].length = 6) ∧
    ∃ c0 : IndexedCache (String × Nat) Nat, IndexedCache.create 6 = .ok c0 ∧
      (c0.insertAll ((("zone2", 42), 2) ::
        [(("zone3", 43), 3), (("zone4", 44), 4), (("zone5", 45), 5), (("zone6", 46), 6),
          (("zone7", 47), 7), (("zone8", 48), 8)])).1 = List.replicate (6 + 1) (.ok ()) ∧
      ((c0.insertAll ((("zone2", 42), 2) ::
        [(("zone3", 43), 3), (("zone4", 44), 4), (("zone5", 45), 5), (("zone6", 46), 6),
          (("zone7", 47), 7), (("zone8", 48), 8)])).2.lookup ("zone2", 42)).1 = none := by
  obtain ⟨c0, h0, h1, -, -, -, -, -, h2, -⟩ :=
    C15_eviction_of_least_recently_used 6 ((("zone2", 42) : String × Nat), (2 : Nat))
      [(("zone3", 43), 3), (("zone4", 44), 4), (("zone5", 45), 5), (("zone6", 46), 6),
        (("zone7", 47), 7), (("zone8", 48), 8)] (by decide) rfl (by decide)
  exact ⟨⟨by decide, rfl⟩, c0, h0, h1, h2⟩

theorem IndexedCache.lookup_miss {κ ε : Type} [DecidableEq κ] (c : IndexedCache κ ε) (key : κ)
    (h : (c.lookup key).1 = none) : c.lookup key = (none, c) := by
  simp only [IndexedCache.lookup] at h ⊢
  split at h
  · cases h
  · rename_i hf
    simp [hf]

theorem IndexedCache.lookup_hit {κ ε : Type} [DecidableEq κ] (c : IndexedCache κ ε) (key : κ)
    (e : ε) (h : (c.lookup key).1 = some e) :
    c.lookup key = (some e, { c with lru := c.lru.filter (fun k => k ≠ key) ++ [key] }) ∧
    c.find key = some e := by
  simp only [IndexedCache.lookup] at h ⊢
  split at h
  · rename_i e2 hf
    simp only [Option.some.injEq] at h
    subst h
    simp [hf]
  · cases h

theorem zoneLookup_no_nameserver (env : Environment) (s : NameserverAddressStore)
    (zone : ZonePtr) (callback : Nat) (z : ZoneEntry)
    (hz : s.zones[zone]? = some z) (hn : z.nameservers = []) :
    s.zoneLookup env zone callback =
      { s with results := s.results ++ [(callback, Answer.unreachable)] } := by
  simp [NameserverAddressStore.zoneLookup, hz, hn]

theorem lookup_of_hit (env : Environment) (s : NameserverAddressStore) (zone : String)
    (class_code : Nat) (authority : AuthorityRRset) (additional : List GlueRRset)
    (callback : Nat) (cached : ZonePtr)
    (h : (s.zone_index.lookup (zone, class_code)).1 = some cached) :
    s.lookup env zone class_code authority additional callback =
      (.ok (), NameserverAddressStore.zoneLookup env
        { s with zone_index := (s.zone_index.lookup (zone, class_code)).2 } cached callback) := by
  obtain ⟨hl, -⟩ := IndexedCache.lookup_hit _ _ _ h
  simp only [NameserverAddressStore.lookup, hl]

theorem lookup_of_miss_valid (env : Environment) (s s1 : NameserverAddressStore) (zone : String)
    (class_code : Nat) (authority : AuthorityRRset) (additional : List GlueRRset)
    (callback : Nat) (ps : List NameserverPtr)
    (h : (s.zone_index.lookup (zone, class_code)).1 = none)
    (hv : NameserverAddressStore.validate zone class_code authority additional = none)
    (hr : NameserverAddressStore.resolveNameservers env class_code additional
      authority.nameservers s = (.ok ps, s1)) :
    s.lookup env zone class_code authority additional callback =
      (.ok (), NameserverAddressStore.zoneLookup env
        { s1 with
          zones := s1.zones ++ [⟨zone, class_code, ps, []⟩],
          zone_index := (s1.zone_index.insert (zone, class_code) s1.zones.length).2 }
        s1.zones.length callback) := by
  have hl := IndexedCache.lookup_miss _ _ h
  simp only [NameserverAddressStore.lookup, hl, hv, hr]

/-- C16, the claim refuted: `example.net` is in the zone index with a
nameserver that is being resolved; a lookup of it whose authority RRset has no
NS record returns normally without the callback being invoked. -/
theorem C16_counterexample :
    emptyAuthority.nameservers = [] ∧
    (askedStore.lookup exampleEnvironment "example.net." 1 emptyAuthority [] 101).1 = .ok () ∧
    (askedStore.lookup exampleEnvironment "example.net." 1 emptyAuthority [] 101).2.results
      = [] := by
  refine ⟨rfl, by rfl, by rfl⟩

/-- C16 as amended: a lookup that finds no entry for the zone in the zone
index and whose authority RRset is consistent and has no NS record returns
normally, invokes the caller's callback exactly once, with unreachable(),
sends the resolver nothing and leaves the nameserver entries as they were; so
does a lookup that finds a cached zone entry without nameservers, whatever
authority RRset it is given. -/
theorem C16_empty_delegation_unreachable (env : Environment) (s : NameserverAddressStore)
    (zone : String) (class_code : Nat) (authority : AuthorityRRset)
    (additional : List GlueRRset) (callback : Nat) :
    ((s.zone_index.lookup (zone, class_code)).1 = none →
      NameserverAddressStore.validate zone class_code authority additional = none →
      authority.nameservers = [] →
        (s.lookup env zone class_code authority additional callback).1 = .ok () ∧
        (s.lookup env zone class_code authority additional callback).2.results =
          s.results ++ [(callback, Answer.unreachable)] ∧
        (s.lookup env zone class_code authority additional callback).2.requests = s.requests ∧
        (s.lookup env zone class_code authority additional callback).2.nameservers =
          s.nameservers) ∧
    (∀ (cached : ZonePtr) (z : ZoneEntry),
      (s.zone_index.lookup (zone, class_code)).1 = some cached →
      s.zones[cached]? = some z → z.nameservers = [] →
        (s.lookup env zone class_code authority additional callback).1 = .ok () ∧
        (s.lookup env zone class_code authority additional callback).2.results =
          s.results ++ [(callback, Answer.unreachable)] ∧
        (s.lookup env zone class_code authority additional callback).2.requests = s.requests ∧
        (s.lookup env zone class_code authority additional callback).2.nameservers =
          s.nameservers) := by
  constructor
  · intro hmiss hvalid hempty
    have hr : NameserverAddressStore.resolveNameservers env class_code additional
        authority.nameservers s = (.ok [], s) := by
      rw [hempty]; rfl
    rw [lookup_of_miss_valid env s s zone class_code authority additional callback [] hmiss
      hvalid hr]
    rw [zoneLookup_no_nameserver env _ _ _ ⟨zone, class_code, [], []⟩ (by simp) rfl]
    exact ⟨rfl, rfl, rfl, rfl⟩
  · intro cached z hhit hz hn
    rw [lookup_of_hit env s zone class_code authority additional callback cached hhit]
    rw [zoneLookup_no_nameserver env
      { s with zone_index := (s.zone_index.lookup (zone, class_code)).2 } cached callback z hz hn]
    exact ⟨rfl, rfl, rfl, rfl⟩

/-- C16 as amended, at the empty store of the unit test. -/
theorem C16_empty_delegation_unreachable_witness :
    (emptyStore.lookup exampleEnvironment "example.net." 1 emptyAuthority [] 100).1 = .ok () ∧
    (emptyStore.lookup exampleEnvironment "example.net." 1 emptyAuthority [] 100).2.results =
      emptyStore.results ++ [(100, Answer.unreachable)] ∧
    (emptyStore.lookup exampleEnvironment "example.net." 1 emptyAuthority [] 100).2.requests =
      emptyStore.requests ∧
    (emptyStore.lookup exampleEnvironment "example.net." 1 emptyAuthority [] 100).2.nameservers =
      emptyStore.nameservers :=
  (C16_empty_delegation_unreachable exampleEnvironment emptyStore "example.net." 1
    emptyAuthority [] 100).1 rfl rfl rfl

theorem getElem?_set_self_of_some {α : Type} (l : List α) (i : Nat) (x y : α)
    (h : l[i]? = some x) : (l.set i y)[i]? = some y := by
  have hi : i < l.length := by
    rcases Nat.lt_or_ge i l.length with hlt | hge
    · exact hlt
    · rw [List.getElem?_eq_none hge] at h
      cases h
  simp [List.getElem?_set, hi]

theorem askOrRegister_unreachable (env : Environment) (s : NameserverAddressStore)
    (zone : ZonePtr) (p : NameserverPtr) (h : ResolverCallback)
    (hp : s.nameservers[p]? = some h) (hs : h.entry_.state_ = State.UNREACHABLE)
    (he : NameserverAddressStore.expired env h.entry_ = false) :
    s.askOrRegister env zone p = s := by
  simp [NameserverAddressStore.askOrRegister, hp, NameserverEntry.getState, hs, he]

theorem evaluate_single_unreachable (env : Environment) (s : NameserverAddressStore)
    (zone : ZonePtr) (z : ZoneEntry) (p : NameserverPtr) (h : ResolverCallback)
    (hz : s.zones[zone]? = some z) (hn : z.nameservers = [p])
    (hp : s.nameservers[p]? = some h) (hs : h.entry_.state_ = State.UNREACHABLE) :
    s.evaluate env zone =
      { s with
        zones := s.zones.set zone { z with waiting_callers := [] },
        results := s.results ++ z.waiting_callers.map fun c => (c, Answer.unreachable) } := by
  simp [NameserverAddressStore.evaluate, hz, hn, hp, NameserverEntry.getState, hs]

theorem zoneLookup_of_nameservers (env : Environment) (s : NameserverAddressStore)
    (zone : ZonePtr) (callback : Nat) (z : ZoneEntry)
    (hz : s.zones[zone]? = some z) (hne : z.nameservers ≠ []) :
    s.zoneLookup env zone callback =
      NameserverAddressStore.evaluate env
        (z.nameservers.foldl (fun s p => s.askOrRegister env zone p)
          { s with
            zones := s.zones.set zone
              { z with waiting_callers := z.waiting_callers ++ [callback] } })
        zone := by
  simp [NameserverAddressStore.zoneLookup, hz, hne]

theorem zoneLookup_single_unreachable (env : Environment) (s : NameserverAddressStore)
    (zone : ZonePtr) (callback : Nat) (z : ZoneEntry) (p : NameserverPtr)
    (h : ResolverCallback)
    (hz : s.zones[zone]? = some z) (hn : z.nameservers = [p])
    (hp : s.nameservers[p]? = some h) (hs : h.entry_.state_ = State.UNREACHABLE)
    (he : NameserverAddressStore.expired env h.entry_ = false) :
    (s.zoneLookup env zone callback).results =
      s.results ++ (z.waiting_callers ++ [callback]).map (fun c => (c, Answer.unreachable)) ∧
    (s.zoneLookup env zone callback).requests = s.requests ∧
    (s.zoneLookup env zone callback).nameservers = s.nameservers := by
  have hz1 := getElem?_set_self_of_some s.zones zone z
    { z with waiting_callers := z.waiting_callers ++ [callback] } hz
  have hne : z.nameservers ≠ [] := by rw [hn]; simp
  have hfold : ∀ s1 : NameserverAddressStore,
      z.nameservers.foldl (fun s p => s.askOrRegister env zone p) s1 =
        s1.askOrRegister env zone p := by
    intro s1
    rw [hn]
    rfl
  rw [zoneLookup_of_nameservers env s zone callback z hz hne, hfold]
  rw [askOrRegister_unreachable env
    { s with
      zones := s.zones.set zone { z with waiting_callers := z.waiting_callers ++ [callback] } }
    zone p h hp hs he]
  rw [evaluate_single_unreachable env
    { s with
      zones := s.zones.set zone { z with waiting_callers := z.waiting_callers ++ [callback] } }
    zone { z with waiting_callers := z.waiting_callers ++ [callback] } p h hz1 hn hp hs]
  exact ⟨rfl, rfl, rfl⟩

theorem resolveNameservers_single_hit (env : Environment) (s : NameserverAddressStore)
    (class_code : Nat) (additional : List GlueRRset) (name : String) (p : NameserverPtr)
    (h : (s.nameserver_index.lookup (name, class_code)).1 = some p) :
    NameserverAddressStore.resolveNameservers env class_code additional [name] s =
      (.ok [p], { s with nameserver_index := (s.nameserver_index.lookup (name, class_code)).2 }) := by
  obtain ⟨hl, -⟩ := IndexedCache.lookup_hit _ _ _ h
  simp only [NameserverAddressStore.resolveNameservers,
    NameserverAddressStore.resolveNameserver, hl]

/-- C17, the claim refuted, three times.  In a store whose nameserver index
holds one entry, the entry of `ns.example.com` has reached UNREACHABLE and has
then been evicted by the entry of another nameserver: a later lookup of
`example.com`, whose only nameserver is `ns.example.com`, sends the resolver
two new queries and does not answer the caller.  In a store where the entry
of `ns.example.com` was made at time 1000 from glue of TTL 100 and has reached
UNREACHABLE, a lookup of the same zone at time 2000 finds the entry expired,
sends the resolver two new queries and does not answer the caller.  After the
unit test `unreachableNS` has seen both queries fail, a lookup of
`example.org`, whose only nameserver is `ns.example.com`, with an additional
address RRset of class CH fails with InconsistentZone and answers nothing. -/
theorem C17_counterexample :
    ((evictedStore.nameservers.map fun h => (h.entry_.getName, h.entry_.getState)) =
        [("ns.example.com.", State.UNREACHABLE), ("ns.example.org.", State.IN_PROGRESS)] ∧
      evictedStore.results = [(100, Answer.unreachable)] ∧
      evictedStore.requests.length = 4 ∧
      (evictedStore.lookup exampleEnvironment "example.com." 1 comAuthority [] 102).2.requests.length
        = 6 ∧
      (evictedStore.lookup exampleEnvironment "example.com." 1 comAuthority [] 102).2.results =
        [(100, Answer.unreachable)]) ∧
    ((glueStore.nameservers.map fun h =>
        (h.entry_.getName, h.entry_.getState, h.entry_.expiration_)) =
        [("ns.example.com.", State.UNREACHABLE, 1100)] ∧
      glueStore.results = [(100, Answer.unreachable)] ∧
      glueStore.requests.length = 2 ∧
      (glueStore.lookup laterEnvironment "example.net." 1 exampleAuthority [] 101).2.requests.length
        = 4 ∧
      (glueStore.lookup laterEnvironment "example.net." 1 exampleAuthority [] 101).2.results =
        [(100, Answer.unreachable)]) ∧
    ((testStore.nameservers.map fun h => (h.entry_.getName, h.entry_.getState)) =
        [("ns.example.com.", State.UNREACHABLE)] ∧
      testStore.lookup exampleEnvironment "example.org." 1 comAuthority chaosAdditional 102 =
        (.error StoreError.InconsistentZone, testStore)) := by
  refine ⟨⟨by rfl, by rfl, by rfl, by rfl, by rfl⟩, ⟨by rfl, by rfl, by rfl, by rfl, by rfl⟩,
    ⟨by rfl, by rfl⟩⟩

/-- C17 as amended: let a nameserver entry be UNREACHABLE with an expiration
time that is not set or not past.  A lookup that finds the zone in the zone
index, with that entry as its one nameserver, and a lookup that finds no
entry for the zone, has RRsets that pass validation with one NS record, and
finds that nameserver in the nameserver index with that entry, returns
normally; the caller's callback is invoked exactly once, with unreachable(),
during the lookup (after the callers still waiting on the zone, if any), the
resolver receives no query and the nameserver entries are as they were. -/
theorem C17_unreachable_is_memoized (env : Environment) (s : NameserverAddressStore)
    (zone : String) (class_code : Nat) (authority : AuthorityRRset)
    (additional : List GlueRRset) (callback : Nat) (p : NameserverPtr) (h : ResolverCallback)
    (hp : s.nameservers[p]? = some h) (hs : h.entry_.getState = State.UNREACHABLE)
    (he : h.entry_.expiration_ = 0 ∨ env.now ≤ h.entry_.expiration_) :
    (∀ (cached : ZonePtr) (z : ZoneEntry),
      (s.zone_index.lookup (zone, class_code)).1 = some cached →
      s.zones[cached]? = some z → z.nameservers = [p] →
        (s.lookup env zone class_code authority additional callback).1 = .ok () ∧
        (s.lookup env zone class_code authority additional callback).2.results =
          s.results ++ z.waiting_callers.map (fun c => (c, Answer.unreachable)) ++
            [(callback, Answer.unreachable)] ∧
        (s.lookup env zone class_code authority additional callback).2.requests = s.requests ∧
        (s.lookup env zone class_code authority additional callback).2.nameservers =
          s.nameservers) ∧
    (∀ name : String,
      (s.zone_index.lookup (zone, class_code)).1 = none →
      NameserverAddressStore.validate zone class_code authority additional = none →
      authority.nameservers = [name] →
      (s.nameserver_index.lookup (name, class_code)).1 = some p →
        (s.lookup env zone class_code authority additional callback).1 = .ok () ∧
        (s.lookup env zone class_code authority additional callback).2.results =
          s.results ++ [(callback, Answer.unreachable)] ∧
        (s.lookup env zone class_code authority additional callback).2.requests = s.requests ∧
        (s.lookup env zone class_code authority additional callback).2.nameservers =
          s.nameservers) := by
  have hexp : NameserverAddressStore.expired env h.entry_ = false := by
    simp only [NameserverAddressStore.expired, decide_eq_false_iff_not, not_and, not_lt]
    intro hne
    rcases he with he | he
    · exact absurd he hne
    · exact he
  constructor
  · intro cached z hhit hz hn
    rw [lookup_of_hit env s zone class_code authority additional callback cached hhit]
    obtain ⟨h1, h2, h3⟩ := zoneLookup_single_unreachable env
      { s with zone_index := (s.zone_index.lookup (zone, class_code)).2 } cached callback z p h
      hz hn hp hs hexp
    refine ⟨rfl, ?_, h2, h3⟩
    rw [h1]
    simp
  · intro name hmiss hvalid hone hns
    have hr := resolveNameservers_single_hit env s class_code additional name p hns
    rw [← hone] at hr
    rw [lookup_of_miss_valid env s _ zone class_code authority additional callback [p] hmiss
      hvalid hr]
    obtain ⟨h1, h2, h3⟩ := zoneLookup_single_unreachable env
      { zones := s.zones ++ [⟨zone, class_code, [p], []⟩],
        nameservers := s.nameservers,
        zone_index := (s.zone_index.insert (zone, class_code) s.zones.length).2,
        nameserver_index := (s.nameserver_index.lookup (name, class_code)).2,
        requests := s.requests, results := s.results }
      s.zones.length callback ⟨zone, class_code, [p], []⟩ p h (by simp) rfl hp hs hexp
    exact ⟨rfl, h1, h2, h3⟩

/-- C17 as amended, at the store of the unit test `unreachableNS` after both
queries have failed, with the two lookups the test then makes, both with the
authority RRset owned by `example.com`: the same zone `example.net`, and the
new zone `example.org` with the same nameserver. -/
theorem C17_unreachable_is_memoized_witness :
    (testStore.nameservers[0]? = some unreachableHandler ∧
      unreachableHandler.entry_.getState = State.UNREACHABLE ∧
      unreachableHandler.entry_.expiration_ = 0) ∧
    (testStore.lookup exampleEnvironment "example.net." 1 comAuthority [] 102).2.results
      = testStore.results ++ [(102, Answer.unreachable)] ∧
    (testStore.lookup exampleEnvironment "example.net." 1 comAuthority [] 102).2.requests
      = testStore.requests ∧
    (testStore.lookup exampleEnvironment "example.org." 1 comAuthority [] 103).2.results
      = testStore.results ++ [(103, Answer.unreachable)] ∧
    (testStore.lookup exampleEnvironment "example.org." 1 comAuthority [] 103).2.requests
      = testStore.requests ∧
    testStore.results = [(100, Answer.unreachable), (101, Answer.unreachable)] ∧
    testStore.requests.length = 2 :=
  ⟨⟨by rfl, rfl, rfl⟩,
   ((C17_unreachable_is_memoized exampleEnvironment testStore "example.net." 1
      comAuthority [] 102 0 unreachableHandler (by rfl) rfl (Or.inl rfl)).1 0
      ⟨"example.net.", 1, [0], []⟩ (by rfl) (by rfl) rfl).2.1,
   ((C17_unreachable_is_memoized exampleEnvironment testStore "example.net." 1
      comAuthority [] 102 0 unreachableHandler (by rfl) rfl (Or.inl rfl)).1 0
      ⟨"example.net.", 1, [0], []⟩ (by rfl) (by rfl) rfl).2.2.1,
   ((C17_unreachable_is_memoized exampleEnvironment testStore "example.org." 1
      comAuthority [] 103 0 unreachableHandler (by rfl) rfl (Or.inl rfl)).2
      "ns.example.com." (by rfl) (by rfl) rfl (by rfl)).2.1,
   ((C17_unreachable_is_memoized exampleEnvironment testStore "example.org." 1
      comAuthority [] 103 0 unreachableHandler (by rfl) rfl (Or.inl rfl)).2
      "ns.example.com." (by rfl) (by rfl) rfl (by rfl)).2.2.1,
   by rfl, by rfl⟩

theorem askOrRegister_in_progress (env : Environment) (s : NameserverAddressStore)
    (zone : ZonePtr) (p : NameserverPtr) (h : ResolverCallback)
    (hp : s.nameservers[p]? = some h) (hs : h.entry_.state_ = State.IN_PROGRESS) :
    s.askOrRegister env zone p =
      { s with
        nameservers := s.nameservers.set p
          { h with entry_ := (h.entry_.ensureHasCallback zone zone).2 } } := by
  simp [NameserverAddressStore.askOrRegister, hp, NameserverEntry.getState, hs]

theorem evaluate_single_in_progress (env : Environment) (s : NameserverAddressStore)
    (zone : ZonePtr) (z : ZoneEntry) (p : NameserverPtr) (h : ResolverCallback)
    (hz : s.zones[zone]? = some z) (hn : z.nameservers = [p])
    (hp : s.nameservers[p]? = some h) (hs : h.entry_.state_ = State.IN_PROGRESS) :
    s.evaluate env zone = s := by
  simp [NameserverAddressStore.evaluate, hz, hn, hp, NameserverEntry.getState, hs]

theorem waitingOf_set (zones : List ZoneEntry) (zone other : ZonePtr) (z z2 : ZoneEntry)
    (hz : zones[zone]? = some z) :
    waitingOf (zones.set zone z2) other =
      if other = zone then z2.waiting_callers else waitingOf zones other := by
  have hi : zone < zones.length := by
    rcases Nat.lt_or_ge zone zones.length with hlt | hge
    · exact hlt
    · rw [List.getElem?_eq_none hge] at hz
      cases hz
  simp only [waitingOf, List.getElem?_set]
  by_cases he : other = zone
  · subst he
    simp [hi]
  · have he2 : ¬ zone = other := fun h => he h.symm
    simp [he, he2]

theorem flatMap_update_mem (keys : List ZonePtr) (zone : ZonePtr) (f g : ZonePtr → List Nat)
    (extra : List Nat) (hn : keys.Nodup) (hm : zone ∈ keys)
    (hz : g zone = f zone ++ extra) (ho : ∀ k, k ≠ zone → g k = f k) :
    (keys.flatMap g).Perm (keys.flatMap f ++ extra) := by
  induction keys with
  | nil => cases hm
  | cons k rest ih =>
    simp only [List.flatMap_cons]
    obtain ⟨hk, hrest⟩ := List.nodup_cons.1 hn
    by_cases he : k = zone
    · subst he
      have hsame : rest.flatMap g = rest.flatMap f := by
        apply List.flatMap_congr
        intro x hx
        exact ho x (fun h => hk (h ▸ hx))
      rw [hz, hsame, List.append_assoc, List.append_assoc]
      exact List.Perm.append_left _ List.perm_append_comm
    · have hm2 : zone ∈ rest := by
        rcases List.mem_cons.1 hm with h | h
        · exact absurd h.symm he
        · exact h
      rw [ho k he, List.append_assoc]
      exact List.Perm.append_left _ (ih hrest hm2)

theorem flatMap_update_not_mem (keys : List ZonePtr) (zone : ZonePtr)
    (f g : ZonePtr → List Nat) (hm : zone ∉ keys) (ho : ∀ k, k ≠ zone → g k = f k) :
    keys.flatMap g = keys.flatMap f := by
  apply List.flatMap_congr
  intro x hx
  exact ho x (fun h => hm (h ▸ hx))

theorem zoneLookup_resolving (env : Environment) (name : String) (class_code : Nat)
    (h : ResolverCallback) (callers : List Nat) (s : NameserverAddressStore)
    (zone : ZonePtr) (callback : Nat)
    (hr : Resolving name class_code h callers s) (hz : zone < s.zones.length) :
    ∃ h2, Resolving name class_code h2 (callers ++ [callback])
      (s.zoneLookup env zone callback) := by
  have hzs : s.zones[zone]? = some s.zones[zone] := List.getElem?_eq_getElem hz
  have hn := hr.zones zone _ hzs
  have hne : (s.zones[zone]).nameservers ≠ [] := by rw [hn]; simp
  have hfold : ∀ s1 : NameserverAddressStore,
      (s.zones[zone]).nameservers.foldl (fun s p => s.askOrRegister env zone p) s1 =
        s1.askOrRegister env zone 0 := by
    intro s1
    rw [hn]
    rfl
  have hp : s.nameservers[0]? = some h := by rw [hr.nameservers]; rfl
  have hst2 : ((h.entry_.ensureHasCallback zone zone).2).state_ = State.IN_PROGRESS ∧
      ((h.entry_.ensureHasCallback zone zone).2).ipCallbacks_.keys.Nodup ∧
      ∀ z, z ∈ ((h.entry_.ensureHasCallback zone zone).2).ipCallbacks_.keys ↔
        z = zone ∨ z ∈ h.entry_.ipCallbacks_.keys :=
    ensureHasCallback_keys h.entry_ zone zone hr.state hr.nodup
  have haddr : ((h.entry_.ensureHasCallback zone zone).2).address_ = [] := by
    simp only [NameserverEntry.ensureHasCallback]
    split
    · exact hr.address
    · split
      · exact hr.address
      · exact hr.address
  have hlookup : s.zoneLookup env zone callback =
      { s with
        zones := s.zones.set zone
          { s.zones[zone] with
            waiting_callers := (s.zones[zone]).waiting_callers ++ [callback] },
        nameservers := [{ h with entry_ := (h.entry_.ensureHasCallback zone zone).2 }] } := by
    have e1 := zoneLookup_of_nameservers env s zone callback _ hzs hne
    have e2 := askOrRegister_in_progress env
      { s with
        zones := s.zones.set zone
          { s.zones[zone] with
            waiting_callers := (s.zones[zone]).waiting_callers ++ [callback] } }
      zone 0 h hp hr.state
    have e3 : s.nameservers.set 0
        { h with entry_ := (h.entry_.ensureHasCallback zone zone).2 } =
        [{ h with entry_ := (h.entry_.ensureHasCallback zone zone).2 }] := by
      rw [hr.nameservers]; rfl
    have e4 := evaluate_single_in_progress env
      { s with
        zones := s.zones.set zone
          { s.zones[zone] with
            waiting_callers := (s.zones[zone]).waiting_callers ++ [callback] },
        nameservers := [{ h with entry_ := (h.entry_.ensureHasCallback zone zone).2 }] }
      zone
      { s.zones[zone] with
        waiting_callers := (s.zones[zone]).waiting_callers ++ [callback] }
      0 { h with entry_ := (h.entry_.ensureHasCallback zone zone).2 }
      (getElem?_set_self_of_some s.zones zone _ _ hzs) hn rfl hst2.1
    rw [e1, hfold, e2]
    simp only [e3]
    exact e4
  rw [hlookup]
  have hw : ∀ other, waitingOf (s.zones.set zone
      { s.zones[zone] with
        waiting_callers := (s.zones[zone]).waiting_callers ++ [callback] }) other =
      if other = zone then waitingOf s.zones zone ++ [callback] else waitingOf s.zones other := by
    intro other
    rw [waitingOf_set s.zones zone other _ _ hzs]
    simp only [waitingOf, hzs]
  refine ⟨{ h with entry_ := (h.entry_.ensureHasCallback zone zone).2 }, ?_⟩
  refine
    { nameservers := rfl
      state := hst2.1
      address := haddr
      rtt := hr.rtt
      nodup := hst2.2.1
      registered := ?_
      index := hr.index
      requests := hr.requests
      results := hr.results
      zones := ?_
      pointers := ?_
      pending := ?_ }
  · intro other hne2
    rw [hst2.2.2]
    by_cases he : other = zone
    · exact Or.inl he
    · refine Or.inr (hr.registered other ?_)
      have := hw other
      simp only [he, if_false] at this
      rw [← this]
      exact hne2
  · intro other z hoz
    by_cases he : zone = other
    · subst he
      have hoz2 : (s.zones.set zone
          { s.zones[zone] with
            waiting_callers := (s.zones[zone]).waiting_callers ++ [callback] })[zone]? =
          some z := hoz
      rw [getElem?_set_self_of_some s.zones zone _ _ hzs] at hoz2
      cases hoz2
      exact hn
    · have hoz2 : (s.zones.set zone
          { s.zones[zone] with
            waiting_callers := (s.zones[zone]).waiting_callers ++ [callback] })[other]? =
          some z := hoz
      rw [List.getElem?_set_ne he] at hoz2
      exact hr.zones other z hoz2
  · intro q hq
    simp only [List.length_set]
    exact hr.pointers q hq
  · by_cases hm : zone ∈ h.entry_.ipCallbacks_.keys
    · have hkeys : (h.entry_.ensureHasCallback zone zone).2 = h.entry_ := by
        rw [ensureHasCallback_known h.entry_ zone zone hr.state
          (fun hnone => ((find_eq_none_iff _ _).1 hnone) hm)]
      show (((h.entry_.ensureHasCallback zone zone).2).ipCallbacks_.keys.flatMap _).Perm _
      rw [hkeys]
      refine (flatMap_update_mem _ zone (waitingOf s.zones) _ [callback] hr.nodup hm ?_ ?_).trans
        (List.Perm.append_right _ hr.pending)
      · rw [hw]; simp
      · intro k hk
        rw [hw]; simp [hk]
    · obtain ⟨-, hperm⟩ := ensureHasCallback_new h.entry_ zone zone hr.state hm
      have hk : ((h.entry_.ensureHasCallback zone zone).2).ipCallbacks_.keys.Perm
          (zone :: h.entry_.ipCallbacks_.keys) := by
        simpa [CallbackMap.keys] using hperm.map Prod.fst
      have hempty : waitingOf s.zones zone = [] := by
        by_contra hcon
        exact hm (hr.registered zone hcon)
      show (((h.entry_.ensureHasCallback zone zone).2).ipCallbacks_.keys.flatMap _).Perm _
      refine (List.Perm.flatMap_right _ hk).trans ?_
      rw [List.flatMap_cons, hw, if_pos rfl, hempty, List.nil_append]
      rw [flatMap_update_not_mem _ zone (waitingOf s.zones) _ hm
        (fun k hk2 => by rw [hw]; simp [hk2])]
      exact List.perm_append_comm.trans (List.Perm.append_right _ hr.pending)

theorem IndexedCache.mem_insert_hash {κ ε : Type} [DecidableEq κ] (c : IndexedCache κ ε)
    (key : κ) (entry : ε) (q : κ × ε) (hq : q ∈ (c.insert key entry).2.hash) :
    q ∈ c.hash ∨ q = (key, entry) := by
  simp only [IndexedCache.insert] at hq
  split at hq
  · exact Or.inl hq
  · simp only [List.mem_append, List.mem_singleton] at hq
    rcases hq with hq | hq
    · left
      split at hq
      · simp only [IndexedCache.evict] at hq
        split at hq
        · exact hq
        · exact (List.mem_filter.1 hq).1
      · exact hq
    · exact Or.inr hq

theorem IndexedCache.mem_hash_of_find {κ ε : Type} [DecidableEq κ] (c : IndexedCache κ ε)
    (key : κ) (entry : ε) (h : c.find key = some entry) : (key, entry) ∈ c.hash := by
  simp only [IndexedCache.find, Option.map_eq_some'] at h
  obtain ⟨q, hq, he⟩ := h
  have hm := List.mem_of_find?_eq_some hq
  have hk := List.find?_some hq
  simp only [decide_eq_true_eq] at hk
  have : q = (key, entry) := by
    rw [← hk, ← he]
  rw [← this]
  exact hm

theorem waitingOf_append_empty (zones : List ZoneEntry) (z : ZoneEntry)
    (hz : z.waiting_callers = []) (zone : ZonePtr) :
    waitingOf (zones ++ [z]) zone = waitingOf zones zone := by
  simp only [waitingOf]
  rcases Nat.lt_trichotomy zone zones.length with hlt | heq | hgt
  · rw [List.getElem?_append_left hlt]
  · subst heq
    simp [hz]
  · have h1 : (zones ++ [z])[zone]? = none := by
      apply List.getElem?_eq_none
      simp only [List.length_append, List.length_cons, List.length_nil]
      omega
    have h2 : zones[zone]? = none := List.getElem?_eq_none (Nat.le_of_lt hgt)
    rw [h1, h2]

theorem lookup_resolving (env : Environment) (name : String) (class_code : Nat)
    (h : ResolverCallback) (callers : List Nat) (s : NameserverAddressStore)
    (zone : String) (callback : Nat) (hr : Resolving name class_code h callers s) :
    ∃ h2,
      (s.lookup env zone class_code (singleAuthority zone class_code name) [] callback).1 =
        .ok () ∧
      Resolving name class_code h2 (callers ++ [callback])
        (s.lookup env zone class_code (singleAuthority zone class_code name) [] callback).2 := by
  cases hl : (s.zone_index.lookup (zone, class_code)).1 with
  | some cached =>
    obtain ⟨hle, hfind⟩ := IndexedCache.lookup_hit _ _ _ hl
    rw [lookup_of_hit env s zone class_code _ [] callback cached hl]
    have hlt : cached < s.zones.length :=
      hr.pointers _ (IndexedCache.mem_hash_of_find _ _ _ hfind)
    have hr2 : Resolving name class_code h callers
        { s with zone_index := (s.zone_index.lookup (zone, class_code)).2 } :=
      { nameservers := hr.nameservers
        state := hr.state
        address := hr.address
        rtt := hr.rtt
        nodup := hr.nodup
        registered := hr.registered
        index := hr.index
        requests := hr.requests
        results := hr.results
        zones := hr.zones
        pointers := by
          intro q hq
          have hq2 : q ∈ (s.zone_index.lookup (zone, class_code)).2.hash := hq
          rw [hle] at hq2
          exact hr.pointers q hq2
        pending := hr.pending }
    obtain ⟨h2, hres⟩ := zoneLookup_resolving env name class_code h callers _ cached callback
      hr2 hlt
    exact ⟨h2, rfl, hres⟩
  | none =>
    have hv : NameserverAddressStore.validate zone class_code
        (singleAuthority zone class_code name) [] = none := by
      simp [NameserverAddressStore.validate, singleAuthority]
    have hns : (s.nameserver_index.lookup (name, class_code)).1 = some 0 := by
      simp [IndexedCache.lookup, IndexedCache.find, hr.index.1]
    obtain ⟨hnl, -⟩ := IndexedCache.lookup_hit _ _ _ hns
    have hrs := resolveNameservers_single_hit env s class_code [] name 0 hns
    rw [lookup_of_miss_valid env s _ zone class_code (singleAuthority zone class_code name) []
      callback [0] hl hv hrs]
    have hr2 : Resolving name class_code h callers
        { zones := s.zones ++ [⟨zone, class_code, [0], []⟩],
          nameservers := s.nameservers,
          zone_index := (s.zone_index.insert (zone, class_code) s.zones.length).2,
          nameserver_index := (s.nameserver_index.lookup (name, class_code)).2,
          requests := s.requests, results := s.results } :=
      { nameservers := hr.nameservers
        state := hr.state
        address := hr.address
        rtt := hr.rtt
        nodup := hr.nodup
        registered := by
          intro z hz
          have hz2 : waitingOf (s.zones ++ [⟨zone, class_code, [0], []⟩]) z ≠ [] := hz
          rw [waitingOf_append_empty _ _ rfl] at hz2
          exact hr.registered z hz2
        index := by
          show (s.nameserver_index.lookup (name, class_code)).2.hash = _ ∧
            (s.nameserver_index.lookup (name, class_code)).2.lru = _
          rw [hnl]
          simp [hr.index.1, hr.index.2]
        requests := hr.requests
        results := hr.results
        zones := by
          intro zp z hz
          have hz2 : (s.zones ++ [(⟨zone, class_code, [0], []⟩ : ZoneEntry)])[zp]? = some z := hz
          rcases Nat.lt_trichotomy zp s.zones.length with hlt | heq | hgt
          · rw [List.getElem?_append_left hlt] at hz2
            exact hr.zones zp z hz2
          · subst heq
            simp only [List.getElem?_concat_length, Option.some.injEq] at hz2
            rw [← hz2]
          · have : (s.zones ++ [(⟨zone, class_code, [0], []⟩ : ZoneEntry)])[zp]? = none := by
              apply List.getElem?_eq_none
              simp only [List.length_append, List.length_cons, List.length_nil]
              omega
            rw [this] at hz2
            cases hz2
        pointers := by
          intro q hq
          have hq2 : q ∈ (s.zone_index.insert (zone, class_code) s.zones.length).2.hash := hq
          show q.2 < (s.zones ++ [(⟨zone, class_code, [0], []⟩ : ZoneEntry)]).length
          simp only [List.length_append, List.length_cons, List.length_nil]
          rcases IndexedCache.mem_insert_hash _ _ _ q hq2 with hold | hnew
          · exact Nat.lt_of_lt_of_le (hr.pointers q hold) (Nat.le_add_right _ _)
          · rw [hnew]
            simp
        pending := by
          show (h.entry_.ipCallbacks_.keys.flatMap
            (waitingOf (s.zones ++ [⟨zone, class_code, [0], []⟩]))).Perm callers
          have : waitingOf (s.zones ++ [⟨zone, class_code, [0], []⟩]) = waitingOf s.zones := by
            funext z
            exact waitingOf_append_empty _ _ rfl z
          rw [this]
          exact hr.pending }
    obtain ⟨h2, hres⟩ := zoneLookup_resolving env name class_code h callers _ s.zones.length
      callback hr2 (by
        show s.zones.length < (s.zones ++ [(⟨zone, class_code, [0], []⟩ : ZoneEntry)]).length
        simp)
    exact ⟨h2, rfl, hres⟩

theorem lookupAll_resolving (env : Environment) (name : String) (class_code : Nat)
    (lookups : List (String × Nat)) (h : ResolverCallback) (callers : List Nat)
    (s : NameserverAddressStore) (hr : Resolving name class_code h callers s) :
    ∃ h2,
      (NameserverAddressStore.lookupAll env class_code name lookups s).1 =
        List.replicate lookups.length (.ok ()) ∧
      Resolving name class_code h2 (callers ++ lookups.map Prod.snd)
        (NameserverAddressStore.lookupAll env class_code name lookups s).2 := by
  induction lookups generalizing h callers s with
  | nil =>
    refine ⟨h, rfl, ?_⟩
    simpa [NameserverAddressStore.lookupAll] using hr
  | cons l rest ih =>
    obtain ⟨h1, hok, hr1⟩ := lookup_resolving env name class_code h callers s l.1 l.2 hr
    obtain ⟨h2, hoks, hr2⟩ := ih h1 (callers ++ [l.2]) _ hr1
    refine ⟨h2, ?_, ?_⟩
    · simp only [NameserverAddressStore.lookupAll, hok, hoks, List.length_cons,
        List.replicate_succ]
    · simpa [NameserverAddressStore.lookupAll] using hr2

theorem first_lookup_resolving (env : Environment) (name : String) (class_code : Nat)
    (zoneCapacity nameserverCapacity : Nat) (zone : String) (callback : Nat)
    (hn : 0 < nameserverCapacity) :
    ∃ h,
      (NameserverAddressStore.lookup env
        { zones := [], nameservers := [],
          zone_index := { hash := [], lru := [], capacity := zoneCapacity },
          nameserver_index := { hash := [], lru := [], capacity := nameserverCapacity },
          requests := [], results := [] }
        zone class_code (singleAuthority zone class_code name) [] callback).1 = .ok () ∧
      Resolving name class_code h [callback]
        (NameserverAddressStore.lookup env
          { zones := [], nameservers := [],
            zone_index := { hash := [], lru := [], capacity := zoneCapacity },
            nameserver_index := { hash := [], lru := [], capacity := nameserverCapacity },
            requests := [], results := [] }
          zone class_code (singleAuthority zone class_code name) [] callback).2 := by
  have hne : ¬ (0 = nameserverCapacity) := by omega
  have hl : NameserverAddressStore.lookup env
      { zones := [], nameservers := [],
        zone_index := { hash := [], lru := [], capacity := zoneCapacity },
        nameserver_index := { hash := [], lru := [], capacity := nameserverCapacity },
        requests := [], results := [] }
      zone class_code (singleAuthority zone class_code name) [] callback =
      (.ok (),
       { zones := [⟨zone, class_code, [0], [callback]⟩],
         nameservers := [(NameserverAddressStore.newNameserver name class_code).handlerAtFirstCall
           0 0],
         zone_index :=
           ((⟨[], [], zoneCapacity⟩ : IndexedCache (String × Nat) ZonePtr).insert
             (zone, class_code) 0).2,
         nameserver_index := { hash := [((name, class_code), 0)], lru := [(name, class_code)],
                               capacity := nameserverCapacity },
         requests := [(⟨name, class_code, RRType.A⟩, 0), (⟨name, class_code, RRType.AAAA⟩, 0)],
         results := [] }) := by
    simp [NameserverAddressStore.lookup, IndexedCache.lookup, IndexedCache.find,
      NameserverAddressStore.validate, singleAuthority,
      NameserverAddressStore.resolveNameservers, NameserverAddressStore.resolveNameserver,
      NameserverAddressStore.glue, IndexedCache.insert, hne,
      NameserverAddressStore.zoneLookup, NameserverAddressStore.askOrRegister,
      NameserverAddressStore.askAndRegister, NameserverAddressStore.newNameserver, Fetchable.initialState, NameserverEntry.getState,
      NameserverEntry.askIP, NameserverEntry.setState, TestResolver.resolve,
      NameserverEntry.ensureHasCallback, CallbackMap.assign, CallbackMap.find,
      NameserverAddressStore.evaluate, NameserverEntry.handlerAtFirstCall,
      NameserverEntry.getName, NameserverEntry.getClass]
  rw [hl]
  refine ⟨(NameserverAddressStore.newNameserver name class_code).handlerAtFirstCall 0 0,
    rfl, ?_⟩
  exact
    { nameservers := rfl
      state := rfl
      address := rfl
      rtt := rfl
      nodup := by
        simp [NameserverEntry.handlerAtFirstCall, NameserverAddressStore.newNameserver,
          CallbackMap.assign, CallbackMap.keys]
      registered := by
        intro z hz
        simp only [NameserverEntry.handlerAtFirstCall, NameserverAddressStore.newNameserver,
          CallbackMap.assign, CallbackMap.keys, List.map_cons, List.map_nil,
          List.mem_singleton]
        by_contra hne2
        apply hz
        cases z with
        | zero => exact absurd rfl hne2
        | succ n => simp [waitingOf]
      index := ⟨rfl, rfl⟩
      requests := rfl
      results := rfl
      zones := by
        intro zp z hz
        cases zp with
        | zero =>
          simp only [List.getElem?_cons_zero, Option.some.injEq] at hz
          rw [← hz]
        | succ n => simp at hz
      pointers := by
        intro q hq
        rcases IndexedCache.mem_insert_hash _ _ _ q hq with hold | hnew
        · cases hold
        · rw [hnew]
          exact Nat.zero_lt_one
      pending := by
        simp [NameserverEntry.handlerAtFirstCall, NameserverAddressStore.newNameserver,
          CallbackMap.assign, CallbackMap.keys, waitingOf] }

theorem evaluate_single_ready (env : Environment) (s : NameserverAddressStore)
    (zone : ZonePtr) (z : ZoneEntry) (p : NameserverPtr) (h : ResolverCallback)
    (hz : s.zones[zone]? = some z) (hn : z.nameservers = [p])
    (hp : s.nameservers[p]? = some h) (hs : h.entry_.state_ = State.READY) :
    s.evaluate env zone =
      { s with
        zones := s.zones.set zone { z with waiting_callers := [] },
        results := s.results ++
          z.waiting_callers.map fun c => (c, env.select h.entry_.address_) } := by
  simp [NameserverAddressStore.evaluate, hz, hn, hp, NameserverEntry.getState, hs]

theorem evaluate_no_zone (env : Environment) (s : NameserverAddressStore) (zone : ZonePtr)
    (hz : s.zones[zone]? = none) : s.evaluate env zone = s := by
  simp [NameserverAddressStore.evaluate, hz]

theorem evaluate_fold_ready (env : Environment) (h : ResolverCallback)
    (hs : h.entry_.state_ = State.READY) (keys : List ZonePtr) (hn : keys.Nodup)
    (s : NameserverAddressStore) (hns : s.nameservers = [h])
    (hz : ∀ (zone : ZonePtr) (z : ZoneEntry), s.zones[zone]? = some z → z.nameservers = [0]) :
    (keys.foldl (fun s zone => s.evaluate env zone) s).results =
      s.results ++ keys.flatMap
        (fun zone => (waitingOf s.zones zone).map fun c => (c, env.select h.entry_.address_)) ∧
    (keys.foldl (fun s zone => s.evaluate env zone) s).requests = s.requests := by
  induction keys generalizing s with
  | nil => simp
  | cons k rest ih =>
    obtain ⟨hk, hrest⟩ := List.nodup_cons.1 hn
    simp only [List.foldl_cons, List.flatMap_cons]
    cases hzk : s.zones[k]? with
    | none =>
      rw [evaluate_no_zone env s k hzk]
      obtain ⟨h1, h2⟩ := ih hrest s hns hz
      rw [h1, h2]
      simp [waitingOf, hzk]
    | some z =>
      have hp : s.nameservers[0]? = some h := by rw [hns]; rfl
      rw [evaluate_single_ready env s k z 0 h hzk (hz k z hzk) hp hs]
      obtain ⟨h1, h2⟩ := ih hrest
        { s with
          zones := s.zones.set k { z with waiting_callers := [] },
          results := s.results ++
            z.waiting_callers.map fun c => (c, env.select h.entry_.address_) }
        hns (by
          intro other z2 hoz
          by_cases he : k = other
          · subst he
            have hoz2 : (s.zones.set k { z with waiting_callers := [] })[k]? = some z2 := hoz
            rw [getElem?_set_self_of_some s.zones k _ _ hzk] at hoz2
            cases hoz2
            exact hz k z hzk
          · have hoz2 : (s.zones.set k { z with waiting_callers := [] })[other]? = some z2 := hoz
            rw [List.getElem?_set_ne he] at hoz2
            exact hz other z2 hoz2)
      rw [h1, h2]
      refine ⟨?_, rfl⟩
      have hsame : rest.flatMap (fun zone =>
          (waitingOf (s.zones.set k { z with waiting_callers := [] }) zone).map
            fun c => (c, env.select h.entry_.address_)) =
          rest.flatMap (fun zone =>
            (waitingOf s.zones zone).map fun c => (c, env.select h.entry_.address_)) := by
        apply List.flatMap_congr
        intro x hx
        have hne : x ≠ k := fun he => hk (he ▸ hx)
        rw [waitingOf_set s.zones k x z _ hzk, if_neg hne]
      show (s.results ++ _) ++ _ = _
      rw [hsame, List.append_assoc]
      simp [waitingOf, hzk]

theorem complete_resolving (env : Environment) (name : String) (class_code : Nat)
    (h : ResolverCallback) (callers : List Nat) (s : NameserverAddressStore)
    (answer : Message) (a : IOAddress)
    (hr : Resolving name class_code h callers s)
    (ha : answer.addresses = [a])
    (hsel : env.select [{ address := a, rtt := 1 }] = Answer.success a) :
    (s.complete env 0 (Completion.success answer)).results.Perm
      (callers.map fun c => (c, Answer.success a)) ∧
    (s.complete env 0 (Completion.success answer)).requests = s.requests := by
  have hne : answer.addresses ≠ [] := by rw [ha]; simp
  have hreq : s.requests[0]? = some (⟨name, class_code, RRType.A⟩, 0) := by
    rw [hr.requests]; rfl
  have hp : s.nameservers[0]? = some h := by rw [hr.nameservers]; rfl
  have hc : h.complete (Completion.success answer) = h.success answer := rfl
  have hcomplete : s.complete env 0 (Completion.success answer) =
      (h.success answer).2.foldl (fun s i => s.evaluate env i.zone)
        { s with nameservers := s.nameservers.set 0 (h.success answer).1 } := by
    simp only [NameserverAddressStore.complete, hreq, hp, hc]
  rw [hcomplete, success_with_address h answer hne]
  have hfold : ∀ (m : CallbackMap) (s1 : NameserverAddressStore),
      (ResolverCallback.dispatchCallbacks m).foldl (fun s i => s.evaluate env i.zone) s1 =
        m.keys.foldl (fun s zone => s.evaluate env zone) s1 := by
    intro m s1
    simp only [ResolverCallback.dispatchCallbacks, CallbackMap.keys, List.foldl_map]
  rw [hfold]
  have haddr : h.entry_.address_ ++ stamp h.rtt answer.addresses =
      [{ address := a, rtt := 1 }] := by
    rw [hr.address, hr.rtt, ha]
    simp [stamp, toUint32]
  obtain ⟨h1, h2⟩ := evaluate_fold_ready env
    { entry_ := { h.entry_ with
                    address_ := h.entry_.address_ ++ stamp h.rtt answer.addresses,
                    state_ := State.READY,
                    ipCallbacks_ := [],
                    waiting_responses_ := h.entry_.waiting_responses_ - 1 },
      rtt := h.rtt + answer.addresses.length }
    rfl h.entry_.ipCallbacks_.keys hr.nodup
    { s with
      nameservers := s.nameservers.set 0
        { entry_ := { h.entry_ with
                        address_ := h.entry_.address_ ++ stamp h.rtt answer.addresses,
                        state_ := State.READY,
                        ipCallbacks_ := [],
                        waiting_responses_ := h.entry_.waiting_responses_ - 1 },
          rtt := h.rtt + answer.addresses.length } }
    (by rw [hr.nameservers]; rfl) hr.zones
  rw [h1, h2]
  refine ⟨?_, rfl⟩
  simp only [hr.results, List.nil_append, haddr, hsel]
  have hmap : (h.entry_.ipCallbacks_.keys.flatMap fun zone =>
      (waitingOf s.zones zone).map fun c => (c, Answer.success a)) =
      (h.entry_.ipCallbacks_.keys.flatMap (waitingOf s.zones)).map
        fun c => (c, Answer.success a) := by
    rw [List.map_flatMap]
  rw [hmap]
  exact hr.pending.map _

/-- C18: in a store just created, a first lookup of a zone with one NS record
and no glue sends the resolver the A and the AAAA query for that nameserver.
Whatever lookups follow before the resolver answers, for the same zone or for
other zones whose NS RRset is that same nameserver, all return normally, the
resolver still holds exactly those two requests, and no callback has been
invoked.  When the resolver then answers the A query with one address, which
the selection policy accepts, the callbacks invoked are, up to order, exactly
one `success` with that address for every lookup made; with distinct
callbacks, no invocation is repeated and every lookup has its own. -/
theorem C18_pending_lookups_share_one_resolution (env : Environment) (name : String)
    (class_code zoneCapacity nameserverCapacity : Nat) (first : String × Nat)
    (further : List (String × Nat)) (answer : Message) (a : IOAddress)
    (hz : 0 < zoneCapacity) (hn : 0 < nameserverCapacity)
    (ha : answer.addresses = [a])
    (hsel : env.select [{ address := a, rtt := 1 }] = Answer.success a) :
    ∃ s0, NameserverAddressStore.create zoneCapacity nameserverCapacity = .ok s0 ∧
      (NameserverAddressStore.lookupAll env class_code name (first :: further) s0).1 =
        List.replicate (further.length + 1) (.ok ()) ∧
      (NameserverAddressStore.lookupAll env class_code name [first] s0).2.requests =
        [(⟨name, class_code, RRType.A⟩, 0), (⟨name, class_code, RRType.AAAA⟩, 0)] ∧
      (NameserverAddressStore.lookupAll env class_code name (first :: further) s0).2.requests =
        [(⟨name, class_code, RRType.A⟩, 0), (⟨name, class_code, RRType.AAAA⟩, 0)] ∧
      (NameserverAddressStore.lookupAll env class_code name (first :: further) s0).2.results =
        [] ∧
      (((NameserverAddressStore.lookupAll env class_code name (first :: further) s0).2.complete
          env 0 (Completion.success answer)).results.Perm
        ((first :: further).map fun l => (l.2, Answer.success a))) ∧
      (((first :: further).map Prod.snd).Nodup →
        ((NameserverAddressStore.lookupAll env class_code name (first :: further) s0).2.complete
          env 0 (Completion.success answer)).results.Nodup ∧
        ∀ l ∈ first :: further, (l.2, Answer.success a) ∈
          ((NameserverAddressStore.lookupAll env class_code name (first :: further) s0).2.complete
            env 0 (Completion.success answer)).results) ∧
      ((NameserverAddressStore.lookupAll env class_code name (first :: further) s0).2.complete
          env 0 (Completion.success answer)).requests =
        [(⟨name, class_code, RRType.A⟩, 0), (⟨name, class_code, RRType.AAAA⟩, 0)] := by
  refine ⟨{ zones := [], nameservers := [],
            zone_index := { hash := [], lru := [], capacity := zoneCapacity },
            nameserver_index := { hash := [], lru := [], capacity := nameserverCapacity },
            requests := [], results := [] }, ?_, ?_⟩
  · simp [NameserverAddressStore.create, IndexedCache.create, Nat.pos_iff_ne_zero.1 hz,
      Nat.pos_iff_ne_zero.1 hn]
  obtain ⟨h1, hok1, hr1⟩ := first_lookup_resolving env name class_code zoneCapacity
    nameserverCapacity first.1 first.2 hn
  obtain ⟨h2, hok2, hr2⟩ := lookupAll_resolving env name class_code further h1 [first.2] _ hr1
  obtain ⟨hperm, hreq⟩ := complete_resolving env name class_code h2 _ _ answer a hr2 ha hsel
  have hperm2 : ((NameserverAddressStore.lookupAll env class_code name (first :: further)
      { zones := [], nameservers := [],
        zone_index := { hash := [], lru := [], capacity := zoneCapacity },
        nameserver_index := { hash := [], lru := [], capacity := nameserverCapacity },
        requests := [], results := [] }).2.complete
        env 0 (Completion.success answer)).results.Perm
      ((first :: further).map fun l => (l.2, Answer.success a)) := by
    have : (first :: further).map (fun l => (l.2, Answer.success a)) =
        ([first.2] ++ further.map Prod.snd).map fun c => (c, Answer.success a) := by
      simp
    rw [this]
    exact hperm
  refine ⟨?_, hr1.requests, hr2.requests, hr2.results, hperm2, ?_, ?_⟩
  · show _ :: _ = _
    rw [hok1, hok2]
    simp [List.replicate_succ]
  · intro hnd
    have hinj : Function.Injective fun c : Nat => (c, Answer.success a) := by
      intro x y hxy
      simpa using hxy
    have hnd2 : ((first :: further).map fun l => (l.2, Answer.success a)).Nodup := by
      have : (first :: further).map (fun l => (l.2, Answer.success a)) =
          ((first :: further).map Prod.snd).map fun c => (c, Answer.success a) := by
        simp
      rw [this]
      exact List.Nodup.map hinj hnd
    refine ⟨(List.Perm.nodup_iff hperm2).2 hnd2, fun l hl => ?_⟩
    exact hperm2.mem_iff.2
      (List.mem_map_of_mem (fun l : String × Nat => (l.2, Answer.success a)) hl)
  · exact hreq.trans hr2.requests

/-- C18 at the unit test: `example.net` is looked up twice and `example.com`
once, all served by `ns.example.com`, and the A query is answered with
192.0.2.1. -/
theorem C18_pending_lookups_share_one_resolution_witness :
    ((0 < 10 ∧ 0 < 10) ∧ exampleAnswer.addresses = [exampleAddress] ∧
      exampleEnvironment.select [{ address := exampleAddress, rtt := 1 }] =
        Answer.success exampleAddress) ∧
    ((NameserverAddressStore.lookupAll exampleEnvironment 1 "ns.example.com."
        [("example.net.", 100), ("example.net.", 101), ("example.com.", 102)]
        emptyStore).2.complete exampleEnvironment 0
        (Completion.success exampleAnswer)).results.Perm
      ([("example.net.", 100), ("example.net.", 101), ("example.com.", 102)].map
        fun l => (l.2, Answer.success exampleAddress)) := by
  obtain ⟨s0, h0, -, -, -, -, hperm, -, -⟩ :=
    C18_pending_lookups_share_one_resolution exampleEnvironment "ns.example.com." 1 10 10
      ("example.net.", 100) [("example.net.", 101), ("example.com.", 102)] exampleAnswer
      exampleAddress (by decide) (by decide) rfl rfl
  have hs : s0 = emptyStore := by
    have h1 : NameserverAddressStore.create 10 10 = .ok emptyStore := rfl
    rw [h1] at h0
    cases h0
    rfl
  rw [hs] at hperm
  exact ⟨⟨⟨by decide, by decide⟩, rfl, rfl⟩, hperm⟩

/-- C25: a success completion whose answer section holds no address record
does exactly what a failure() completion does: on every handler and entry, in
whatever state, the two leave the same state, address list, pending-response
count, callback registry and RTT counter, and invoke the same callbacks in the
same order.  This holds for an answer section without RRset and for one whose
RRsets hold no rdata. -/
theorem C25_success_without_address_is_failure (cb : ResolverCallback) (response : Message) :
    (response.addresses = [] → cb.success response = cb.failure) ∧
    (response.addresses = [] →
      (cb.success response).1.entry_.getState = cb.failure.1.entry_.getState ∧
      (cb.success response).1.entry_.address_ = cb.failure.1.entry_.address_ ∧
      (cb.success response).1.entry_.waiting_responses_ =
        cb.failure.1.entry_.waiting_responses_ ∧
      (cb.success response).1.entry_.ipCallbacks_ = cb.failure.1.entry_.ipCallbacks_ ∧
      (cb.success response).2 = cb.failure.2) ∧
    cb.success { answer := [] } = cb.failure ∧
    ((∀ s ∈ response.answer, s.rdata = []) → cb.success response = cb.failure) := by
  have hmain : response.addresses = [] → cb.success response = cb.failure :=
    success_no_address cb response
  refine ⟨hmain, ?_, success_no_address cb _ rfl, ?_⟩
  · intro h
    rw [hmain h]
    exact ⟨rfl, rfl, rfl, rfl, rfl⟩
  · intro h
    apply hmain
    simp only [Message.addresses, List.flatMap_eq_nil_iff]
    exact h

theorem step_registry_state (w : World) (op : Op)
    (h : w.handler.entry_.ipCallbacks_ ≠ [] → w.handler.entry_.state_ = State.IN_PROGRESS) :
    (w.step op).handler.entry_.ipCallbacks_ ≠ [] →
      (w.step op).handler.entry_.state_ = State.IN_PROGRESS := by
  cases op with
  | askIP zone callback =>
    by_cases hs : w.handler.entry_.getState = State.NOT_ASKED
    · have hstep : (w.step (Op.askIP zone callback)).handler =
          w.handler.entry_.handlerAtFirstCall zone callback := by
        simp [World.step, askIP_test_resolver w.resolver _ zone callback hs]
      rw [hstep]
      exact fun _ => rfl
    · have : (w.step (Op.askIP zone callback)).handler.entry_ = w.handler.entry_ := by
        simp [World.step, NameserverEntry.askIP, hs]
      rw [this]
      exact h
  | ensureHasCallback zone callback =>
    simp only [World.step, NameserverEntry.ensureHasCallback, NameserverEntry.getState]
    split
    · exact h
    · rename_i hs
      simp only [ne_eq, not_not] at hs
      split
      · exact fun _ => hs
      · exact h
  | complete c =>
    show (w.handler.complete c).1.entry_.ipCallbacks_ ≠ [] →
      (w.handler.complete c).1.entry_.state_ = _
    cases hc : c.hasAddress with
    | true =>
      obtain ⟨m, -, hm, he⟩ := complete_with_address w.handler c hc
      rw [he, success_with_address _ m hm]
      intro hne
      exact absurd rfl hne
    | false =>
      rw [complete_no_address _ c hc]
      by_cases hp : w.handler.entry_.waiting_responses_ - 1 ≠ 0 ∨
          w.handler.entry_.state_ ≠ State.IN_PROGRESS
      · rw [failure_pending _ hp]
        exact h
      · simp only [not_or, not_not] at hp
        rw [failure_last _ hp.1 hp.2]
        intro hne
        exact absurd rfl hne
  | setAddressRTT address rtt => exact h
  | updateAddressRTTAtIndex rtt index =>
    simp only [World.step, NameserverEntry.updateAddressRTTAtIndex]
    split
    · exact h
    · exact h

theorem run_registry_state (ops : List Op) (w : World)
    (h : w.handler.entry_.ipCallbacks_ ≠ [] → w.handler.entry_.state_ = State.IN_PROGRESS) :
    (w.run ops).handler.entry_.ipCallbacks_ ≠ [] →
      (w.run ops).handler.entry_.state_ = State.IN_PROGRESS := by
  induction ops generalizing w with
  | nil => exact h
  | cons op rest ih => exact ih _ (step_registry_state w op h)

/-- C27: an entry the constructor has built has an empty zone-callback
registry, and every sequence of calls (askIP, ensureHasCallback, resolver
completions in any number, the RTT setters) on an entry for which a non-empty
registry means IN_PROGRESS leaves an entry for which it still does.  So in
every state reachable from construction, an entry that is NOT_ASKED, READY or
UNREACHABLE holds no waiting zone. -/
theorem C27_registry_only_in_progress (v4Set v6Set : Option AbstractRRset)
    (curtime now indeterminate : Int) (e : NameserverEntry) (w : World) (ops : List Op)
    (hc : NameserverEntry.construct v4Set v6Set curtime now indeterminate = .ok e)
    (hw : w.handler.entry_ = e) :
    e.ipCallbacks_ = [] ∧
    ((w.run ops).handler.entry_.ipCallbacks_ ≠ [] →
      (w.run ops).handler.entry_.getState = State.IN_PROGRESS) ∧
    ((w.run ops).handler.entry_.getState ≠ State.IN_PROGRESS →
      (w.run ops).handler.entry_.ipCallbacks_ = []) ∧
    (∀ (w2 : World) (ops2 : List Op),
      (w2.handler.entry_.ipCallbacks_ ≠ [] → w2.handler.entry_.getState = State.IN_PROGRESS) →
      (w2.run ops2).handler.entry_.ipCallbacks_ ≠ [] →
        (w2.run ops2).handler.entry_.getState = State.IN_PROGRESS) := by
  have he := (construct_state v4Set v6Set curtime now indeterminate e hc).2
  have hinv : (w.run ops).handler.entry_.ipCallbacks_ ≠ [] →
      (w.run ops).handler.entry_.state_ = State.IN_PROGRESS := by
    apply run_registry_state
    rw [hw, he]
    exact fun h => absurd rfl h
  refine ⟨he, hinv, ?_, fun w2 ops2 h2 => run_registry_state ops2 w2 h2⟩
  intro hs
  by_contra hne
  exact hs (hinv hne)

/-- C27 at the entry constructed from the example RRset without address:
asked by zone 7, zone 3 registers, both queries fail, zone 9 tries to
register. -/
theorem C27_registry_only_in_progress_witness :
    (NameserverEntry.construct (some exampleEmptySet) none 1000 0 0 = .ok constructedEntry) ∧
    ((World.run { resolver := [], handler := ⟨constructedEntry, 0⟩, invoked := [] }
        [Op.askIP 7 70, Op.ensureHasCallback 3 30, Op.complete Completion.failure,
         Op.complete Completion.failure, Op.ensureHasCallback 9 90]).handler.entry_.getState ≠
        State.IN_PROGRESS →
      (World.run { resolver := [], handler := ⟨constructedEntry, 0⟩, invoked := [] }
        [Op.askIP 7 70, Op.ensureHasCallback 3 30, Op.complete Completion.failure,
         Op.complete Completion.failure, Op.ensureHasCallback 9 90]).handler.entry_.ipCallbacks_ =
        []) :=
  ⟨by rfl,
   (C27_registry_only_in_progress (some exampleEmptySet) none 1000 0 0 constructedEntry
      { resolver := [], handler := ⟨constructedEntry, 0⟩, invoked := [] }
      [Op.askIP 7 70, Op.ensureHasCallback 3 30, Op.complete Completion.failure,
       Op.complete Completion.failure, Op.ensureHasCallback 9 90] (by rfl) rfl).2.2.1⟩

theorem complete_count (cb : ResolverCallback) (c : Completion) :
    (cb.complete c).1.entry_.waiting_responses_ = cb.entry_.waiting_responses_ - 1 := by
  cases hc : c.hasAddress with
  | true =>
    obtain ⟨m, -, hm, he⟩ := complete_with_address cb c hc
    rw [he, success_with_address cb m hm]
  | false =>
    rw [complete_no_address cb c hc]
    simp only [ResolverCallback.failure]
    split
    · rfl
    · rfl

theorem two_completions (cb : ResolverCallback) (c1 c2 : Completion)
    (hs : cb.entry_.state_ = State.IN_PROGRESS) (hw : cb.entry_.waiting_responses_ = 2) :
    ((cb.complete c1).1.complete c2).1.entry_.state_ =
      (if c1.hasAddress || c2.hasAddress then State.READY else State.UNREACHABLE) := by
  cases h1 : c1.hasAddress with
  | true =>
    obtain ⟨m, -, hm, he⟩ := complete_with_address cb c1 h1
    have hr : (cb.complete c1).1.entry_.state_ = State.READY := by
      rw [he, success_with_address cb m hm]
    simpa using complete_ready _ c2 hr
  | false =>
    have hfirst : cb.complete c1 =
        ({ cb with entry_ := { cb.entry_ with waiting_responses_ := 1 } }, []) := by
      rw [complete_no_address cb c1 h1, failure_pending cb (Or.inl (by rw [hw]; decide)), hw]
      rfl
    rw [hfirst]
    cases h2 : c2.hasAddress with
    | true =>
      obtain ⟨m, -, hm, he⟩ := complete_with_address
        { cb with entry_ := { cb.entry_ with waiting_responses_ := 1 } } c2 h2
      rw [he, success_with_address _ m hm]
      rfl
    | false =>
      rw [complete_no_address _ c2 h2, failure_last _ (by simp) (by simpa using hs)]
      rfl

/-- C28: on an entry on which askIP has succeeded, the pending-response count
is 2; whichever of two completions (failure, success without address, success
with addresses) is delivered first, the count is 1 after the first and exactly
0 after the second, so it is never below 0, and the final state is the same
for both orders: READY when at least one of the two carried an address,
UNREACHABLE otherwise. -/
theorem C28_two_completions_commute (requests : TestResolver) (e : NameserverEntry)
    (zone : ZonePtr) (callback : CallbackPtr) (c1 c2 : Completion)
    (hs : e.getState = State.NOT_ASKED) :
    ∃ handler : ResolverCallback,
      (e.askIP TestResolver.resolve requests zone callback).1 = .ok handler ∧
      handler.entry_.waiting_responses_ = 2 ∧
      (handler.completeAll [c1]).1.entry_.waiting_responses_ = 1 ∧
      (handler.completeAll [c2]).1.entry_.waiting_responses_ = 1 ∧
      (handler.completeAll [c1, c2]).1.entry_.waiting_responses_ = 0 ∧
      (handler.completeAll [c2, c1]).1.entry_.waiting_responses_ = 0 ∧
      (handler.completeAll [c1, c2]).1.entry_.getState =
        (if c1.hasAddress || c2.hasAddress then State.READY else State.UNREACHABLE) ∧
      (handler.completeAll [c2, c1]).1.entry_.getState =
        (if c1.hasAddress || c2.hasAddress then State.READY else State.UNREACHABLE) ∧
      (handler.completeAll [c1, c2]).1.entry_.getState =
        (handler.completeAll [c2, c1]).1.entry_.getState := by
  refine ⟨e.handlerAtFirstCall zone callback, ?_, rfl, ?_⟩
  · rw [askIP_test_resolver requests e zone callback hs]
  have hw : (e.handlerAtFirstCall zone callback).entry_.waiting_responses_ = 2 := rfl
  have hst : (e.handlerAtFirstCall zone callback).entry_.state_ = State.IN_PROGRESS := rfl
  have h12 := two_completions _ c1 c2 hst hw
  have h21 := two_completions _ c2 c1 hst hw
  rw [Bool.or_comm] at h21
  simp only [ResolverCallback.completeAll, NameserverEntry.getState]
  refine ⟨?_, ?_, ?_, ?_, h12, h21, h12.trans h21.symm⟩
  · rw [complete_count, hw]; rfl
  · rw [complete_count, hw]; rfl
  · rw [complete_count, complete_count, hw]; rfl
  · rw [complete_count, complete_count, hw]; rfl

/-- C28 at the example entry: the answer with 192.0.2.1 and a failure. -/
theorem C28_two_completions_commute_witness :
    exampleEntry.getState = State.NOT_ASKED ∧
    ∃ handler : ResolverCallback,
      (exampleEntry.askIP TestResolver.resolve [] 7 70).1 = .ok handler ∧
      handler.entry_.waiting_responses_ = 2 ∧
      (handler.completeAll [Completion.success exampleAnswer]).1.entry_.waiting_responses_ = 1 ∧
      (handler.completeAll [Completion.failure]).1.entry_.waiting_responses_ = 1 ∧
      (handler.completeAll
        [Completion.success exampleAnswer, Completion.failure]).1.entry_.waiting_responses_ = 0 ∧
      (handler.completeAll
        [Completion.failure, Completion.success exampleAnswer]).1.entry_.waiting_responses_ = 0 ∧
      (handler.completeAll
        [Completion.success exampleAnswer, Completion.failure]).1.entry_.getState =
        (if (Completion.success exampleAnswer).hasAddress || Completion.failure.hasAddress
          then State.READY else State.UNREACHABLE) ∧
      (handler.completeAll
        [Completion.failure, Completion.success exampleAnswer]).1.entry_.getState =
        (if (Completion.success exampleAnswer).hasAddress || Completion.failure.hasAddress
          then State.READY else State.UNREACHABLE) ∧
      (handler.completeAll
        [Completion.success exampleAnswer, Completion.failure]).1.entry_.getState =
        (handler.completeAll
          [Completion.failure, Completion.success exampleAnswer]).1.entry_.getState :=
  ⟨rfl, C28_two_completions_commute [] exampleEntry 7 70 (Completion.success exampleAnswer)
    Completion.failure rfl⟩

/-- C29: updateAddressRTTAtIndex(rtt, index) leaves the entry unchanged when
index is at least the number of addresses; otherwise the address list keeps
its length and its addresses, the entry at that index has the new RTT, every
other entry of the list is as it was, and nothing else of the entry has
changed. -/
theorem C29_updateAddressRTTAtIndex_frame (e : NameserverEntry) (rtt index : Nat) :
    (e.address_.length ≤ index → e.updateAddressRTTAtIndex rtt index = e) ∧
    (e.updateAddressRTTAtIndex rtt index).address_.length = e.address_.length ∧
    (e.updateAddressRTTAtIndex rtt index).address_.map AddressEntry.getAddress =
      e.address_.map AddressEntry.getAddress ∧
    (∀ x, e.address_[index]? = some x →
      (e.updateAddressRTTAtIndex rtt index).address_[index]? =
        some { address := x.address, rtt := rtt }) ∧
    (∀ j, j ≠ index →
      (e.updateAddressRTTAtIndex rtt index).address_[j]? = e.address_[j]?) ∧
    e.updateAddressRTTAtIndex rtt index =
      { e with address_ := (e.updateAddressRTTAtIndex rtt index).address_ } := by
  by_cases h : index ≥ e.address_.length
  · have he : e.updateAddressRTTAtIndex rtt index = e := by
      simp [NameserverEntry.updateAddressRTTAtIndex, h]
    rw [he]
    refine ⟨fun _ => rfl, rfl, rfl, ?_, fun _ _ => rfl, rfl⟩
    intro x hx
    rw [List.getElem?_eq_none h] at hx
    cases hx
  · have he : e.updateAddressRTTAtIndex rtt index =
        { e with address_ := e.address_.modify (fun a => a.setRTT rtt) index } := by
      simp [NameserverEntry.updateAddressRTTAtIndex, h]
    rw [he]
    refine ⟨fun hle => absurd hle h, by simp, ?_, ?_, ?_, rfl⟩
    · show (e.address_.modify (fun a => a.setRTT rtt) index).map AddressEntry.getAddress = _
      apply List.ext_getElem?
      intro j
      simp only [List.getElem?_map, List.getElem?_modify]
      by_cases hj : index = j
      · subst hj
        simp only [if_true]
        cases e.address_[index]? <;> rfl
      · simp only [hj, if_false]
        cases e.address_[j]? <;> rfl
    · intro x hx
      show (e.address_.modify (fun a => a.setRTT rtt) index)[index]? = _
      simp [List.getElem?_modify, hx, AddressEntry.setRTT]
    · intro j hj
      show (e.address_.modify (fun a => a.setRTT rtt) index)[j]? = _
      have hj2 : ¬ index = j := fun h2 => hj h2.symm
      simp [List.getElem?_modify, hj2]

/-- C22, the claim refuted: with curtime -100, which is not zero, a v4 set of
TTL 100 and a v6 set of TTL 300 the constructor sets the expiration time to
200, not to the minimum of the two expiry times, which is 0: an expiry time
of 0 reads as "not set". -/
theorem C22_counterexample :
    (-100 : Int) ≠ 0 ∧
    ∃ e, NameserverEntry.construct (some exampleGlue) (some exampleGlue6) (-100) 0 0 = .ok e ∧
      e.expiration_ = 200 ∧
      min ((-100 : Int) + exampleGlue.ttl) (-100 + exampleGlue6.ttl) = 0 ∧
      e.expiration_ ≠ min ((-100 : Int) + exampleGlue.ttl) (-100 + exampleGlue6.ttl) :=
  ⟨by decide, _, by rfl, by decide, by decide, by decide⟩

/-- C22 as amended: for every non-zero curtime the expiration time is curtime
+ TTL of the one set given, and 0 when none is given; with both sets given it
is the minimum of the two expiry times whenever curtime + TTL of the v4 set
is not 0, so for every curtime after the epoch, and curtime + TTL of the v6
set when curtime + TTL of the v4 set is 0, the value that reads as "not
set". -/
theorem C22_expiration_time (v4 v6 : AbstractRRset) (curtime now indeterminate : Int)
    (h : curtime ≠ 0) :
    (∃ e, NameserverEntry.construct (some v4) none curtime now indeterminate = .ok e ∧
      e.expiration_ = curtime + v4.ttl) ∧
    (∃ e, NameserverEntry.construct none (some v6) curtime now indeterminate = .ok e ∧
      e.expiration_ = curtime + v6.ttl) ∧
    (∃ e, NameserverEntry.construct none none curtime now indeterminate = .ok e ∧
      e.expiration_ = 0) ∧
    (∀ e, NameserverEntry.construct (some v4) (some v6) curtime now indeterminate = .ok e →
      (curtime + v4.ttl ≠ 0 → e.expiration_ = min (curtime + v4.ttl) (curtime + v6.ttl)) ∧
      (curtime + v4.ttl = 0 → e.expiration_ = curtime + v6.ttl) ∧
      (0 < curtime → e.expiration_ = min (curtime + v4.ttl) (curtime + v6.ttl))) ∧
    (0 < curtime → strcasecmp v4.name.toList v6.name.toList = 0 → v4.rrclass = v6.rrclass →
      ∃ e, NameserverEntry.construct (some v4) (some v6) curtime now indeterminate = .ok e ∧
        e.expiration_ = min (curtime + v4.ttl) (curtime + v6.ttl)) := by
  have hboth : ∀ e,
      NameserverEntry.construct (some v4) (some v6) curtime now indeterminate = .ok e →
      (curtime + v4.ttl ≠ 0 → e.expiration_ = min (curtime + v4.ttl) (curtime + v6.ttl)) ∧
      (curtime + v4.ttl = 0 → e.expiration_ = curtime + v6.ttl) ∧
      (0 < curtime → e.expiration_ = min (curtime + v4.ttl) (curtime + v6.ttl)) := by
    intro e he
    rw [construct_some_some] at he
    split at he
    · cases he
    · split at he
      · cases he
      · cases he
        simp only [h, if_false]
        refine ⟨fun hne => by rw [if_neg hne], fun heq => by rw [if_pos heq], fun hpos => ?_⟩
        have hne : curtime + (v4.ttl : Int) ≠ 0 := by
          have : (0 : Int) ≤ (v4.ttl : Int) := Int.ofNat_nonneg _
          omega
        rw [if_neg hne]
  refine ⟨?_, ?_, ?_, hboth, ?_⟩
  · rw [construct_some_none]
    exact ⟨_, rfl, by simp [h]⟩
  · rw [construct_none_some]
    exact ⟨_, rfl, by simp [h]⟩
  · rw [construct_none_none]
    exact ⟨_, rfl, rfl⟩
  · intro hpos hname hclass
    have hc := construct_some_some v4 v6 curtime now indeterminate
    rw [if_neg (by simpa using hname), if_neg (by simpa using hclass)] at hc
    exact ⟨_, hc, (hboth _ hc).2.2 hpos⟩

/-- C22 as amended, at curtime 1000 with the two example glue RRsets: with
the v4 set alone, and with both. -/
theorem C22_expiration_time_witness :
    (1000 : Int) ≠ 0 ∧
    (∃ e, NameserverEntry.construct (some exampleGlue) none 1000 0 0 = .ok e ∧
      e.expiration_ = 1000 + exampleGlue.ttl) ∧
    (∃ e, NameserverEntry.construct (some exampleGlue) (some exampleGlue6) 1000 0 0 = .ok e ∧
      e.expiration_ = min ((1000 : Int) + exampleGlue.ttl) (1000 + exampleGlue6.ttl)) :=
  ⟨by decide, (C22_expiration_time exampleGlue exampleGlue6 1000 0 0 (by decide)).1,
    (C22_expiration_time exampleGlue exampleGlue6 1000 0 0 (by decide)).2.2.2.2
      (by decide) (by decide) rfl⟩

theorem toUint32_succ (n : Nat) : toUint32 (toUint32 n + 1) = toUint32 (n + 1) := by
  simp only [toUint32]
  omega

theorem pushRdata_eq (as : List IOAddress) (l : List AddressEntry) (n : Nat) :
    NameserverEntry.pushRdata as (l, toUint32 n) =
      (l ++ stamp n as, toUint32 (n + as.length)) := by
  induction as generalizing l n with
  | nil => simp [NameserverEntry.pushRdata, stamp]
  | cons a rest ih =>
    simp only [NameserverEntry.pushRdata, toUint32_succ, stamp, List.length_cons]
    rw [ih]
    simp [Nat.add_assoc, Nat.add_comm 1]

theorem stamp_append (n : Nat) (as bs : List IOAddress) :
    stamp n (as ++ bs) = stamp n as ++ stamp (n + as.length) bs := by
  induction as generalizing n with
  | nil => simp [stamp]
  | cons a rest ih =>
    have hlen : n + 1 + rest.length = n + (rest.length + 1) := by omega
    show stamp n (a :: (rest ++ bs)) = stamp n (a :: rest) ++ _
    simp only [stamp, List.length_cons, List.cons_append]
    rw [ih, hlen]

theorem stamp_map_rtt (n : Nat) (as : List IOAddress) :
    (stamp n as).map (fun x => x.rtt) = (List.range' (n + 1) as.length).map toUint32 := by
  induction as generalizing n with
  | nil => simp [stamp]
  | cons a rest ih =>
    simp only [stamp, List.map_cons, List.length_cons, List.range'_succ, ih]

theorem stamp_getElem? (n : Nat) (as : List IOAddress) (i : Nat) :
    (stamp n as)[i]? = (as[i]?).map fun a => { address := a, rtt := toUint32 (n + i + 1) } := by
  induction as generalizing n i with
  | nil => simp [stamp]
  | cons a rest ih =>
    cases i with
    | zero => simp [stamp]
    | succ j =>
      simp only [stamp, List.getElem?_cons_succ, ih]
      have : n + 1 + j + 1 = n + (j + 1) + 1 := by omega
      rw [this]

theorem construct_address (v4Set v6Set : Option AbstractRRset) (curtime now indeterminate : Int)
    (e : NameserverEntry)
    (h : NameserverEntry.construct v4Set v6Set curtime now indeterminate = .ok e) :
    e.address_ =
      stamp 0 ((v4Set.map fun s => s.rdata).getD [] ++ (v6Set.map fun s => s.rdata).getD []) := by
  have h0 : (([] : List AddressEntry), 0) = ([], toUint32 0) := rfl
  cases v4Set with
  | none =>
    cases v6Set with
    | none =>
      rw [construct_none_none] at h
      cases h
      rfl
    | some v6 =>
      rw [construct_none_some, h0, pushRdata_eq] at h
      cases h
      simp
  | some v4 =>
    cases v6Set with
    | none =>
      rw [construct_some_none, h0, pushRdata_eq] at h
      cases h
      simp
    | some v6 =>
      rw [construct_some_some, h0, pushRdata_eq, pushRdata_eq] at h
      split at h
      · cases h
      · split at h
        · cases h
        · cases h
          simp [stamp_append]

/-- C23: the constructor builds the address list as the addresses of the v4
RRset in RRset order followed by those of the v6 RRset in RRset order.  The
RTT counter is a `uint32_t`, so the address at 1-based position i has RTT i
modulo 2^32: for the RRsets a run can supply, which hold fewer than 2^32
addresses in all, the address at position i has RTT i, the RTTs are non-zero
and pairwise distinct, and none is the UNREACHABLE sentinel, a constant above
the number of addresses. -/
theorem C23_constructor_addresses (v4Set v6Set : Option AbstractRRset)
    (curtime now indeterminate : Int) (e : NameserverEntry) (UNREACHABLE : Nat)
    (h : NameserverEntry.construct v4Set v6Set curtime now indeterminate = .ok e) :
    e.address_.map AddressEntry.getAddress =
      (v4Set.map fun s => s.rdata).getD [] ++ (v6Set.map fun s => s.rdata).getD [] ∧
    (∀ (i : Nat) (x : AddressEntry), e.address_[i]? = some x →
      x.rtt = (i + 1) % 4294967296) ∧
    (e.address_.length < 4294967296 →
      (∀ (i : Nat) (x : AddressEntry), e.address_[i]? = some x →
        x.rtt = i + 1 ∧ x.rtt ≠ 0 ∧ x.rtt ≤ e.address_.length) ∧
      (e.address_.map fun x => x.rtt).Nodup ∧
      (e.address_.length < UNREACHABLE → ∀ x ∈ e.address_, x.rtt ≠ UNREACHABLE)) := by
  have ha := construct_address v4Set v6Set curtime now indeterminate e h
  have hrtt : ∀ (i : Nat) (x : AddressEntry), e.address_[i]? = some x →
      x.rtt = (i + 1) % 4294967296 := by
    intro i x hx
    rw [ha, stamp_getElem?] at hx
    simp only [Option.map_eq_some'] at hx
    obtain ⟨a, -, rfl⟩ := hx
    simp [toUint32]
  have hlt : ∀ (i : Nat) (x : AddressEntry), e.address_[i]? = some x → i < e.address_.length := by
    intro i x hx
    rcases Nat.lt_or_ge i e.address_.length with hl | hg
    · exact hl
    · rw [List.getElem?_eq_none hg] at hx
      cases hx
  refine ⟨?_, hrtt, ?_⟩
  · rw [ha]
    exact stamp_map_address 0 _
  · intro hsmall
    have hexact : ∀ (i : Nat) (x : AddressEntry), e.address_[i]? = some x → x.rtt = i + 1 := by
      intro i x hx
      rw [hrtt i x hx]
      have := hlt i x hx
      exact Nat.mod_eq_of_lt (by omega)
    refine ⟨fun i x hx => ⟨hexact i x hx, by rw [hexact i x hx]; omega,
      by rw [hexact i x hx]; exact hlt i x hx⟩, ?_, ?_⟩
    · have hlen : (stamp 0 ((v4Set.map fun s => s.rdata).getD [] ++
          (v6Set.map fun s => s.rdata).getD [])).length < 4294967296 := by
        rw [← ha]; exact hsmall
      rw [ha, stamp_map_rtt]
      rw [stamp_length] at hlen
      refine List.Nodup.map_on ?_ (List.nodup_range' _ _)
      intro x hx y hy hxy
      simp only [List.mem_range'_1] at hx hy
      simp only [toUint32] at hxy
      omega
    · intro hu x hx
      obtain ⟨i, hi⟩ := List.getElem?_of_mem hx
      rw [hexact i x hi]
      have := hlt i x hi
      omega

/-- C23 at the entry built from the example glue RRset, with the sentinel
4294967295. -/
theorem C23_constructor_addresses_witness :
    NameserverEntry.construct (some exampleGlue) none 1000 0 0 = .ok glueEntry ∧
    glueEntry.address_.map AddressEntry.getAddress =
      ((some exampleGlue).map fun s => s.rdata).getD [] ++
        ((none : Option AbstractRRset).map fun s => s.rdata).getD [] ∧
    (∀ (i : Nat) (x : AddressEntry), glueEntry.address_[i]? = some x →
      x.rtt = i + 1 ∧ x.rtt ≠ 0 ∧ x.rtt ≤ glueEntry.address_.length) ∧
    (∀ x ∈ glueEntry.address_, x.rtt ≠ 4294967295) :=
  ⟨by rfl,
   (C23_constructor_addresses (some exampleGlue) none 1000 0 0 glueEntry 4294967295
      (by rfl)).1,
   ((C23_constructor_addresses (some exampleGlue) none 1000 0 0 glueEntry 4294967295
      (by rfl)).2.2 (by decide)).1,
   ((C23_constructor_addresses (some exampleGlue) none 1000 0 0 glueEntry 4294967295
      (by rfl)).2.2 (by decide)).2.2 (by decide)⟩

/-- C24: getAddresses(out, family) returns `out` followed by exactly those
AddressEntry values of the entry whose address family is `family`, in the
order they have in the entry; with family 0 it is `out` followed by every
AddressEntry of the entry.  What `out` held is kept in front, unchanged, and
the call, which is `const`, yields nothing but the new `out`. -/
theorem C24_getAddresses (e : NameserverEntry) (out : List AddressEntry) (family : Nat) :
    e.getAddresses AddressSelection out family =
      out ++ e.address_.filter (fun a => family = 0 ∨ a.getAddress.family = family) ∧
    e.getAddresses AddressSelection out 0 = out ++ e.address_ ∧
    (family ≠ 0 →
      e.getAddresses AddressSelection out family =
        out ++ e.address_.filter (fun a => a.getAddress.family = family)) ∧
    out <+: e.getAddresses AddressSelection out family ∧
    ((e.getAddresses AddressSelection out family).drop out.length).Sublist e.address_ ∧
    (∀ a, a ∈ (e.getAddresses AddressSelection out family).drop out.length ↔
      a ∈ e.address_ ∧ (family = 0 ∨ a.getAddress.family = family)) := by
  have hmain : e.getAddresses AddressSelection out family =
      out ++ e.address_.filter (fun a => family = 0 ∨ a.getAddress.family = family) := by
    simp only [NameserverEntry.getAddresses, AddressSelection, Bool.not_not]
    congr 1
    apply List.filter_congr
    intro a _
    simp
  refine ⟨hmain, ?_, ?_, ?_, ?_, ?_⟩
  · simp [NameserverEntry.getAddresses, AddressSelection]
  · intro hf
    rw [hmain]
    congr 1
    apply List.filter_congr
    intro a _
    simp [hf]
  · rw [hmain]
    exact List.prefix_append _ _
  · rw [hmain, List.drop_left]
    exact List.filter_sublist _
  · intro a
    rw [hmain, List.drop_left]
    simp [List.mem_filter]

theorem lockDiscipline_invokes (is : List Invocation) :
    lockDiscipline false (is.map LockEvent.invoke) = true := by
  induction is with
  | nil => rfl
  | cons i rest ih => simpa [lockDiscipline] using ih

theorem invocationsOf_invokes (is : List Invocation) :
    invocationsOf (is.map LockEvent.invoke) = is := by
  induction is with
  | nil => rfl
  | cons i rest ih => simp [invocationsOf, ih]

theorem failureEvents_discipline (cb : ResolverCallback) :
    lockDiscipline false cb.failureEvents = true ∧
    invocationsOf cb.failureEvents = cb.failure.2 := by
  simp only [ResolverCallback.failureEvents, ResolverCallback.failure]
  split
  · exact ⟨rfl, rfl⟩
  · refine ⟨?_, ?_⟩
    · simpa [lockDiscipline] using lockDiscipline_invokes _
    · simpa [invocationsOf] using invocationsOf_invokes _

/-- C21: in the events that success and failure make, on every handler and for
every response, the lock is free whenever a zone callback is invoked, the
registry is swapped out only while the lock is held, the lock is never taken
while held and is free at the end; the callbacks invoked in these events are
those the completion invokes, in the same order.  In particular every
invocation comes after an unlock with no lock in between. -/
theorem C21_dispatch_outside_lock (cb : ResolverCallback) (response : Message) :
    lockDiscipline false (cb.successEvents response) = true ∧
    lockDiscipline false cb.failureEvents = true ∧
    invocationsOf (cb.successEvents response) = (cb.success response).2 ∧
    invocationsOf cb.failureEvents = cb.failure.2 ∧
    (∀ (before after : List LockEvent) (i : Invocation),
      cb.successEvents response = before ++ LockEvent.invoke i :: after →
        lockDiscipline false before = true) ∧
    (∀ (before after : List LockEvent) (i : Invocation),
      cb.failureEvents = before ++ LockEvent.invoke i :: after →
        lockDiscipline false before = true) := by
  have hsplit : ∀ (events before after : List LockEvent) (i : Invocation) (held : Bool),
      lockDiscipline held events = true → events = before ++ LockEvent.invoke i :: after →
        lockDiscipline held before = true := by
    intro events before
    induction before generalizing events with
    | nil =>
      intro after i held hd he
      rw [he] at hd
      cases held with
      | false => rfl
      | true => simp [lockDiscipline] at hd
    | cons ev rest ih =>
      intro after i held hd he
      rw [he] at hd
      cases ev with
      | lock =>
        simp only [List.cons_append, lockDiscipline, Bool.and_eq_true] at hd ⊢
        exact ⟨hd.1, ih _ after i true hd.2 rfl⟩
      | unlock =>
        simp only [List.cons_append, lockDiscipline, Bool.and_eq_true] at hd ⊢
        exact ⟨hd.1, ih _ after i false hd.2 rfl⟩
      | swap =>
        simp only [List.cons_append, lockDiscipline, Bool.and_eq_true] at hd ⊢
        exact ⟨hd.1, ih _ after i held hd.2 rfl⟩
      | invoke j =>
        simp only [List.cons_append, lockDiscipline, Bool.and_eq_true] at hd ⊢
        exact ⟨hd.1, ih _ after i held hd.2 rfl⟩
  have hs : lockDiscipline false (cb.successEvents response) = true ∧
      invocationsOf (cb.successEvents response) = (cb.success response).2 := by
    simp only [ResolverCallback.successEvents, ResolverCallback.success]
    split
    · refine ⟨?_, ?_⟩
      · simpa [lockDiscipline] using lockDiscipline_invokes _
      · simpa [invocationsOf] using invocationsOf_invokes _
    · have hf := failureEvents_discipline
        (ResolverCallback.pushAddresses response.addresses cb)
      refine ⟨?_, ?_⟩
      · simpa [lockDiscipline] using hf.1
      · simpa [invocationsOf] using hf.2
  have hf := failureEvents_discipline cb
  exact ⟨hs.1, hf.1, hs.2, hf.2,
    fun before after i he => hsplit _ before after i false hs.1 he,
    fun before after i he => hsplit _ before after i false hf.1 he⟩


namespace socket_creator

theorem readMessage_snd (s : Channel) (where_ : List Char) (length : Nat) :
    (readMessage s where_ length).2 = { s with input := s.input.drop length } := by
  have hshort : ¬ length ≤ s.input.length → s.input.drop length = [] := by
    intro h
    exact List.drop_eq_nil_of_le (by omega)
  unfold readMessage read_data
  by_cases hl : length ≤ s.input.length
  · simp only [if_pos hl]
    split <;> rfl
  · simp only [if_neg hl, hshort hl]
    cases s.failing <;> (simp only [Bool.false_eq_true, if_false, if_true]; split <;> rfl)

theorem readMessage_after (s s1 : Channel) (where_ : List Char) (length : Nat)
    (r : Except Error (List Char)) (h : readMessage s where_ length = (r, s1)) :
    s1.input <:+ s.input ∧ s1.failing = s.failing := by
  have h2 := readMessage_snd s where_ length
  rw [h] at h2
  simp only at h2
  rw [h2]
  exact ⟨List.drop_suffix length s.input, rfl⟩

theorem readMessage_append (s : Channel) (where_ data rest : List Char) (length : Nat)
    (hlen : data.length = length) (hsize : length < 18446744073709551616)
    (h : s.input = data ++ rest) :
    readMessage s where_ length = (Except.ok data, { s with input := rest }) := by
  have hle : length ≤ s.input.length := by rw [h, List.length_append]; omega
  have hnot : ¬ (toSizeT (length : Int) < (length : Int)) := by
    simp only [toSizeT]
    omega
  unfold readMessage read_data
  simp only [if_pos hle, if_neg hnot]
  subst hlen
  simp [h]

theorem readMessage_cons (s : Channel) (where_ : List Char) (c : Char) (rest : List Char)
    (h : s.input = c :: rest) :
    readMessage s where_ 1 = (Except.ok [c], { s with input := rest }) :=
  readMessage_append s where_ [c] rest 1 rfl (by decide) (by rw [h]; rfl)

theorem readMessage_nil (s : Channel) (where_ : List Char) (h : s.input = [])
    (hf : s.failing = false) :
    readMessage s where_ 1 = (Except.error Error.ReadError, s) := by
  obtain ⟨input, failing, output, room, sent, closed⟩ := s
  simp only at h hf
  subst h hf
  simp [readMessage, read_data, toSizeT]

theorem readMessage_failing (s : Channel) (where_ : List Char) (length : Nat)
    (h : s.input = []) (hf : s.failing = true) (hpos : 0 < length)
    (hsize : length < 18446744073709551616) :
    readMessage s where_ length = (Except.ok where_, s) := by
  obtain ⟨input, failing, output, room, sent, closed⟩ := s
  simp only at h hf
  subst h hf
  have hl : ¬ length ≤ 0 := by omega
  have hnot : ¬ ((-1 : Int) % 18446744073709551616 < (length : Int)) := by omega
  simp only [readMessage, read_data, toSizeT, List.length_nil, if_neg hl, if_true, if_neg hnot,
    List.nil_append, List.drop_zero]

theorem writeMessage_frame (s : Channel) (what : List Char) :
    (writeMessage s what).2.input = s.input ∧ (writeMessage s what).2.sent = s.sent ∧
      (writeMessage s what).2.closed = s.closed ∧
      (writeMessage s what).2.failing = s.failing := by
  unfold writeMessage write_data
  cases s.room with
  | none => simp
  | some r => by_cases hr : what.length ≤ r <;> simp [hr]

theorem writeMessage_eq_frame (s s1 : Channel) (what : List Char) (r : Except Error Unit)
    (h : writeMessage s what = (r, s1)) :
    s1.input = s.input ∧ s1.sent = s.sent ∧ s1.closed = s.closed ∧ s1.failing = s.failing := by
  have := writeMessage_frame s what
  rw [h] at this
  exact this

theorem writeMessage_after (s s1 : Channel) (what : List Char) (r : Except Error Unit)
    (h : writeMessage s what = (r, s1)) :
    s1.input <:+ s.input ∧ s1.failing = s.failing := by
  obtain ⟨h1, -, -, h4⟩ := writeMessage_eq_frame s s1 what r h
  rw [h1]
  exact ⟨List.suffix_refl _, h4⟩

theorem protocolError_frame (s : Channel) (reason : Char) :
    (protocolError s reason).2.input = s.input ∧ (protocolError s reason).2.sent = s.sent ∧
      (protocolError s reason).2.closed = s.closed ∧
      (protocolError s reason).2.failing = s.failing := by
  unfold protocolError
  split
  · next e s1 heq => exact writeMessage_eq_frame _ _ _ _ heq
  · next u s1 heq => exact writeMessage_eq_frame _ _ _ _ heq

theorem protocolError_after (s : Channel) (reason : Char) :
    (protocolError s reason).2.input <:+ s.input ∧
      (protocolError s reason).2.failing = s.failing := by
  obtain ⟨h1, -, -, h4⟩ := protocolError_frame s reason
  rw [h1]
  exact ⟨List.suffix_refl _, h4⟩

theorem after_trans {a b c : Channel}
    (h1 : b.input <:+ a.input ∧ b.failing = a.failing)
    (h2 : c.input <:+ b.input ∧ c.failing = b.failing) :
    c.input <:+ a.input ∧ c.failing = a.failing :=
  ⟨h2.1.trans h1.1, h2.2.trans h1.2⟩

theorem readAddress_after (family : Char) (s : Channel) :
    (handleRequest.readAddress family s).2.input <:+ s.input ∧
      (handleRequest.readAddress family s).2.failing = s.failing := by
  unfold handleRequest.readAddress
  split
  · split
    · next e s1 heq => exact readMessage_after _ _ _ _ _ heq
    · next port s1 heq =>
      split
      · next e s2 heq2 =>
        exact after_trans (readMessage_after _ _ _ _ _ heq) (readMessage_after _ _ _ _ _ heq2)
      · next a s2 heq2 =>
        exact after_trans (readMessage_after _ _ _ _ _ heq) (readMessage_after _ _ _ _ _ heq2)
  · split
    · split
      · next e s1 heq => exact readMessage_after _ _ _ _ _ heq
      · next port s1 heq =>
        split
        · next e s2 heq2 =>
          exact after_trans (readMessage_after _ _ _ _ _ heq) (readMessage_after _ _ _ _ _ heq2)
        · next a s2 heq2 =>
          exact after_trans (readMessage_after _ _ _ _ _ heq) (readMessage_after _ _ _ _ _ heq2)
    · exact protocolError_after s 'I'

theorem reply_after (send_fd_fun close_fun : Int → Int) (errno : List Char) (result : Int)
    (s : Channel) :
    (handleRequest.reply send_fd_fun close_fun errno result s).2.input <:+ s.input ∧
      (handleRequest.reply send_fd_fun close_fun errno result s).2.failing = s.failing := by
  unfold handleRequest.reply
  split
  · split
    · next e s1 heq => exact writeMessage_after _ _ _ _ heq
    · next u s1 heq =>
      have := writeMessage_after _ _ _ _ heq
      split
      · exact this
      · split <;> exact this
  · split
    · next e s1 heq => exact writeMessage_after _ _ _ _ heq
    · next u s1 heq =>
      have h1 := writeMessage_after _ _ _ _ heq
      split
      · split
        · next e s2 heq2 => exact after_trans h1 (writeMessage_after _ _ _ _ heq2)
        · next u2 s2 heq2 =>
          exact after_trans (after_trans h1 (writeMessage_after _ _ _ _ heq2))
            (writeMessage_after s2 _ errno (writeMessage s2 errno).1 rfl)
      · split
        · split
          · next e s2 heq2 => exact after_trans h1 (writeMessage_after _ _ _ _ heq2)
          · next u2 s2 heq2 =>
            exact after_trans (after_trans h1 (writeMessage_after _ _ _ _ heq2))
              (writeMessage_after s2 _ errno (writeMessage s2 errno).1 rfl)
        · exact h1

theorem handleRequest_after (get_sock : Int → SockAddr → Nat → Int)
    (send_fd_fun close_fun : Int → Int) (errno : List Char) (indeterminate : Nat → Char)
    (s : Channel) :
    (handleRequest get_sock send_fd_fun close_fun errno indeterminate s).2.input <:+ s.input ∧
      (handleRequest get_sock send_fd_fun close_fun errno indeterminate s).2.failing =
        s.failing := by
  unfold handleRequest
  split
  · next e s1 heq => exact readMessage_after _ _ _ _ _ heq
  · next type s1 heq =>
    have h1 := readMessage_after _ _ _ _ _ heq
    split
    · exact after_trans h1 (protocolError_after s1 'I')
    · split
      · next e s2 heq2 =>
        have := readAddress_after (type.getD 1 ' ') s1
        rw [heq2] at this
        exact after_trans h1 this
      · next addr addr_len s2 heq2 =>
        have := readAddress_after (type.getD 1 ' ') s1
        rw [heq2] at this
        exact after_trans (after_trans h1 this) (reply_after _ _ _ _ s2)

theorem handleRequest_input_le (get_sock : Int → SockAddr → Nat → Int)
    (send_fd_fun close_fun : Int → Int) (errno : List Char) (indeterminate : Nat → Char)
    (s : Channel) :
    (handleRequest get_sock send_fd_fun close_fun errno indeterminate s).2.input.length ≤
      s.input.length :=
  (handleRequest_after get_sock send_fd_fun close_fun errno indeterminate s).1.length_le

theorem runLoop_zero (get_sock : Int → SockAddr → Nat → Int)
    (send_fd_fun close_fun : Int → Int) (errno : List Char) (indeterminate : Nat → Char)
    (s : Channel) :
    runLoop get_sock send_fd_fun close_fun errno indeterminate 0 s = none := rfl

theorem runLoop_succ (get_sock : Int → SockAddr → Nat → Int)
    (send_fd_fun close_fun : Int → Int) (errno : List Char) (indeterminate : Nat → Char)
    (fuel : Nat) (s : Channel) :
    runLoop get_sock send_fd_fun close_fun errno indeterminate (fuel + 1) s =
      match readMessage s [indeterminate 0] 1 with
      | (Except.error e, s1) => some (Except.error e, s1)
      | (Except.ok command, s1) =>
        if command.getD 0 ' ' = 'S' then
          match handleRequest get_sock send_fd_fun close_fun errno indeterminate s1 with
          | (Except.error e, s2) => some (Except.error e, s2)
          | (Except.ok _, s2) =>
            runLoop get_sock send_fd_fun close_fun errno indeterminate fuel s2
        else if command.getD 0 ' ' = 'T' then
          some (Except.ok (), s1)
        else
          some (Except.error (protocolError s1 'I').1, (protocolError s1 'I').2) := rfl

theorem runLoop_total (get_sock : Int → SockAddr → Nat → Int)
    (send_fd_fun close_fun : Int → Int) (errno : List Char) (indeterminate : Nat → Char)
    (fuel : Nat) :
    ∀ s : Channel, s.failing = false → s.input.length < fuel →
      ∃ r, runLoop get_sock send_fd_fun close_fun errno indeterminate fuel s = some r := by
  induction fuel with
  | zero => intro s _ h; omega
  | succ fuel ih =>
    intro s hf h
    cases hin : s.input with
    | nil =>
      refine ⟨(Except.error Error.ReadError, s), ?_⟩
      simp only [runLoop_succ, readMessage_nil s [indeterminate 0] hin hf]
    | cons c rest =>
      simp only [runLoop_succ, readMessage_cons s [indeterminate 0] c rest hin, List.getD_cons_zero]
      split
      · split
        · next e s2 heq => exact ⟨_, rfl⟩
        · next u s2 heq =>
          have := handleRequest_after get_sock send_fd_fun close_fun errno indeterminate
            { s with input := rest }
          rw [heq] at this
          simp only at this
          apply ih
          · rw [this.2]; exact hf
          · have hle := this.1.length_le
            rw [hin] at h
            simp only [List.length_cons] at h
            omega
      · split
        · exact ⟨_, rfl⟩
        · exact ⟨_, rfl⟩

theorem runLoop_terminates (get_sock : Int → SockAddr → Nat → Int)
    (send_fd_fun close_fun : Int → Int) (errno : List Char) (indeterminate : Nat → Char)
    (fuel : Nat) :
    ∀ s s3 : Channel, s.failing = false →
      runLoop get_sock send_fd_fun close_fun errno indeterminate fuel s =
        some (Except.ok (), s3) →
      Terminates get_sock send_fd_fun close_fun errno indeterminate s s3 := by
  induction fuel with
  | zero => intro s s3 _ h; simp [runLoop_zero] at h
  | succ fuel ih =>
    intro s s3 hf h
    cases hin : s.input with
    | nil => simp [runLoop_succ, readMessage_nil s [indeterminate 0] hin hf] at h
    | cons c rest =>
      simp only [runLoop_succ, readMessage_cons s [indeterminate 0] c rest hin, List.getD_cons_zero] at h
      split at h
      · next hc =>
        split at h
        · simp at h
        · next u s2 heq =>
          subst hc
          have := handleRequest_after get_sock send_fd_fun close_fun errno indeterminate
            { s with input := rest }
          rw [heq] at this
          simp only at this
          exact Terminates.request s s2 s3 rest hin heq
            (ih s2 s3 (by rw [this.2]; exact hf) h)
      · split at h
        · next hc =>
          subst hc
          simp only [Option.some.injEq, Prod.mk.injEq, true_and] at h
          rw [← h]
          exact Terminates.terminate s rest hin
        · simp at h

theorem terminates_runLoop (get_sock : Int → SockAddr → Nat → Int)
    (send_fd_fun close_fun : Int → Int) (errno : List Char) (indeterminate : Nat → Char)
    (s s3 : Channel)
    (h : Terminates get_sock send_fd_fun close_fun errno indeterminate s s3) :
    ∀ fuel, s.input.length < fuel →
      runLoop get_sock send_fd_fun close_fun errno indeterminate fuel s =
        some (Except.ok (), s3) := by
  induction h with
  | terminate s rest hin =>
    intro fuel hf
    cases fuel with
    | zero => omega
    | succ fuel => simp [runLoop_succ, readMessage_cons s [indeterminate 0] 'T' rest hin]
  | request s s2 s3 rest hin hr _ ih =>
    intro fuel hf
    cases fuel with
    | zero => omega
    | succ fuel =>
      simp only [runLoop_succ, readMessage_cons s [indeterminate 0] 'S' rest hin, List.getD_cons_zero, if_true, hr]
      apply ih
      have := handleRequest_input_le get_sock send_fd_fun close_fun errno indeterminate
        { s with input := rest }
      rw [hr] at this
      simp only at this
      rw [hin] at hf
      simp only [List.length_cons] at hf
      omega

theorem terminates_input (get_sock : Int → SockAddr → Nat → Int)
    (send_fd_fun close_fun : Int → Int) (errno : List Char) (indeterminate : Nat → Char)
    (s s3 : Channel)
    (h : Terminates get_sock send_fd_fun close_fun errno indeterminate s s3) :
    ∃ before : List Char, s.input = before ++ 'T' :: s3.input := by
  induction h with
  | terminate s rest hin => exact ⟨[], by simpa using hin⟩
  | request s s2 s3 rest hin hr _ ih =>
    obtain ⟨before, hb⟩ := ih
    have hsuf := (handleRequest_after get_sock send_fd_fun close_fun errno indeterminate
      { s with input := rest }).1
    rw [hr] at hsuf
    obtain ⟨mid, hmid⟩ := hsuf
    refine ⟨'S' :: (mid ++ before), ?_⟩
    simp only at hmid
    rw [hin, ← hmid, hb]
    simp

theorem protocolError_none (s : Channel) (reason : Char) (h : s.room = none) :
    protocolError s reason =
      (Error.ProtocolError, { s with output := s.output ++ ['F', reason] }) := by
  simp [protocolError, writeMessage, write_data, h]

theorem protocolError_room (s : Channel) (reason : Char) (r : Nat) (h : s.room = some r)
    (hr : 2 ≤ r) :
    protocolError s reason =
      (Error.ProtocolError,
        { s with output := s.output ++ ['F', reason], room := some (r - 2) }) := by
  simp [protocolError, writeMessage, write_data, h, hr]

theorem protocolError_full (s : Channel) (reason : Char) (r : Nat) (h : s.room = some r)
    (hr : r < 2) :
    protocolError s reason =
      (Error.WriteError,
        { s with output := s.output ++ ['F', reason].take r, room := some 0 }) := by
  have : ¬ 2 ≤ r := by omega
  simp [protocolError, writeMessage, write_data, h, this]

theorem runLoop_other (get_sock : Int → SockAddr → Nat → Int)
    (send_fd_fun close_fun : Int → Int) (errno : List Char) (indeterminate : Nat → Char)
    (s : Channel) (c : Char)
    (rest : List Char) (fuel : Nat) (h : s.input = c :: rest) (hS : c ≠ 'S') (hT : c ≠ 'T') :
    runLoop get_sock send_fd_fun close_fun errno indeterminate (fuel + 1) s =
      some (Except.error (protocolError { s with input := rest } 'I').1,
        (protocolError { s with input := rest } 'I').2) := by
  simp [runLoop_succ, readMessage_cons s [indeterminate 0] c rest h, hS, hT]

/-- A read that fails with an error does not make `readMessage` throw: the
result -1 of `read_data` is compared as a `size_t`.  On an input descriptor
on which every read fails, with `T` as the byte the variable `command`
happens to hold, `run` returns normally although no byte has been read; with
`X` it reports a protocol error for a command that nobody has sent. -/
theorem run_read_error :
    readMessage brokenInput ['T'] 1 = (Except.ok ['T'], brokenInput) ∧
    run get_sock5 succeed succeed [] (filledWith 'T') brokenInput =
      some (Except.ok (), brokenInput) ∧
    run get_sock5 succeed succeed [] (filledWith 'X') brokenInput =
      some (Except.error Error.ProtocolError, ⟨[], true, ['F', 'I'], none, [], []⟩) := by
  refine ⟨by rfl, by rfl, by rfl⟩

/-- C26, the claim as written fails: on the command byte `X`, with an output
descriptor that accepts one byte only, the loop writes the single byte `F` and
leaves with `WriteError`, not with `ProtocolError`. -/
theorem C26_counterexample :
    badCommand.input = ['X'] ∧
    (∀ indeterminate : Nat → Char,
      run get_sock5 succeed succeed [] indeterminate badCommand =
        some (Except.error Error.WriteError, ⟨[], false, ['F'], some 0, [], []⟩)) ∧
    ∀ (indeterminate : Nat → Char) (s : Channel),
      run get_sock5 succeed succeed [] indeterminate badCommand ≠
        some (Except.error Error.ProtocolError, s) := by
  have h : ∀ indeterminate : Nat → Char,
      run get_sock5 succeed succeed [] indeterminate badCommand =
        some (Except.error Error.WriteError, ⟨[], false, ['F'], some 0, [], []⟩) := by
    intro indeterminate
    rfl
  refine ⟨rfl, h, ?_⟩
  intro indeterminate s hs
  rw [h] at hs
  simp at hs

/-- C26 amended.  On an input descriptor that does not fail, the loop is left,
and it is left normally exactly when, after zero or more `S` requests handled
without exception, the next command byte is `T`; the input that remains is
then what followed that `T`.  At a command byte `c` other than `S` and `T`,
with `rest` the input after it: when the output descriptor takes the two
bytes, exactly `F`, `I` are written and `ProtocolError` is thrown; when it
does not, `WriteError` is thrown instead, after the part of `F`, `I` that went
out; in both cases no input after `c` is read.  (`run` is `runLoop` with one
turn more than the input has bytes.) -/
theorem C26_run_protocol (get_sock : Int → SockAddr → Nat → Int)
    (send_fd_fun close_fun : Int → Int) (errno : List Char) (indeterminate : Nat → Char)
    (s : Channel) (c : Char)
    (rest : List Char) (fuel : Nat) (h : s.input = c :: rest) (hS : c ≠ 'S') (hT : c ≠ 'T') :
    (∀ t : Channel, t.failing = false →
      ∃ r, run get_sock send_fd_fun close_fun errno indeterminate t = some r) ∧
    (∀ t t3 : Channel, t.failing = false →
      (run get_sock send_fd_fun close_fun errno indeterminate t = some (Except.ok (), t3) ↔
        Terminates get_sock send_fd_fun close_fun errno indeterminate t t3)) ∧
    (∀ t t3 : Channel, Terminates get_sock send_fd_fun close_fun errno indeterminate t t3 →
      ∃ before : List Char, t.input = before ++ 'T' :: t3.input) ∧
    (s.room = none →
      runLoop get_sock send_fd_fun close_fun errno indeterminate (fuel + 1) s =
        some (Except.error Error.ProtocolError,
          { s with input := rest, output := s.output ++ ['F', 'I'] })) ∧
    (∀ r : Nat, s.room = some r → 2 ≤ r →
      runLoop get_sock send_fd_fun close_fun errno indeterminate (fuel + 1) s =
        some (Except.error Error.ProtocolError,
          { s with input := rest, output := s.output ++ ['F', 'I'], room := some (r - 2) })) ∧
    (∀ r : Nat, s.room = some r → r < 2 →
      runLoop get_sock send_fd_fun close_fun errno indeterminate (fuel + 1) s =
        some (Except.error Error.WriteError,
          { s with input := rest, output := s.output ++ ['F', 'I'].take r, room := some 0 })) := by
  refine ⟨?_, ?_, ?_, ?_, ?_, ?_⟩
  · intro t hf
    exact runLoop_total get_sock send_fd_fun close_fun errno indeterminate _ t hf
      (Nat.lt_succ_self _)
  · intro t t3 hf
    constructor
    · exact runLoop_terminates get_sock send_fd_fun close_fun errno indeterminate _ t t3 hf
    · intro ht
      exact terminates_runLoop get_sock send_fd_fun close_fun errno indeterminate t t3 ht _
        (Nat.lt_succ_self _)
  · exact terminates_input get_sock send_fd_fun close_fun errno indeterminate
  · intro hroom
    rw [runLoop_other get_sock send_fd_fun close_fun errno indeterminate s c rest fuel h hS hT,
      protocolError_none { s with input := rest } 'I' hroom]
  · intro r hroom hr
    rw [runLoop_other get_sock send_fd_fun close_fun errno indeterminate s c rest fuel h hS hT,
      protocolError_room { s with input := rest } 'I' r hroom hr]
  · intro r hroom hr
    rw [runLoop_other get_sock send_fd_fun close_fun errno indeterminate s c rest fuel h hS hT,
      protocolError_full { s with input := rest } 'I' r hroom hr]

/-- C26 on the input `X`, `T` with an output descriptor that never fails:
`F`, `I` are written, `ProtocolError` is thrown and the `T` stays unread. -/
theorem C26_run_protocol_witness :
    (⟨['X', 'T'], false, [], none, [], []⟩ : Channel).input = 'X' :: ['T'] ∧
    'X' ≠ 'S' ∧ 'X' ≠ 'T' ∧
    run get_sock5 succeed succeed [] (filledWith 'T') ⟨['X', 'T'], false, [], none, [], []⟩ =
      some (Except.error Error.ProtocolError, ⟨['T'], false, ['F', 'I'], none, [], []⟩) :=
  ⟨rfl, by decide, by decide,
    (C26_run_protocol get_sock5 succeed succeed [] (filledWith 'T')
      ⟨['X', 'T'], false, [], none, [], []⟩ 'X' ['T'] 2
      rfl (by decide) (by decide)).2.2.2.1 rfl⟩

theorem readAddress_ok (t1 : Char) (s : Channel) (port address rest : List Char)
    (addr : SockAddr) (addr_len : Nat)
    (h1 : t1 = '4' ∧ address.length = 4 ∧ addr = ⟨AF_INET, port, address⟩ ∧ addr_len = 16 ∨
      t1 = '6' ∧ address.length = 16 ∧ addr = ⟨AF_INET6, port, address⟩ ∧ addr_len = 28)
    (hp : port.length = 2) (hin : s.input = port ++ address ++ rest) :
    handleRequest.readAddress t1 s = (Except.ok (addr, addr_len), { s with input := rest }) := by
  have hport : ∀ w, readMessage s w 2 = (Except.ok port, { s with input := address ++ rest }) :=
    fun w => readMessage_append s w port (address ++ rest) 2 hp (by decide)
      (by rw [hin, List.append_assoc])
  rcases h1 with ⟨ht, ha, haddr, hlen⟩ | ⟨ht, ha, haddr, hlen⟩
  · have haddress : ∀ w, readMessage { s with input := address ++ rest } w 4 =
        (Except.ok address, { s with input := rest }) :=
      fun w => readMessage_append { s with input := address ++ rest } w address rest 4 ha
        (by decide) rfl
    simp only [handleRequest.readAddress, ht, if_true, hport, haddress, haddr, hlen]
  · have haddress : ∀ w, readMessage { s with input := address ++ rest } w 16 =
        (Except.ok address, { s with input := rest }) :=
      fun w => readMessage_append { s with input := address ++ rest } w address rest 16 ha
        (by decide) rfl
    have h64 : ¬ ('6' = '4') := by decide
    simp only [handleRequest.readAddress, ht, h64, if_true, if_false, hport, haddress, haddr, hlen]

theorem handleRequest_request (get_sock : Int → SockAddr → Nat → Int)
    (send_fd_fun close_fun : Int → Int) (errno : List Char) (indeterminate : Nat → Char)
    (s : Channel) (t0 t1 : Char)
    (port address rest : List Char) (addr : SockAddr) (addr_len : Nat)
    (h0 : t0 = 'T' ∨ t0 = 'U')
    (h1 : t1 = '4' ∧ address.length = 4 ∧ addr = ⟨AF_INET, port, address⟩ ∧ addr_len = 16 ∨
      t1 = '6' ∧ address.length = 16 ∧ addr = ⟨AF_INET6, port, address⟩ ∧ addr_len = 28)
    (hp : port.length = 2) (hin : s.input = t0 :: t1 :: (port ++ address ++ rest)) :
    handleRequest get_sock send_fd_fun close_fun errno indeterminate s =
      handleRequest.reply send_fd_fun close_fun errno
        (get_sock (if t0 = 'T' then SOCK_STREAM else SOCK_DGRAM) addr addr_len)
        { s with input := rest } := by
  have htype : ∀ w, readMessage s w 2 =
      (Except.ok [t0, t1], { s with input := port ++ address ++ rest }) :=
    fun w => readMessage_append s w [t0, t1] (port ++ address ++ rest) 2 rfl (by decide)
      (by rw [hin]; rfl)
  have haddr := readAddress_ok t1 { s with input := port ++ address ++ rest } port address rest
    addr addr_len h1 hp rfl
  have hneg : ¬ (t0 ≠ 'T' ∧ t0 ≠ 'U') := by
    rcases h0 with h | h <;> simp [h]
  simp only [handleRequest, htype, List.getD_cons_zero, List.getD_cons_succ, if_neg hneg, haddr]

theorem reply_written (send_fd_fun close_fun : Int → Int) (errno : List Char) (result : Int)
    (s : Channel) (hres : 0 ≤ result) (hroom : s.room ≠ some 0) :
    (handleRequest.reply send_fd_fun close_fun errno result s).2.closed =
        s.closed ++ [result] ∧
      (handleRequest.reply send_fd_fun close_fun errno result s).2.sent = s.sent ++ [result] := by
  have hw : ∃ s1, writeMessage s ['S'] = (Except.ok (), s1) ∧ s1.closed = s.closed ∧
      s1.sent = s.sent := by
    obtain ⟨input, failing, output, room, sent, closed⟩ := s
    simp only at hroom
    cases room with
    | none =>
      exact ⟨⟨input, failing, output ++ ['S'], none, sent, closed⟩,
        by simp [writeMessage, write_data], rfl, rfl⟩
    | some r =>
      have : 1 ≤ r := by
        cases r with
        | zero => exact absurd rfl hroom
        | succ r => omega
      exact ⟨⟨input, failing, output ++ ['S'], some (r - 1), sent, closed⟩,
        by simp [writeMessage, write_data, this], rfl, rfl⟩
  obtain ⟨s1, hw1, hc, hs⟩ := hw
  simp only [handleRequest.reply, if_pos hres, hw1]
  split
  · exact ⟨by rw [hc], by rw [hs]⟩
  · split <;> exact ⟨by rw [hc], by rw [hs]⟩

theorem reply_unwritten (send_fd_fun close_fun : Int → Int) (errno : List Char) (result : Int)
    (s : Channel) (hres : 0 ≤ result) (hroom : s.room = some 0) :
    handleRequest.reply send_fd_fun close_fun errno result s =
      (Except.error Error.WriteError, s) := by
  obtain ⟨input, failing, output, room, sent, closed⟩ := s
  simp only at hroom
  subst hroom
  simp [handleRequest.reply, hres, writeMessage, write_data]

/-- C30, where the code leaks: for a request of a socket (type `T` or `U`,
family `4` or `6`, port and address complete) for which `get_sock` returns a
descriptor `fd >= 0`: on the example request with an output descriptor that
accepts nothing, `handleRequest` leaves with `WriteError` and `close_fun` has
not been called at all; in general, when the output descriptor has no room
for the `S` byte the request ends in `WriteError` with neither `send_fd_fun`
nor `close_fun` called, and when it has room `close_fun` is called on `fd`
exactly once, after one call of `send_fd_fun`, whatever the two return. -/
theorem C30_descriptor_closed (get_sock : Int → SockAddr → Nat → Int)
    (send_fd_fun close_fun : Int → Int) (errno : List Char) (indeterminate : Nat → Char)
    (s : Channel) (t0 t1 : Char)
    (port address rest : List Char) (addr : SockAddr) (addr_len : Nat)
    (h0 : t0 = 'T' ∨ t0 = 'U')
    (h1 : t1 = '4' ∧ address.length = 4 ∧ addr = ⟨AF_INET, port, address⟩ ∧ addr_len = 16 ∨
      t1 = '6' ∧ address.length = 16 ∧ addr = ⟨AF_INET6, port, address⟩ ∧ addr_len = 28)
    (hp : port.length = 2) (hin : s.input = t0 :: t1 :: (port ++ address ++ rest))
    (hres : 0 ≤ get_sock (if t0 = 'T' then SOCK_STREAM else SOCK_DGRAM) addr addr_len) :
    (0 ≤ get_sock5 SOCK_STREAM ⟨AF_INET, [Char.ofNat 0, Char.ofNat 5],
        [Char.ofNat 1, Char.ofNat 2, Char.ofNat 3, Char.ofNat 4]⟩ 16 ∧
      handleRequest get_sock5 succeed succeed [] indeterminate brokenOutput =
        (Except.error Error.WriteError, ⟨[], false, [], some 0, [], []⟩)) ∧
    (s.room = some 0 →
      handleRequest get_sock send_fd_fun close_fun errno indeterminate s =
        (Except.error Error.WriteError, { s with input := rest })) ∧
    (s.room ≠ some 0 →
      (handleRequest get_sock send_fd_fun close_fun errno indeterminate s).2.closed =
          s.closed ++ [get_sock (if t0 = 'T' then SOCK_STREAM else SOCK_DGRAM) addr addr_len] ∧
        (handleRequest get_sock send_fd_fun close_fun errno indeterminate s).2.sent =
          s.sent ++ [get_sock (if t0 = 'T' then SOCK_STREAM else SOCK_DGRAM) addr addr_len]) := by
  have hreq := handleRequest_request get_sock send_fd_fun close_fun errno indeterminate s t0 t1
    port address rest addr addr_len h0 h1 hp hin
  refine ⟨⟨by decide, rfl⟩, ?_, ?_⟩
  · intro hroom
    rw [hreq]
    exact reply_unwritten send_fd_fun close_fun errno _ { s with input := rest } hres hroom
  · intro hroom
    rw [hreq]
    exact reply_written send_fd_fun close_fun errno _ { s with input := rest } hres hroom

/-- C30 on a well-formed request with an output descriptor that never fails:
descriptor 5 is sent once and closed once. -/
theorem C30_descriptor_closed_witness :
    (0 : Int) ≤ get_sock5 SOCK_STREAM ⟨AF_INET, ['a', 'b'], ['1', '2', '3', '4']⟩ 16 ∧
    (handleRequest get_sock5 succeed succeed [] (filledWith 'T')
      ⟨['T', '4', 'a', 'b', '1', '2', '3', '4'], false, [], none, [], []⟩).2.closed = [5] :=
  ⟨by decide,
    ((C30_descriptor_closed get_sock5 succeed succeed [] (filledWith 'T')
      ⟨['T', '4', 'a', 'b', '1', '2', '3', '4'], false, [], none, [], []⟩ 'T' '4' ['a', 'b']
      ['1', '2', '3', '4'] [] ⟨AF_INET, ['a', 'b'], ['1', '2', '3', '4']⟩ 16 (Or.inl rfl)
      (Or.inl ⟨rfl, rfl, rfl, rfl⟩) rfl rfl (by decide)).2.2 (by decide)).1⟩

end socket_creator

end nsas
